import Mathlib

/-!
# Verification of the choicescript-tree front-end toolchain

Shallow embedding of the repository's source files and proofs of the
specification claims about them.  The embedding covers:

* `src/scanner/expression-handler.ts` — the expression sub-tokenizer
  (`tokenizeExpressionString`, second variant of the file, the one taking
  `indent` and `sceneName` arguments);
* `src/parser/parser.ts` — the recursive-descent expression parser;
* `src/claude/statemachine.ts` (with `command-parser.ts`, `types.ts` and
  `choice-parser.ts`) — the flow-graph builder `ChoiceScriptStateMachine`.

Modelling conventions:

* JS strings are Lean `String`s; character-indexed loops work over
  `String.data : List Char` with an explicit cursor.
* JS `Map`/`Set` (insertion ordered) are association lists / duplicate-free
  lists with explicit `set`/`add` helpers reproducing the JS semantics.
* JS numbers used as indentation levels are modelled by `ℚ` (`Rat`);
  the source divides two small integers, which `ℚ` models exactly.
* JS exceptions are modelled by an explicit error component carried next to
  the state (mutations performed before a `throw` survive it, exactly as
  mutations of `this` survive a JS exception).
* Unbounded loops are modelled with an explicit fuel argument so that every
  definition is executable; fuel-sufficiency is proved where the claims
  require termination.
-/

namespace ExpressionHandler

/-- `isDigit` from `expression-handler.ts`: char code in `[48, 57]`. -/
def isDigit (c : Char) : Bool :=
  decide (48 ≤ c.toNat ∧ c.toNat ≤ 57)

/-- `isLetter` from `expression-handler.ts`: char code in `[65,90] ∪ [97,122]`. -/
def isLetter (c : Char) : Bool :=
  decide ((65 ≤ c.toNat ∧ c.toNat ≤ 90) ∨ (97 ≤ c.toNat ∧ c.toNat ≤ 122))

/-- `isLetterOrUnderscore` from `expression-handler.ts`. -/
def isLetterOrUnderscore (c : Char) : Bool :=
  isLetter c || c = '_'

/-- `isAlphanumericOrUnderscore` from `expression-handler.ts`. -/
def isAlphanumericOrUnderscore (c : Char) : Bool :=
  isLetter c || isDigit c || c = '_'

/-- The characters a numeric-literal run absorbs (`isDigit(expression[cursor])
|| expression[cursor] === '.'` in the source's collection loop). -/
def isNumRunChar (c : Char) : Bool :=
  isDigit c || c = '.'

/-- Flattened embedding of the scanner's expression token union
(`NumberLiteralToken`, `StringLiteralToken`, operators, …).  The TS tokens
are records with a string `type` discriminant plus payload fields; unused
payload fields default to `""`.  For `NumberLiteral` the source stores
`parseFloat(value)` of the collected characters; we store the collected
characters themselves (IEEE-754 parsing is outside the embedding, and every
claim is about the extent of the collected run, not its float value). -/
structure ExprToken where
  type : String
  value : String := ""
  operator : String := ""
  rawValue : String := ""
  position : Nat
  lineNumber : Nat
  sceneName : String
  indent : Rat
deriving DecidableEq, Repr

/-- Character at absolute index `i`; the source only reads `expression[cursor]`
under a bounds check, so the default is never observed. -/
def charAt (e : List Char) (i : Nat) : Char :=
  e.getD i (Char.ofNat 0)

/-- The string-literal collection loop of `tokenizeExpressionString`
(`while (cursor < length && expression[cursor] !== quote) …` with the
single-character backslash escape).  Works on the characters from the cursor
on; returns the collected value characters and the number of characters
consumed by the loop (the closing quote, if present, is consumed by the
caller). -/
def scanQuoted (quote : Char) : List Char → (List Char × Nat)
  | [] => ([], 0)
  | c :: rest =>
    if c = quote then ([], 0)
    else if c = '\\' ∧ rest ≠ [] then
      match rest with
      | [] => ([], 0)
      | d :: rest' =>
        let (v, n) := scanQuoted quote rest'
        (d :: v, n + 2)
    else
      let (v, n) := scanQuoted quote rest
      (c :: v, n + 1)

/-- The two-character window `expression.substring(cursor, cursor + 2)`. -/
def twoChars (e : List Char) (cursor : Nat) : List Char :=
  (e.drop cursor).take 2

/-- The `switch (twoChars)` of `tokenizeExpressionString`'s multi-character
operator handling: `none` when no case matches (fall through).  The
`$!\x7b` / `$!!\x7b` cases of the source compare the two-character window
with a 3- resp. 4-character string and can therefore never match; they are
reproduced verbatim. -/
def twoCharTok (w : List Char) (startPos lineNumber : Nat) (indent : Rat)
    (sceneName : String) : Option ExprToken :=
  if w = ['%', '+'] then
    some { type := "ArithmeticOperator", operator := "fairmath_addition",
           rawValue := "%+", position := startPos, lineNumber, sceneName, indent }
  else if w = ['%', '-'] then
    some { type := "ArithmeticOperator", operator := "fairmath_subtraction",
           rawValue := "%-", position := startPos, lineNumber, sceneName, indent }
  else if w = ['>', '='] then
    some { type := "ComparisonOperator", operator := "greater_than_equals",
           rawValue := ">=", position := startPos, lineNumber, sceneName, indent }
  else if w = ['<', '='] then
    some { type := "ComparisonOperator", operator := "less_than_equals",
           rawValue := "<=", position := startPos, lineNumber, sceneName, indent }
  else if w = ['!', '='] then
    some { type := "ComparisonOperator", operator := "not_equals",
           rawValue := "!=", position := startPos, lineNumber, sceneName, indent }
  else if w = ['@', '\x7b'] then
    some { type := "OpenMultiReplace", position := startPos, lineNumber, sceneName, indent }
  else if w = ['$', '\x7b'] then
    some { type := "OpenPrint", position := startPos, lineNumber, sceneName, indent }
  else if w = ['$', '!', '\x7b'] then
    some { type := "OpenPrintCapitaliseFirst", position := startPos, lineNumber, sceneName, indent }
  else if w = ['$', '!', '!', '\x7b'] then
    some { type := "OpenPrintCapitaliseAll", position := startPos, lineNumber, sceneName, indent }
  else
    none

/-- The `switch (char)` of `tokenizeExpressionString`'s single-character
operator handling: `none` when no case matches (fall through). -/
def singleCharTok (char : Char) (pos lineNumber : Nat) (indent : Rat)
    (sceneName : String) : Option ExprToken :=
  if char = '+' ∨ char = '-' ∨ char = '*' ∨ char = '/' ∨ char = '%' ∨ char = '&' then
    let op : String :=
      if char = '+' then "addition" else if char = '-' then "subtraction"
      else if char = '*' then "multiplication" else if char = '/' then "division"
      else if char = '%' then "modulus" else "concatenation"
    some { type := "ArithmeticOperator", operator := op,
           rawValue := String.mk [char], position := pos, lineNumber, sceneName, indent }
  else if char = '=' ∨ char = '>' ∨ char = '<' then
    let op : String :=
      if char = '=' then "equals" else if char = '>' then "greater_than"
      else "less_than"
    some { type := "ComparisonOperator", operator := op,
           rawValue := String.mk [char], position := pos, lineNumber, sceneName, indent }
  else if char = '|' then
    some { type := "MultiReplaceElse", position := pos, lineNumber, sceneName, indent }
  else if char = '\x7d' then
    some { type := "CloseBrace", position := pos, lineNumber, sceneName, indent }
  else
    none

/-- The `switch (value)` keyword classification at the end of
`tokenizeExpressionString`'s identifier branch. -/
def keywordTok (value : String) (startPos lineNumber : Nat) (indent : Rat)
    (sceneName : String) : ExprToken :=
  if value = "true" ∨ value = "false" then
    { type := "BooleanLiteral", value, position := startPos, lineNumber, sceneName, indent }
  else if value = "and" ∨ value = "or" then
    { type := "LogicalOperator", operator := value,
      position := startPos, lineNumber, sceneName, indent }
  else if value = "not" ∨ value = "round" then
    { type := "UnaryOperator", value, operator := value, rawValue := value,
      position := startPos, lineNumber, sceneName, indent }
  else if value = "modulo" then
    { type := "ArithmeticOperator", value, rawValue := value,
      operator := "modulus", position := startPos, lineNumber, sceneName, indent }
  else
    { type := "Identifier", value, position := startPos, lineNumber, sceneName, indent }

/-- One iteration of the main `while (cursor < expression.length)` loop of
`tokenizeExpressionString` (second variant, lines 286–646 of
`expression-handler.ts`): classifies the character at the cursor, possibly
emits one token, and returns the new cursor. -/
def tokStep (e : List Char) (cursor : Nat) (lineNumber position : Nat)
    (indent : Rat) (sceneName : String) : Option ExprToken × Nat :=
  let char := charAt e cursor
  -- Skip whitespace
  if char = ' ' ∨ char = '\t' then
    (none, cursor + 1)
  -- Handle numbers
  else if isDigit char then
    let run := (e.drop cursor).takeWhile isNumRunChar
    (some { type := "NumberLiteral", value := String.mk run,
            position := position + cursor, lineNumber, sceneName, indent },
     cursor + run.length)
  -- Handle string literals
  else if char = '"' ∨ char = '\'' then
    let (v, n) := scanQuoted char (e.drop (cursor + 1))
    -- skip closing quote if present
    let consumed := if cursor + 1 + n < e.length then n + 2 else n + 1
    (some { type := "StringLiteral", value := String.mk v,
            position := position + cursor, lineNumber, sceneName, indent },
     cursor + consumed)
  -- Handle parentheses
  else if char = '(' then
    (some { type := "OpenParenthesis", position := position + cursor,
            lineNumber, sceneName, indent }, cursor + 1)
  else if char = ')' then
    (some { type := "CloseParenthesis", position := position + cursor,
            lineNumber, sceneName, indent }, cursor + 1)
  else
    -- Handle multi-character operators
    match if cursor + 1 < e.length then
            twoCharTok (twoChars e cursor) (position + cursor) lineNumber indent sceneName
          else none with
    | some tok => (some tok, cursor + 2)
    | none =>
      -- Handle single-character operators
      match singleCharTok char (position + cursor) lineNumber indent sceneName with
      | some tok => (some tok, cursor + 1)
      | none =>
        -- Handle keywords and variables
        if isLetterOrUnderscore char then
          let run := (e.drop cursor).takeWhile isAlphanumericOrUnderscore
          (some (keywordTok (String.mk run) (position + cursor) lineNumber indent sceneName),
           cursor + run.length)
        -- Skip any other character
        else
          (none, cursor + 1)

/-- The main loop of `tokenizeExpressionString` with explicit fuel; `none`
means the fuel ran out (`tokenize_total` below proves this never happens
with fuel `e.length + 1`). -/
def tokenizeLoop (fuel : Nat) (e : List Char) (cursor : Nat)
    (lineNumber position : Nat) (indent : Rat) (sceneName : String) :
    Option (List ExprToken) :=
  match fuel with
  | 0 => none
  | fuel + 1 =>
    if cursor < e.length then
      match tokStep e cursor lineNumber position indent sceneName with
      | (tok?, cursor') =>
        match tokenizeLoop fuel e cursor' lineNumber position indent sceneName with
        | none => none
        | some toks => some (tok?.toList ++ toks)
    else
      some []

/-- `tokenizeExpressionString(expression, lineNumber, position, indent,
sceneName)` from `expression-handler.ts` (second variant). -/
def tokenizeExpressionString (expression : String) (lineNumber position : Nat)
    (indent : Rat) (sceneName : String) : Option (List ExprToken) :=
  tokenizeLoop (expression.data.length + 1) expression.data 0
    lineNumber position indent sceneName

/-- If the character under the cursor satisfies `p`, the `takeWhile p` run
starting at the cursor is nonempty. -/
theorem takeWhile_drop_pos (e : List Char) (cursor : Nat) (p : Char → Bool)
    (h : cursor < e.length) (hp : p (charAt e cursor) = true) :
    0 < ((e.drop cursor).takeWhile p).length := by
  have hdrop : e.drop cursor ≠ [] := by
    intro hc
    have := List.drop_eq_nil_iff.mp hc
    omega
  match hdq : e.drop cursor with
  | [] => exact absurd hdq hdrop
  | c :: rest =>
    have hc : c = charAt e cursor := by
      have h1 : (e.drop cursor).head? = e.get? cursor := by
        rw [List.get?_eq_getElem?, List.head?_drop]
      rw [hdq] at h1
      simp only [List.head?] at h1
      unfold charAt
      rw [List.getD, ← h1]
      rfl
    simp only [List.takeWhile]
    rw [hc, hp]
    simp

/-- Every iteration of the tokenizer's main loop strictly advances the
cursor. -/
theorem tokStep_progress (e : List Char) (cursor : Nat) (lineNumber position : Nat)
    (indent : Rat) (sceneName : String) (h : cursor < e.length) :
    cursor < (tokStep e cursor lineNumber position indent sceneName).2 := by
  have hdig := takeWhile_drop_pos e cursor isNumRunChar h
  have hident := takeWhile_drop_pos e cursor isAlphanumericOrUnderscore h
  unfold tokStep
  dsimp only
  split
  · exact Nat.lt_succ_self _
  split
  · rename_i hws hd
    have := hdig (by unfold isNumRunChar; simp [hd])
    omega
  split
  · dsimp only
    split <;> omega
  split
  · exact Nat.lt_succ_self _
  split
  · exact Nat.lt_succ_self _
  split
  · omega
  split
  · exact Nat.lt_succ_self _
  split
  · rename_i hl
    have hrun : 0 < ((e.drop cursor).takeWhile isAlphanumericOrUnderscore).length := by
      apply hident
      unfold isAlphanumericOrUnderscore
      unfold isLetterOrUnderscore at hl
      rcases Bool.or_eq_true_iff.mp hl with h' | h'
      · simp [h']
      · simp [h']
    omega
  · exact Nat.lt_succ_self _

/-- With fuel exceeding the remaining character count, the tokenizer's main
loop reaches the end of the input (fuel sufficiency = termination of the
source's `while` loop, by strict cursor progress). -/
theorem tokenizeLoop_isSome (fuel : Nat) :
    ∀ (e : List Char) (cursor lineNumber position : Nat) (indent : Rat)
      (sceneName : String), e.length - cursor < fuel →
      (tokenizeLoop fuel e cursor lineNumber position indent sceneName).isSome := by
  induction fuel with
  | zero => intro e cursor _ _ _ _ h; omega
  | succ fuel ih =>
    intro e cursor lineNumber position indent sceneName h
    unfold tokenizeLoop
    by_cases hc : cursor < e.length
    · simp only [if_pos hc]
      have hprog := tokStep_progress e cursor lineNumber position indent sceneName hc
      have hrec := ih e (tokStep e cursor lineNumber position indent sceneName).2
        lineNumber position indent sceneName (by omega)
      match hres : tokenizeLoop fuel e (tokStep e cursor lineNumber position indent sceneName).2
          lineNumber position indent sceneName with
      | none => rw [hres] at hrec; simp at hrec
      | some toks => simp
    · simp [if_neg hc]

/-- An element of the list that follows its maximal `takeWhile p` prefix
does not satisfy `p`. -/
theorem takeWhile_next_not {α : Type} (p : α → Bool) (d : α) :
    ∀ l : List α, (l.takeWhile p).length < l.length →
      p (l.getD (l.takeWhile p).length d) = false := by
  intro l
  induction l with
  | nil => intro h; simp at h
  | cons c rest ih =>
    intro h
    by_cases hp : p c
    · rw [List.takeWhile_cons_of_pos hp] at h ⊢
      simpa using ih (by simpa using h)
    · rw [List.takeWhile_cons_of_neg hp]
      simpa using Bool.of_not_eq_true hp

/-- `charAt` after an offset is `getD` on the dropped list. -/
theorem charAt_drop (e : List Char) (cursor k : Nat) :
    charAt e (cursor + k) = (e.drop cursor).getD k (Char.ofNat 0) := by
  unfold charAt
  rw [List.getD, List.getD]
  congr 1
  rw [List.get?_eq_getElem?, List.get?_eq_getElem?, List.getElem?_drop]

/--
**C9.** `tokenizeExpressionString` is total: for every input string and
line/offset arguments the tokenizer terminates and returns a token list
(the fuel `length + 1` always suffices, because every iteration of the main
loop strictly advances the cursor), and a string of unrecognized characters
is skipped entirely, producing no tokens.
-/
theorem claim_C9_tokenizer_total :
    (∀ (expression : String) (lineNumber position : Nat) (indent : Rat)
       (sceneName : String),
       (tokenizeExpressionString expression lineNumber position indent sceneName).isSome)
    ∧ (∀ (e : List Char) (cursor lineNumber position : Nat) (indent : Rat)
         (sceneName : String), cursor < e.length →
         cursor < (tokStep e cursor lineNumber position indent sceneName).2)
    ∧ tokenizeExpressionString "^?;§" 3 5 0 "scene" = some [] := by
  refine ⟨?_, ?_, ?_⟩
  · intro expression lineNumber position indent sceneName
    exact tokenizeLoop_isSome _ _ _ _ _ _ _ (by omega)
  · exact tokStep_progress
  · decide

/-- Witness for C9: the progress clause applied at a concrete input. -/
theorem claim_C9_witness :
    (0 : Nat) < ("ab".data.length) ∧
      0 < (tokStep "ab".data 0 7 0 0 "s").2 :=
  ⟨by decide, claim_C9_tokenizer_total.2.1 "ab".data 0 7 0 0 "s" (by decide)⟩

/--
**C10, counterexample.** The digit-run scan has no at-most-one restriction
on decimal points: on input `1.2.3` the second decimal point *is* absorbed
into the same numeric literal token, so the whole input becomes a single
`NumberLiteral` whose collected text is `1.2.3` (the claim states the
second point would not be absorbed).
-/
theorem claim_C10_counterexample :
    tokenizeExpressionString "1.2.3" 1 0 0 "s" =
      some [{ type := "NumberLiteral", value := "1.2.3", position := 0,
              lineNumber := 1, sceneName := "s", indent := 0 }] := by
  decide

/--
**C10, amended.** When the expression sub-tokenizer scans a digit run into
a numeric literal, it absorbs the *maximal* run of digits and decimal
points following the cursor — decimal points are allowed any number of
times, not at most once: the collected text is nonempty, consists only of
digits and decimal points, the cursor advances past exactly that run, and
the next character (if any) is neither a digit nor a decimal point.
-/
theorem claim_C10_amended (e : List Char) (cursor lineNumber position : Nat)
    (indent : Rat) (sceneName : String) (h : cursor < e.length)
    (hd : isDigit (charAt e cursor) = true) :
    ∃ raw : List Char, raw ≠ [] ∧ (∀ c ∈ raw, isNumRunChar c = true) ∧
      tokStep e cursor lineNumber position indent sceneName =
        (some { type := "NumberLiteral", value := String.mk raw,
                position := position + cursor, lineNumber := lineNumber,
                sceneName := sceneName, indent := indent },
         cursor + raw.length) ∧
      (cursor + raw.length < e.length →
        isNumRunChar (charAt e (cursor + raw.length)) = false) := by
  refine ⟨(e.drop cursor).takeWhile isNumRunChar, ?_, ?_, ?_, ?_⟩
  · have := takeWhile_drop_pos e cursor isNumRunChar h
      (by unfold isNumRunChar; simp [hd])
    intro hc
    rw [hc] at this
    simp at this
  · intro c hc
    exact List.mem_takeWhile_imp hc
  · have hws : ¬(charAt e cursor = ' ' ∨ charAt e cursor = '\t') := by
      rintro (hc | hc) <;> (rw [hc] at hd; simp [isDigit] at hd)
    unfold tokStep
    rw [if_neg hws, if_pos hd]
  · intro hlt
    rw [charAt_drop]
    apply takeWhile_next_not
    have hlen : (e.drop cursor).length = e.length - cursor := List.length_drop _ _
    omega

/-- Witness for C10's amended theorem at a concrete input. -/
theorem claim_C10_amended_witness :
    (0 : Nat) < "5.6.7x".data.length ∧
      isDigit (charAt "5.6.7x".data 0) = true ∧
      ∃ raw : List Char, raw ≠ [] ∧ (∀ c ∈ raw, isNumRunChar c = true) ∧
        tokStep "5.6.7x".data 0 2 3 0 "sc" =
          (some { type := "NumberLiteral", value := String.mk raw,
                  position := 3 + 0, lineNumber := 2,
                  sceneName := "sc", indent := 0 },
           0 + raw.length) ∧
        (0 + raw.length < "5.6.7x".data.length →
          isNumRunChar (charAt "5.6.7x".data (0 + raw.length)) = false) :=
  ⟨by decide, by decide,
    claim_C10_amended "5.6.7x".data 0 2 3 0 "sc" (by decide) (by decide)⟩

end ExpressionHandler

namespace Parser

/-- Parser-side token, as consumed by `parser.ts`: the `type` discriminant
(a string in the source) plus the location fields the parser's primitives
read (`lineNumber`, `position`, `indent`, `sceneName`). -/
structure PTok where
  type : String
  lineNumber : Nat
  position : Nat
  indent : Rat
  sceneName : String
deriving DecidableEq, Repr

/-- The expression AST of `src/parser/expressions`: `Binary`, `Unary`,
`Literal`, `Identifier`, `Grouping`. -/
inductive Expr where
  | binary (left : Expr) (operator : PTok) (right : Expr)
  | unary (operator : PTok) (value : Expr)
  | literal (value : PTok)
  | identifier (token : PTok)
  | grouping (expression : Expr)
deriving DecidableEq, Repr

/-- The `Parser` object's mutable fields: the token array and the `current`
cursor. -/
structure ParserState where
  tokens : List PTok
  current : Nat
deriving DecidableEq, Repr

/-- `Parser.peek()`: `tokens[current]` (`none` = JS `undefined`). -/
def peek (p : ParserState) : Option PTok :=
  p.tokens.get? p.current

/-- `Parser.previous()`: `tokens[current - 1]` (`none` when `current = 0`,
where JS indexes `-1` and gets `undefined`). -/
def previous (p : ParserState) : Option PTok :=
  if p.current = 0 then none else p.tokens.get? (p.current - 1)

/-- `Parser.isAtEnd()`: peek is `null`/`undefined` or a `SceneEnd` token. -/
def isAtEnd (p : ParserState) : Bool :=
  match peek p with
  | none => true
  | some t => t.type == "SceneEnd"

/-- `Parser.peekSameLine()`: the peeked token is on the same line as the
previous token (`previous()?.lineNumber ?? 0`). -/
def peekSameLine (p : ParserState) : Bool :=
  match peek p with
  | none => false
  | some t => t.lineNumber == ((previous p).map PTok.lineNumber).getD 0

/-- `Parser.peekSameIndent(desiredIndent)`. -/
def peekSameIndent (p : ParserState) (desiredIndent : Rat) : Bool :=
  match peek p with
  | none => false
  | some t => t.indent == desiredIndent

/-- `Parser.check(type, sameLine, sameIndent)`. -/
def check (p : ParserState) (type : String)
    (sameLine : Bool := true) (sameIndent : Bool := true) : Bool :=
  if isAtEnd p then false
  else if sameLine && !peekSameLine p then false
  else if sameIndent && !peekSameIndent p (((previous p).map PTok.indent).getD 0) then false
  else match peek p with
       | none => false
       | some t => t.type == type

/-- `Parser.match(typesToMatch, sameLine, sameIndent)`: tries `check` on each
type in order and advances on the first hit (`advance` increments `current`
because a successful `check` implies `!isAtEnd`). -/
def matchTypes (types : List String) (p : ParserState)
    (sameLine : Bool := true) (sameIndent : Bool := true) : Bool × ParserState :=
  match types with
  | [] => (false, p)
  | t :: rest =>
    if check p t sameLine sameIndent then
      (true, { p with current := p.current + 1 })
    else
      matchTypes rest p sameLine sameIndent

/-- `Parser.consume(type, message)` (with the default `sameLine`/`sameIndent`):
`check` then `advance`, else a thrown parse error. -/
def consume (p : ParserState) (type : String) (message : String) :
    Except String (PTok × ParserState) :=
  if check p type then
    let p' : ParserState := { p with current := p.current + 1 }
    match previous p' with
    | some t => .ok (t, p')
    | none => .error "advance: previous undefined"
  else
    .error message

/-- `Parser.primary()`, parameterized by the `expression` entry point used in
the `( expression )` grouping branch (the one recursive cycle of the
expression grammar). -/
def primaryF (exprF : ParserState → Except String (Expr × ParserState))
    (p : ParserState) : Except String (Expr × ParserState) :=
  match matchTypes ["NumberLiteral", "StringLiteral", "BooleanLiteral"] p with
  | (true, p') =>
    match previous p' with
    | some t => .ok (Expr.literal t, p')
    | none => .error "previous undefined"
  | (false, _) =>
  match matchTypes ["Identifier"] p with
  | (true, p') =>
    match previous p' with
    | some t => .ok (Expr.identifier t, p')
    | none => .error "previous undefined"
  | (false, _) =>
  match matchTypes ["OpenParenthesis"] p with
  | (true, p') =>
    match exprF p' with
    | .error e => .error e
    | .ok (expr, p'') =>
      match consume p'' "CloseParenthesis" "Expect ')' after expression." with
      | .error e => .error e
      | .ok (_, p''') => .ok (Expr.grouping expr, p''')
  | (false, _) => .error "Expect expression."

/-- `Parser.unary()`: prefix operators recurse into `unary`, otherwise fall
through to `primary`.  Fuel makes the recursion structural; `none` fuel
results never occur on inputs the fuel covers. -/
def unaryF : Nat → (ParserState → Except String (Expr × ParserState)) →
    ParserState → Except String (Expr × ParserState)
  | 0, _, _ => .error "out of fuel"
  | fuel + 1, exprF, p =>
    match matchTypes ["NotOperator", "SubtractionOperator", "AdditionOperator",
        "FairmathAdditionOperator", "FairmathSubtractionOperator"] p with
    | (true, p') =>
      match previous p' with
      | some op =>
        match unaryF fuel exprF p' with
        | .error e => .error e
        | .ok (right, p'') => .ok (Expr.unary op right, p'')
      | none => .error "previous undefined"
    | (false, _) => primaryF exprF p

/-- `Parser.factor()`'s `while` loop: the right operand of each iteration is
`unary()` (one level down), so the loop builds a left-associated tree. -/
def factorLoopF : Nat → (ParserState → Except String (Expr × ParserState)) →
    Expr → ParserState → Except String (Expr × ParserState)
  | 0, _, _, _ => .error "out of fuel"
  | fuel + 1, exprF, expr, p =>
    match matchTypes ["DivisionOperator", "MultiplicationOperator", "ModulusOperator"] p with
    | (true, p') =>
      match previous p' with
      | some op =>
        match unaryF fuel exprF p' with
        | .error e => .error e
        | .ok (right, p'') =>
          factorLoopF fuel exprF (Expr.binary expr op right) p''
      | none => .error "previous undefined"
    | (false, _) => .ok (expr, p)

/-- `Parser.factor()`. -/
def factorF (fuel : Nat) (exprF : ParserState → Except String (Expr × ParserState))
    (p : ParserState) : Except String (Expr × ParserState) :=
  match unaryF fuel exprF p with
  | .error e => .error e
  | .ok (expr, p') => factorLoopF fuel exprF expr p'

/-- `Parser.term()` together with its `while` loop.  NOTE (the load-bearing
detail for claim C3): the right operand of each loop iteration is
`this.term()` — the *same* precedence level — not `this.factor()`, so the
loop right-associates.  The accumulator argument distinguishes the entry
into `term()` (`none`: first parse `factor()`) from the loop state
(`some expr`). -/
def termF : Nat → (ParserState → Except String (Expr × ParserState)) →
    Option Expr → ParserState → Except String (Expr × ParserState)
  | 0, _, _, _ => .error "out of fuel"
  | fuel + 1, exprF, none, p =>
    match factorF fuel exprF p with
    | .error e => .error e
    | .ok (expr, p') => termF fuel exprF (some expr) p'
  | fuel + 1, exprF, some expr, p =>
    match matchTypes ["SubtractionOperator", "AdditionOperator", "ConcatenationOperator"] p with
    | (true, p') =>
      match previous p' with
      | some op =>
        match termF fuel exprF none p' with
        | .error e => .error e
        | .ok (right, p'') =>
          termF fuel exprF (some (Expr.binary expr op right)) p''
      | none => .error "previous undefined"
    | (false, _) => .ok (expr, p)

/-- `Parser.comparison()`'s `while` loop (right operand: `term()`). -/
def comparisonLoopF : Nat → (ParserState → Except String (Expr × ParserState)) →
    Expr → ParserState → Except String (Expr × ParserState)
  | 0, _, _, _ => .error "out of fuel"
  | fuel + 1, exprF, expr, p =>
    match matchTypes ["GreaterThanOperator", "GreaterThanEqualsOperator",
        "LessThanOperator", "LessThanEqualsOperator", "EqualityOperator",
        "NotEqualityOperator"] p with
    | (true, p') =>
      match previous p' with
      | some op =>
        match termF fuel exprF none p' with
        | .error e => .error e
        | .ok (right, p'') =>
          comparisonLoopF fuel exprF (Expr.binary expr op right) p''
      | none => .error "previous undefined"
    | (false, _) => .ok (expr, p)

/-- `Parser.comparison()`. -/
def comparisonF (fuel : Nat) (exprF : ParserState → Except String (Expr × ParserState))
    (p : ParserState) : Except String (Expr × ParserState) :=
  match termF fuel exprF none p with
  | .error e => .error e
  | .ok (expr, p') => comparisonLoopF fuel exprF expr p'

/-- `Parser.equality()`'s `while` loop (right operand: `comparison()`). -/
def equalityLoopF : Nat → (ParserState → Except String (Expr × ParserState)) →
    Expr → ParserState → Except String (Expr × ParserState)
  | 0, _, _, _ => .error "out of fuel"
  | fuel + 1, exprF, expr, p =>
    match matchTypes ["NotEqualityOperator", "EqualityOperator"] p with
    | (true, p') =>
      match previous p' with
      | some op =>
        match comparisonF fuel exprF p' with
        | .error e => .error e
        | .ok (right, p'') =>
          equalityLoopF fuel exprF (Expr.binary expr op right) p''
      | none => .error "previous undefined"
    | (false, _) => .ok (expr, p)

/-- `Parser.equality()`. -/
def equalityF (fuel : Nat) (exprF : ParserState → Except String (Expr × ParserState))
    (p : ParserState) : Except String (Expr × ParserState) :=
  match comparisonF fuel exprF p with
  | .error e => .error e
  | .ok (expr, p') => equalityLoopF fuel exprF expr p'

/-- `Parser.logical()`'s `while` loop (right operand: `equality()`). -/
def logicalLoopF : Nat → (ParserState → Except String (Expr × ParserState)) →
    Expr → ParserState → Except String (Expr × ParserState)
  | 0, _, _, _ => .error "out of fuel"
  | fuel + 1, exprF, expr, p =>
    match matchTypes ["LogicalAnd", "LogicalOr"] p with
    | (true, p') =>
      match previous p' with
      | some op =>
        match equalityF fuel exprF p' with
        | .error e => .error e
        | .ok (right, p'') =>
          logicalLoopF fuel exprF (Expr.binary expr op right) p''
      | none => .error "previous undefined"
    | (false, _) => .ok (expr, p)

/-- `Parser.logical()`. -/
def logicalF (fuel : Nat) (exprF : ParserState → Except String (Expr × ParserState))
    (p : ParserState) : Except String (Expr × ParserState) :=
  match equalityF fuel exprF p with
  | .error e => .error e
  | .ok (expr, p') => logicalLoopF fuel exprF expr p'

/-- `Parser.expression()`: ties the recursive knot (`expression = logical`,
and `primary`'s grouping branch re-enters `expression`). -/
def expressionF : Nat → ParserState → Except String (Expr × ParserState)
  | 0, _ => .error "out of fuel"
  | fuel + 1, p => logicalF fuel (fun p' => expressionF fuel p') p

/-- A one-line, zero-indent token for concrete parses. -/
def tk (t : String) (pos : Nat) : PTok :=
  { type := t, lineNumber := 0, position := pos, indent := 0, sceneName := "s" }

/--
**C3 (code bug).** `Parser.term`'s loop takes its right operand from
`this.term()` — the same precedence level — instead of `this.factor()`, so
`a - b - c` parses *right*-associatively: the result is
`Binary(a, -, Binary(b, -, c))`, not the left-associative
`Binary(Binary(a, -, b), -, c)` the claim (and the other four precedence
levels of the same parser) prescribe.  At factor level the claim's
left-associative shape does hold (`a / b / c`).
-/
theorem claim_C3_term_right_assoc :
    (expressionF 32 ⟨[tk "NumberLiteral" 0, tk "SubtractionOperator" 1,
        tk "NumberLiteral" 2, tk "SubtractionOperator" 3,
        tk "NumberLiteral" 4], 0⟩ =
      .ok (Expr.binary (Expr.literal (tk "NumberLiteral" 0))
             (tk "SubtractionOperator" 1)
             (Expr.binary (Expr.literal (tk "NumberLiteral" 2))
               (tk "SubtractionOperator" 3)
               (Expr.literal (tk "NumberLiteral" 4))),
        ⟨[tk "NumberLiteral" 0, tk "SubtractionOperator" 1,
          tk "NumberLiteral" 2, tk "SubtractionOperator" 3,
          tk "NumberLiteral" 4], 5⟩))
    ∧ (Expr.binary (Expr.literal (tk "NumberLiteral" 0))
         (tk "SubtractionOperator" 1)
         (Expr.binary (Expr.literal (tk "NumberLiteral" 2))
           (tk "SubtractionOperator" 3)
           (Expr.literal (tk "NumberLiteral" 4)))
       ≠ Expr.binary
           (Expr.binary (Expr.literal (tk "NumberLiteral" 0))
             (tk "SubtractionOperator" 1)
             (Expr.literal (tk "NumberLiteral" 2)))
           (tk "SubtractionOperator" 3)
           (Expr.literal (tk "NumberLiteral" 4)))
    ∧ (expressionF 32 ⟨[tk "NumberLiteral" 0, tk "DivisionOperator" 1,
        tk "NumberLiteral" 2, tk "DivisionOperator" 3,
        tk "NumberLiteral" 4], 0⟩ =
      .ok (Expr.binary
             (Expr.binary (Expr.literal (tk "NumberLiteral" 0))
               (tk "DivisionOperator" 1)
               (Expr.literal (tk "NumberLiteral" 2)))
             (tk "DivisionOperator" 3)
             (Expr.literal (tk "NumberLiteral" 4)),
        ⟨[tk "NumberLiteral" 0, tk "DivisionOperator" 1,
          tk "NumberLiteral" 2, tk "DivisionOperator" 3,
          tk "NumberLiteral" 4], 5⟩)) := by
  refine ⟨by rfl, by decide, by rfl⟩

end Parser

namespace StateMachine

/-! Embedding of `src/claude/statemachine.ts` (`ChoiceScriptStateMachine`)
together with its collaborators `command-parser.ts`, `types.ts` and
`choice-parser.ts`.

Representation choices:
* JS `Map` (insertion-ordered) ↦ association list with `mapSet`/`mapGet`
  reproducing `Map.prototype.set/get`; JS `Set` ↦ duplicate-free list with
  `setAdd`.
* JS arrays used as stacks (`push`/`pop` at the end, peek at
  `arr[arr.length - 1]`) are represented with the top at the *head* of a
  Lean list; arrays used in insertion order (edge list, `branchEndNodes`)
  are appended at the end.
* The heterogeneous `attributes: Record<string, any>` maps are flattened
  into a structure of optional fields — one field per key the class ever
  stores (`none` = key absent/`null`/`undefined`).
* `console.warn` output is collected in a `warnings` list (the class has
  no other diagnostics channel); errors swallowed by `processScene`'s
  `try/catch` (`console.error`) are collected in `caughtErrors`.
* Indentation levels (`indentation.length / indentSize`) are `ℚ`.
-/

/-- `Position` from `types.ts`. -/
structure Position where
  file : String
  line : Nat
deriving DecidableEq, Repr

/-- One entry of an edge's `statChanges` attribute (`types.ts`); the
source's field `variable` is renamed `varName` (Lean keyword). -/
structure StatChange where
  varName : String
  operation : String
  value : String
deriving DecidableEq, Repr

/-- `Edge.attributes` from `types.ts`. -/
structure EdgeAttributes where
  condition : Option String := none
  isSelectable : Option Bool := none
  statChanges : Option (List StatChange) := none
deriving DecidableEq, Repr

/-- `Edge` from `types.ts`. -/
structure Edge where
  source : String
  target : String
  attributes : EdgeAttributes
  position : Position
deriving DecidableEq, Repr

/-- One entry of a `stat_chart` node's `stats` attribute; the source's
field `variable` is renamed `varName` (Lean keyword). -/
structure StatEntry where
  label : String
  varName : String
  description : String
deriving DecidableEq, Repr

/-- `ChoiceOption` from `types.ts`. -/
structure ChoiceOptionEntry where
  id : String
  text : String
  conditions : List String
  isSelectable : Bool
deriving DecidableEq, Repr

/-- Flattening of the `attributes: Record<string, any>` payload of `Node`:
one optional field per key `statemachine.ts` ever stores.  The `type` key
(stored by `metadata`/`scene_list` nodes) is `metaType` here; `id` (stored
by achievement nodes) is `attrId`. -/
structure NodeAttributes where
  command : Option String := none
  args : Option String := none
  metaType : Option String := none
  value : Option String := none
  scenes : Option (List String) := none
  attrId : Option String := none
  name : Option String := none
  visibility : Option String := none
  points : Option String := none
  title : Option String := none
  stats : Option (List StatEntry) := none
  isFake : Option Bool := none
  hideReuse : Option Bool := none
  disableReuse : Option Bool := none
  allowReuse : Option Bool := none
  isSelectable : Option Bool := none
  condition : Option String := none
  sceneName : Option String := none
  labelName : Option String := none
  variableName : Option String := none
  initialValue : Option String := none
  dataType : Option String := none
  operation : Option String := none
  isFairmath : Option Bool := none
  buttonText : Option String := none
deriving DecidableEq, Repr

/-- `Node` from `types.ts`. -/
structure Node where
  id : String
  type : String
  text : String
  attributes : NodeAttributes
  position : Position
  options : Option (List ChoiceOptionEntry) := none
deriving DecidableEq, Repr

/-- `Variable` from `types.ts`. -/
structure Variable where
  name : String
  type : String
  dataType : String
  initialValue : String
deriving DecidableEq, Repr

/-- `Achievement` from `types.ts`. -/
structure Achievement where
  id : String
  name : String
  visibility : String
  points : Nat
  description : String
  earnedDescription : String
deriving DecidableEq, Repr

/-- `GameMetadata` from `types.ts`; the source's field `variables` is
renamed `variablesMap` (Lean keyword). -/
structure GameMetadata where
  title : Option String := none
  author : Option String := none
  sceneList : List String := []
  variablesMap : List (String × Variable) := []
  achievements : List Achievement := []
deriving DecidableEq, Repr

/-- `Graph` from `types.ts`. -/
structure Graph where
  nodes : List (String × Node) := []
  edges : List Edge := []
  entryPoints : List (String × String) := []
  labels : List (String × String) := []
  metadata : GameMetadata := {}
deriving DecidableEq, Repr

/-- `ConditionalState` from `types.ts`. -/
structure ConditionalState where
  condition : String
  nodeBeforeIf : String
  branchEndNodes : List String
deriving DecidableEq, Repr

/-- JS `Map.prototype.set`: update in place if the key exists (keeping its
insertion position), otherwise append. -/
def mapSet {β : Type} : List (String × β) → String → β → List (String × β)
  | [], k, v => [(k, v)]
  | (k', v') :: rest, k, v =>
    if k' = k then (k', v) :: rest else (k', v') :: mapSet rest k v

/-- JS `Map.prototype.get` (`none` = `undefined`). -/
def mapGet {β : Type} : List (String × β) → String → Option β
  | [], _ => none
  | (k', v') :: rest, k => if k' = k then some v' else mapGet rest k

/-- In-place update of an existing map entry (mutation of the object
returned by `Map.prototype.get`). -/
def mapUpdate {β : Type} : List (String × β) → String → (β → β) → List (String × β)
  | [], _, _ => []
  | (k', v) :: rest, k, f =>
    if k' = k then (k', f v) :: rest else (k', v) :: mapUpdate rest k f

/-- JS `Set.prototype.add` on a duplicate-free insertion-ordered list. -/
def setAdd (l : List String) (x : String) : List String :=
  if x ∈ l then l else l ++ [x]

/-- First index at which `pat` occurs in `s` (JS `String.prototype.indexOf`,
`none` = `-1`). -/
def idxOfSubAux (pat : List Char) : List Char → Nat → Option Nat
  | l, i =>
    if pat.isPrefixOf l then some i
    else match l with
         | [] => none
         | _ :: rest => idxOfSubAux pat rest (i + 1)

/-- JS `s.indexOf(pat)` as an `Option`. -/
def idxOfSub (s pat : String) : Option Nat :=
  idxOfSubAux pat.data s.data 0

/-- JS `s.includes(pat)`. -/
def containsSub (s pat : String) : Bool :=
  (idxOfSub s pat).isSome

/-- JS `s.substring(a, b)` for `a ≤ b` (all call sites satisfy this;
negative arguments clamp to `0`, matching truncated `Nat` subtraction). -/
def substring (s : String) (a b : Nat) : String :=
  String.mk ((s.data.take b).drop a)

/-- JS `s.substring(a)`. -/
def substringFrom (s : String) (a : Nat) : String :=
  String.mk (s.data.drop a)

end StateMachine

/-- JS `String.prototype.trim` (whitespace stripped from both ends),
character-list based. -/
def String.trimJS (s : String) : String :=
  String.mk (((s.data.dropWhile Char.isWhitespace).reverse.dropWhile
    Char.isWhitespace).reverse)

/-- JS `String.prototype.startsWithJS`. -/
def String.startsWithJS (s p : String) : Bool :=
  p.data.isPrefixOf s.data

def splitNlAux : List Char → List Char → List String
  | [], acc => [String.mk acc.reverse]
  | c :: rest, acc =>
    if c = '\n' then String.mk acc.reverse :: splitNlAux rest []
    else splitNlAux rest (c :: acc)

/-- JS `s.split('\n')`. -/
def String.splitNl (s : String) : List String :=
  splitNlAux s.data []

def splitPredAux (p : Char → Bool) : List Char → List Char → List String
  | [], acc => [String.mk acc.reverse]
  | c :: rest, acc =>
    if p c then String.mk acc.reverse :: splitPredAux p rest []
    else splitPredAux p rest (c :: acc)

/-- Split at every separator character (one segment per separator). -/
def String.splitPred (s : String) (p : Char → Bool) : List String :=
  splitPredAux p s.data []

/-- JS `parseInt` on an all-digit string (the only use site feeds it the
`\d+` capture of the achievement regex). -/
def String.toNatJS (s : String) : Option Nat :=
  if s.data ≠ [] ∧ s.data.all (fun c => decide (48 ≤ c.toNat ∧ c.toNat ≤ 57))
  then some (s.data.foldl (fun a c => a * 10 + (c.toNat - 48)) 0)
  else none

namespace StateMachine

/-- Indent levels are JS numbers; embedded as `Rat`.  The arithmetic is
spelled with `mkRat` (kernel-reducible) rather than the `Rat` field
operations; `ratAdd1_eq`/`ratSub_eq`/`ratDiv_eq` prove them equal. -/
def ratAdd1 (a : Rat) : Rat := mkRat (a.num + a.den) a.den

def ratSub (a b : Rat) : Rat := mkRat (a.num * b.den - b.num * a.den) (a.den * b.den)

def ratDiv (a b : Rat) : Rat :=
  if b.num < 0 then mkRat (-(a.num * b.den)) (a.den * b.num.natAbs)
  else mkRat (a.num * b.den) (a.den * b.num.natAbs)

/-- `file:line` interpolation used throughout the error/warning messages. -/
def posStr (p : Position) : String :=
  p.file ++ ":" ++ toString p.line

/-- The scene-provider collaborator (`SceneProvider` in `types.ts`),
modelled as a finite table of scenes; `hasScene`/`loadScene` become
lookups (I/O, caching and the HTTP implementation are outside the core). -/
structure SceneProvider where
  scenes : List (String × String)
deriving DecidableEq, Repr

def SceneProvider.hasScene (sp : SceneProvider) (name : String) : Bool :=
  (mapGet sp.scenes name).isSome

def SceneProvider.loadScene (sp : SceneProvider) (name : String) : String :=
  (mapGet sp.scenes name).getD ""

/-- `parseCommand` from `command-parser.ts`: splits `*command args`,
validating that the command is a word (alphanumeric, `_` or `:`). -/
def parseCommand (line : String) (position : Position) :
    Except String (String × String) :=
  if ¬ line.startsWithJS "*" then
    .error ("Invalid command syntax at " ++ posStr position ++ ": " ++ line)
  else
    let commandLine := substringFrom line 1
    let (command, args) :=
      match commandLine.data.findIdx? Char.isWhitespace with
      | none => (commandLine, "")
      | some i => (substring commandLine 0 i, (substringFrom commandLine i).trimJS)
    if command.data.all (fun c =>
        decide (('a' ≤ c ∧ c ≤ 'z') ∨ ('A' ≤ c ∧ c ≤ 'Z') ∨
                ('0' ≤ c ∧ c ≤ '9') ∨ c = '_' ∨ c = ':')) then
      .ok (command, args)
    else
      .error ("Invalid command syntax at " ++ posStr position ++ ": " ++ line)

/-- The character loop of `ChoiceScriptStateMachine.isNumeric`: digits with
at most one decimal point (a second `.` falls through to the digit test
and fails, since `.` < `0`). -/
def isNumericLoop : List Char → Bool → Bool
  | [], _ => true
  | c :: rest, hasDecimalPoint =>
    if c = '.' ∧ ¬hasDecimalPoint then isNumericLoop rest true
    else if c < '0' ∨ '9' < c then false
    else isNumericLoop rest hasDecimalPoint

/-- `ChoiceScriptStateMachine.isNumeric`. -/
def isNumeric (value : String) : Bool :=
  if value = "" then true
  else
    let t := value.trimJS
    let startIndex := if t.data.getD 0 ' ' = '-' ∨ t.data.getD 0 ' ' = '+' then 1 else 0
    isNumericLoop (t.data.drop startIndex) false

/-- `ChoiceScriptStateMachine.isValidVariableName`. -/
def isValidVariableName (name : String) : Bool :=
  name.length ≠ 0 &&
    name.data.all (fun c =>
      decide (('a' ≤ c ∧ c ≤ 'z') ∨ ('A' ≤ c ∧ c ≤ 'Z') ∨
              ('0' ≤ c ∧ c ≤ '9') ∨ c = '_'))

/-- Result of `extractVariableNameAndValue`: name, value, and the operation
(`none` when the source leaves `operation` undefined — the bare-name
case; the consumer defaults it to `"set"`). -/
structure ExtractResult where
  variableName : String
  value : String
  operation : Option String := none
deriving DecidableEq, Repr

/-- `ChoiceScriptStateMachine.extractVariableNameAndValue`.  Note the
faithful `fairMathPlusIndex - 1` in the `%+` branch (the source drops the
character before `%+` from the variable name there, unlike the `%-`
branch). -/
def extractVariableNameAndValue (args : String) : Option ExtractResult :=
  let trimmedArgs := args.trimJS
  if trimmedArgs.length = 0 then none
  else
    let firstSpaceIndex := trimmedArgs.data.findIdx? Char.isWhitespace
    let fairMathPlusIndex := idxOfSub trimmedArgs "%+"
    let fairMathMinusIndex := idxOfSub trimmedArgs "%-"
    let plusIndex := idxOfSub trimmedArgs "+"
    let minusIndex := idxOfSub trimmedArgs "-"
    let rawVariableName := trimmedArgs
    match fairMathPlusIndex with
    | some i =>
      let variableName := (substring rawVariableName 0 (i - 1)).trimJS
      let value := (substringFrom rawVariableName (i + 2)).trimJS
      if ¬ isValidVariableName variableName ∨ value.length = 0 then none
      else some { variableName, value, operation := some "fairmath_add" }
    | none =>
    match fairMathMinusIndex with
    | some i =>
      let variableName := (substring rawVariableName 0 i).trimJS
      let value := (substringFrom rawVariableName (i + 2)).trimJS
      if ¬ isValidVariableName variableName ∨ value.length = 0 then none
      else some { variableName, value, operation := some "fairmath_subtract" }
    | none =>
    match plusIndex with
    | some i =>
      let variableName := substring rawVariableName 0 i
      let value := substringFrom rawVariableName (i + 1)
      if ¬ isValidVariableName variableName ∨ value.length = 0 then none
      else some { variableName, value, operation := some "add" }
    | none =>
    match minusIndex with
    | some i =>
      let variableName := substring rawVariableName 0 i
      let value := substringFrom rawVariableName (i + 1)
      if ¬ isValidVariableName variableName ∨ value.length = 0 then none
      else some { variableName, value, operation := some "subtract" }
    | none =>
    match firstSpaceIndex with
    | none =>
      if isValidVariableName rawVariableName then
        some { variableName := rawVariableName, value := "" }
      else none
    | some i =>
      let rawVariableName := substring trimmedArgs 0 i
      if ¬ isValidVariableName rawVariableName then none
      else
        let value := (substringFrom trimmedArgs i).trimJS
        if value.startsWithJS "%+" then
          some { variableName := rawVariableName,
                 value := (substringFrom value 2).trimJS,
                 operation := some "fairmath_add" }
        else if value.startsWithJS "%-" then
          some { variableName := rawVariableName,
                 value := (substringFrom value 2).trimJS,
                 operation := some "fairmath_subtract" }
        else if value.startsWithJS "+" then
          some { variableName := rawVariableName,
                 value := (substringFrom value 1).trimJS,
                 operation := some "add" }
        else if value.startsWithJS "-" then
          some { variableName := rawVariableName,
                 value := (substringFrom value 1).trimJS,
                 operation := some "subtract" }
        else
          some { variableName := rawVariableName, value := value,
                 operation := some "set" }

/-- The scan loop of `findMatchingClosingParenthesis` (`choice-parser.ts`). -/
def findClosingLoop : List Char → Nat → Nat → Bool → Bool → Option Nat
  | [], _, _, _, _ => none
  | c :: rest, i, parenCount, inString, escapeChar =>
    let inString := if c = '"' ∧ ¬escapeChar then !inString else inString
    let escapeChar := c = '\\' ∧ ¬escapeChar
    if ¬inString then
      if c = '(' then findClosingLoop rest (i + 1) (parenCount + 1) inString escapeChar
      else if c = ')' then
        if parenCount - 1 = 0 then some i
        else findClosingLoop rest (i + 1) (parenCount - 1) inString escapeChar
      else findClosingLoop rest (i + 1) parenCount inString escapeChar
    else findClosingLoop rest (i + 1) parenCount inString escapeChar

/-- `findMatchingClosingParenthesis(text, openParenIndex)` from
`choice-parser.ts` (`none` = `-1`). -/
def findMatchingClosingParenthesis (text : String) (openParenIndex : Nat) :
    Option Nat :=
  findClosingLoop (text.data.drop (openParenIndex + 1)) (openParenIndex + 1) 1 false false

/-- Result record of `extractOptionPrefixes` (`choice-parser.ts`). -/
structure OptionInfo where
  cleanText : String
  condition : Option String := none
  hideReuse : Bool := false
  disableReuse : Bool := false
  allowReuse : Bool := false
  isSelectable : Bool := false
deriving DecidableEq, Repr

/-- `extractOptionPrefixes` from `choice-parser.ts`. -/
def extractOptionPrefixes (optionText : String) : OptionInfo :=
  let r : OptionInfo := { cleanText := optionText }
  let r := if r.cleanText.startsWithJS "*hide_reuse " then
             { r with hideReuse := true,
                      cleanText := substringFrom r.cleanText "*hide_reuse ".length }
           else r
  let r := if r.cleanText.startsWithJS "*disable_reuse " then
             { r with disableReuse := true,
                      cleanText := substringFrom r.cleanText "*disable_reuse ".length }
           else r
  let r := if r.cleanText.startsWithJS "*allow_reuse " then
             { r with allowReuse := true,
                      cleanText := substringFrom r.cleanText "*allow_reuse ".length }
           else r
  if r.cleanText.startsWithJS "*selectable_if (" then
    match idxOfSub r.cleanText "(" with
    | none => r
    | some openIdx =>
      match findMatchingClosingParenthesis r.cleanText openIdx with
      | some closeIdx =>
        if openIdx < closeIdx ∧ closeIdx < r.cleanText.length then
          { r with condition := some (substring r.cleanText (openIdx + 1) closeIdx),
                   cleanText := (substringFrom r.cleanText (closeIdx + 1)).trimJS,
                   isSelectable := true }
        else r
      | none => r
  else if r.cleanText.startsWithJS "*if (" then
    match idxOfSub r.cleanText "(" with
    | none => r
    | some openIdx =>
      match findMatchingClosingParenthesis r.cleanText openIdx with
      | some closeIdx =>
        if openIdx < closeIdx ∧ closeIdx < r.cleanText.length then
          { r with condition := some (substring r.cleanText (openIdx + 1) closeIdx),
                   cleanText := (substringFrom r.cleanText (closeIdx + 1)).trimJS }
        else r
      | none => r
  else r

/-- The mutable fields of `ChoiceScriptStateMachine`, initialized as in the
constructor.  `warnings` collects `console.warn` output (the class's only
diagnostics channel); `caughtErrors` collects the errors swallowed by
`processScene`'s `try/catch`.  The source's field `variables` is renamed
`variablesMap` (Lean keyword). -/
structure MachineState where
  currentState : String := "READING_TEXT"
  position : Position := { file := "", line := 0 }
  currentNode : Option String := none
  textBuffer : String := ""
  choiceNodeStack : List String := []
  conditionalStack : List ConditionalState := []
  variablesMap : List (String × Variable) := []
  executionMode : String := "normal"
  subroutineStack : List String := []
  inAchievementBlock : Bool := false
  currentAchievement : Option Achievement := none
  currentIndentLevel : Rat := 0
  expectedIndentLevel : Rat := 0
  indentSize : Option Nat := none
  lastIndentationType : Option String := none
  commandRequiringIndent : Bool := false
  graph : Graph := {}
  nodeIdCounter : Nat := 0
  processedScenes : List String := []
  warnings : List String := []
  caughtErrors : List String := []
deriving DecidableEq, Repr

/-- Result of a builder operation: the state after all performed mutations
plus, when the source `throw`s, the exception message (JS mutations of
`this` survive a thrown exception, so the state is kept alongside). -/
abbrev BuildR := MachineState × Option String

def okR (s : MachineState) : BuildR := (s, none)

def throwR (s : MachineState) (msg : String) : BuildR := (s, some msg)

/-- Sequencing of builder operations: a pending exception skips the rest. -/
def bindR (r : BuildR) (f : MachineState → BuildR) : BuildR :=
  match r with
  | (s, none) => f s
  | (s, some e) => (s, some e)

/-- Append a warning to the `console.warn` log. -/
def warn (s : MachineState) (msg : String) : MachineState :=
  { s with warnings := s.warnings ++ [msg] }

/-- `ChoiceScriptStateMachine.createNode`: mint `node_<counter>` and insert
the node; returns the new id with the updated state. -/
def createNode (s : MachineState) (type text : String)
    (attributes : NodeAttributes := {}) : String × MachineState :=
  let counter := s.nodeIdCounter + 1
  let nodeId := "node_" ++ toString counter
  let node : Node := { id := nodeId, type := type, text := text,
                       attributes := attributes, position := s.position }
  (nodeId,
   { s with nodeIdCounter := counter,
            graph := { s.graph with nodes := mapSet s.graph.nodes nodeId node } })

/-- `ChoiceScriptStateMachine.addEdge`: push an edge (no validation in the
source). -/
def addEdge (s : MachineState) (sourceId targetId : String)
    (attributes : EdgeAttributes := {}) : MachineState :=
  { s with graph := { s.graph with edges := s.graph.edges ++
      [{ source := sourceId, target := targetId, attributes := attributes,
         position := s.position }] } }

/-- The `if (this.currentNode) { this.addEdge(this.currentNode, target, …) }`
idiom repeated throughout the class. -/
def edgeFromCurrent (s : MachineState) (target : String)
    (ea : EdgeAttributes := {}) : MachineState :=
  match s.currentNode with
  | some cn => addEdge s cn target ea
  | none => s

/-- The `createNode` / edge-from-cursor / `this.currentNode = newNodeId`
sequence repeated by most command handlers. -/
def appendNode (s : MachineState) (ty tx : String) (a : NodeAttributes)
    (ea : EdgeAttributes := {}) : String × MachineState :=
  let (nid, s) := createNode s ty tx a
  let s := edgeFromCurrent s nid ea
  (nid, { s with currentNode := some nid })

/-- The `if (textBuffer.length > 0) textBuffer += '\n'; textBuffer += line`
pattern of `processLine`. -/
def appendTextBuffer (s : MachineState) (t : String) : MachineState :=
  { s with textBuffer :=
      (if 0 < s.textBuffer.length then s.textBuffer ++ "\n" else s.textBuffer) ++ t }

/-- `ChoiceScriptStateMachine.flushTextBuffer`. -/
def flushTextBuffer (s : MachineState) : MachineState :=
  if 0 < s.textBuffer.trimJS.length then
    let r := appendNode s "text" s.textBuffer {}
    let s := r.2
    { s with textBuffer := "" }
  else
    { s with textBuffer := "" }

/-- `ChoiceScriptStateMachine.startChoiceBlock`. -/
def startChoiceBlock (isFake : Bool) (s : MachineState) : MachineState :=
  let s := flushTextBuffer s
  let s := { s with currentState := "CHOICE_BLOCK" }
  let r := appendNode s "choice"
    ("Choice at " ++ posStr s.position) { isFake := some isFake }
  let choiceNodeId := r.1
  let s := r.2
  let s := { s with choiceNodeStack := choiceNodeId :: s.choiceNodeStack }
  let nodes' := mapUpdate s.graph.nodes choiceNodeId (fun n => { n with options := some [] })
  let s := { s with graph := { s.graph with nodes := nodes' } }
  { s with commandRequiringIndent := true,
           expectedIndentLevel := ratAdd1 s.currentIndentLevel }

/-- `ChoiceScriptStateMachine.processChoiceOption`. -/
def processChoiceOption (line : String) (s : MachineState) : BuildR :=
  if ¬ line.startsWithJS "#" then
    throwR s ("Invalid choice option at " ++ posStr s.position ++ ": " ++ line)
  else
    let optionText := (substringFrom line 1).trimJS
    let info := extractOptionPrefixes optionText
    let (optionNodeId, s) := createNode s "option" info.cleanText
      { hideReuse := some info.hideReuse, disableReuse := some info.disableReuse,
        allowReuse := some info.allowReuse, isSelectable := some info.isSelectable,
        condition := info.condition }
    match s.choiceNodeStack with
    | [] =>
      throwR s ("No active choice block when processing choice option at " ++
        posStr s.position)
    | currentChoiceNodeId :: _ =>
      match mapGet s.graph.nodes currentChoiceNodeId with
      | none =>
        throwR s ("No active choice block when processing choice option at " ++
          posStr s.position)
      | some choiceNode =>
        match choiceNode.options with
        | none => throwR s ("Invalid choice structure at " ++ posStr s.position)
        | some opts =>
          -- JS truthiness of `condition`: null and "" are both falsy
          let condTruthy : Bool := match info.condition with
            | some c => c != ""
            | none => false
          let newOpt : ChoiceOptionEntry :=
            { id := optionNodeId, text := info.cleanText,
              conditions := if condTruthy then [info.condition.getD ""] else [],
              isSelectable := info.isSelectable }
          let nodes' := mapUpdate s.graph.nodes currentChoiceNodeId
            (fun n => { n with options := some (opts ++ [newOpt]) })
          let s := { s with graph := { s.graph with nodes := nodes' } }
          let edgeAttrs : EdgeAttributes :=
            if condTruthy then
              { condition := info.condition, isSelectable := some info.isSelectable }
            else {}
          let s := addEdge s choiceNode.id optionNodeId edgeAttrs
          okR { s with currentNode := some optionNodeId,
                       commandRequiringIndent := true,
                       expectedIndentLevel := ratAdd1 s.currentIndentLevel }

/-- `ChoiceScriptStateMachine.startConditional`: pushes the frame (with
`nodeBeforeIf = currentNode || ''`), creates the `conditional` node and the
conditioned edge into it. -/
def startConditional (condition : String) (s : MachineState) : MachineState :=
  let s := flushTextBuffer s
  let s := { s with conditionalStack :=
      { condition := condition, nodeBeforeIf := (s.currentNode).getD "",
        branchEndNodes := [] } :: s.conditionalStack }
  let s := { s with currentState := "CONDITIONAL" }
  let r := appendNode s "conditional" ("If: " ++ condition)
    { condition := some condition } { condition := some condition }
  let s := r.2
  { s with commandRequiringIndent := true,
           expectedIndentLevel := ratAdd1 s.currentIndentLevel }

/-- `ChoiceScriptStateMachine.processElseIf`. -/
def processElseIf (condition : String) (s : MachineState) : BuildR :=
  let s := flushTextBuffer s
  match s.conditionalStack with
  | [] => throwR s ("*elseif without matching *if at " ++ posStr s.position)
  | ifState :: restStack =>
    let ifState := match s.currentNode with
      | some cn => { ifState with branchEndNodes := ifState.branchEndNodes ++ [cn] }
      | none => ifState
    let s := { s with conditionalStack := ifState :: restStack }
    let (elseifNodeId, s) := createNode s "conditional" ("ElseIf: " ++ condition)
      { condition := some condition }
    let negatedPrevious := "not(" ++ ifState.condition ++ ")"
    let s := addEdge s ifState.nodeBeforeIf elseifNodeId
      { condition := some (negatedPrevious ++ " and (" ++ condition ++ ")") }
    let s := { s with conditionalStack :=
        { ifState with condition :=
            "(" ++ ifState.condition ++ ") or (" ++ condition ++ ")" } :: restStack }
    okR { s with currentNode := some elseifNodeId,
                 commandRequiringIndent := true,
                 expectedIndentLevel := ratAdd1 s.currentIndentLevel }

/-- `ChoiceScriptStateMachine.processElse`. -/
def processElse (s : MachineState) : BuildR :=
  let s := flushTextBuffer s
  match s.conditionalStack with
  | [] => throwR s ("*else without matching *if at " ++ posStr s.position)
  | ifState :: restStack =>
    let ifState := match s.currentNode with
      | some cn => { ifState with branchEndNodes := ifState.branchEndNodes ++ [cn] }
      | none => ifState
    let s := { s with conditionalStack := ifState :: restStack }
    let (elseNodeId, s) := createNode s "conditional" "Else"
      { condition := some ("not(" ++ ifState.condition ++ ")") }
    let s := addEdge s ifState.nodeBeforeIf elseNodeId
      { condition := some ("not(" ++ ifState.condition ++ ")") }
    okR { s with currentNode := some elseNodeId,
                 commandRequiringIndent := true,
                 expectedIndentLevel := ratAdd1 s.currentIndentLevel }

/-- `ChoiceScriptStateMachine.endConditional`: pops the frame, creates the
`merge` node and connects every recorded branch-terminal node to it. -/
def endConditional (s : MachineState) : BuildR :=
  let s := flushTextBuffer s
  match s.conditionalStack with
  | [] => throwR s ("*endif without matching *if at " ++ posStr s.position)
  | ifState :: restStack =>
    let s := { s with conditionalStack := restStack }
    let branchEnds := match s.currentNode with
      | some cn => ifState.branchEndNodes ++ [cn]
      | none => ifState.branchEndNodes
    let (mergeNodeId, s) := createNode s "merge"
      ("End of conditional at " ++ posStr s.position)
    let s := branchEnds.foldl (fun acc endNode => addEdge acc endNode mergeNodeId) s
    let s := { s with currentNode := some mergeNodeId }
    okR (if s.conditionalStack = [] then { s with currentState := "READING_TEXT" } else s)

/-- The choice-stack pop loop of `processIndentedContent`
(`for (let i = 0; i < indentLevelDecrease && stack.length > 0; i++) pop`). -/
def popChoiceLoop : Nat → Rat → List String → List String
  | _, _, [] => []
  | i, d, x :: rest => if (i : Rat) < d then popChoiceLoop (i + 1) d rest else x :: rest

/-- The conditional force-close loop of `processIndentedContent`
(`for (…) this.endConditional()`); the guard keeps the stack nonempty, so
`endConditional` never throws here. -/
def forceCloseLoop : Nat → Nat → Rat → MachineState → MachineState
  | 0, _, _, s => s
  | fuel + 1, i, d, s =>
    if (i : Rat) < d ∧ s.conditionalStack ≠ [] then
      forceCloseLoop fuel (i + 1) d (endConditional s).1
    else s

/-- JS `target.split(/\s+/)` on already-trimmed input (no leading-empty
element), with out-of-range indexing defaulting like `parts[1] || ''`. -/
def splitWsJS (t : String) : List String :=
  (t.splitPred Char.isWhitespace).filter (fun p => p ≠ "")

/-- `ChoiceScriptStateMachine.processGoto` (`goto` and `goto_scene`). -/
def processGoto (command target : String) (s : MachineState) : MachineState :=
  let s := flushTextBuffer s
  let (sceneName, labelName) :=
    if command = "goto_scene" then
      let parts := splitWsJS target
      ((some (parts.getD 0 "") : Option String), parts.getD 1 "")
    else (none, target)
  let r := appendNode s "goto" ("Goto: " ++ target)
    { sceneName := sceneName, labelName := some labelName }
  let gotoNodeId := r.1
  let s := r.2
  -- JS truthiness: `if (sceneName)` — null and '' both falsy
  match sceneName with
  | some sn =>
    if sn ≠ "" then
      match mapGet s.graph.entryPoints sn with
      | some targetSceneEntry => addEdge s gotoNodeId targetSceneEntry
      | none => s
    else if labelName ≠ "" then
      match mapGet s.graph.labels labelName with
      | some targetLabelNode => addEdge s gotoNodeId targetLabelNode
      | none => s
    else s
  | none =>
    if labelName ≠ "" then
      match mapGet s.graph.labels labelName with
      | some targetLabelNode => addEdge s gotoNodeId targetLabelNode
      | none => s
    else s

/-- `ChoiceScriptStateMachine.processLabel`. -/
def processLabel (label : String) (s : MachineState) : MachineState :=
  let s := flushTextBuffer s
  let r := appendNode s "label" ("Label: " ++ label) {}
  let s := r.2
  let labels' := mapSet s.graph.labels label r.1
  { s with graph := { s.graph with labels := labels' } }

/-- `ChoiceScriptStateMachine.processVariableDeclaration` (`create`/`temp`). -/
def processVariableDeclaration (command args : String) (s : MachineState) : BuildR :=
  match extractVariableNameAndValue args with
  | none =>
    throwR s ("Invalid " ++ command ++ " syntax at " ++ posStr s.position ++ ": " ++ args)
  | some r =>
    let initialValue := r.value
    let dataType :=
      if initialValue = "true" ∨ initialValue = "false" then "boolean"
      else if initialValue = "" ∨ isNumeric initialValue then "numeric"
      else "string"
    -- `variable` in the source; renamed `v` (Lean keyword)
    let v : Variable :=
      { name := r.variableName, type := command, dataType, initialValue }
    let s := { s with variablesMap := mapSet s.variablesMap r.variableName v }
    let s := if command = "create" then
        { s with graph := { s.graph with metadata := { s.graph.metadata with
            variablesMap := mapSet s.graph.metadata.variablesMap r.variableName v } } }
      else s
    let rn := appendNode s "variable"
      (command ++ " " ++ r.variableName ++ " = " ++ initialValue)
      { command := some command, variableName := some r.variableName,
        initialValue := some initialValue, dataType := some dataType }
    okR rn.2

/-- `ChoiceScriptStateMachine.processVariableAssignment` (`set`). -/
def processVariableAssignment (args : String) (s : MachineState) : BuildR :=
  match extractVariableNameAndValue args with
  | none => throwR s ("Invalid set syntax at " ++ posStr s.position ++ ": " ++ args)
  | some r =>
    let operation := r.operation.getD "set"
    let rn := appendNode s "set"
      ("set " ++ r.variableName ++ " = " ++ r.value)
      { variableName := some r.variableName, value := some r.value,
        operation := some operation,
        isFairmath := some (operation = "fairmath_add" ∨ operation = "fairmath_subtract") }
      { statChanges := some [{
          varName := r.variableName,
          operation := if containsSub r.value "%+" then "fairmath_add"
                       else if containsSub r.value "%-" then "fairmath_subtract"
                       else "set",
          value := String.mk (r.value.data.dropWhile
            (fun c => c = '%' ∨ c = '+' ∨ c = '-')) }] }
    okR rn.2

/-- `ChoiceScriptStateMachine.processGosub` (`gosub`/`gosub_scene`): pushes
the *pre-call* node onto the subroutine stack. -/
def processGosub (command target : String) (s : MachineState) : MachineState :=
  let s := flushTextBuffer s
  let (sceneName, labelName) :=
    if command = "gosub_scene" then
      let parts := splitWsJS target
      ((some (parts.getD 0 "") : Option String), parts.getD 1 "")
    else (none, target)
  let (gosubNodeId, s) := createNode s "gosub" (command ++ ": " ++ target)
    { sceneName := sceneName, labelName := some labelName }
  let s := match s.currentNode with
    | some cn =>
      let s := addEdge s cn gosubNodeId
      { s with subroutineStack := cn :: s.subroutineStack }
    | none => s
  let s := { s with currentNode := some gosubNodeId,
                    currentState := "SUBROUTINE" }
  match sceneName with
  | some sn =>
    if sn ≠ "" then
      match mapGet s.graph.entryPoints sn with
      | some targetSceneEntry => addEdge s gosubNodeId targetSceneEntry
      | none => s
    else if labelName ≠ "" then
      match mapGet s.graph.labels labelName with
      | some targetLabelNode => addEdge s gosubNodeId targetLabelNode
      | none => s
    else s
  | none =>
    if labelName ≠ "" then
      match mapGet s.graph.labels labelName with
      | some targetLabelNode => addEdge s gosubNodeId targetLabelNode
      | none => s
    else s

/-- `ChoiceScriptStateMachine.processReturn`: throws on an empty subroutine
stack, else pops the return target and edges the `return` node back to it. -/
def processReturn (s : MachineState) : BuildR :=
  let s := flushTextBuffer s
  match s.subroutineStack with
  | [] => throwR s ("*return without matching *gosub at " ++ posStr s.position)
  | _ :: _ =>
    let (returnNodeId, s) := createNode s "return" ("Return at " ++ posStr s.position)
    let s := edgeFromCurrent s returnNodeId
    match s.subroutineStack with
    | [] => throwR s "unreachable: subroutine stack emptied"
    | returnTarget :: restStack =>
      let s := { s with subroutineStack := restStack }
      let s := addEdge s returnNodeId returnTarget
      let s := { s with currentNode := some returnNodeId }
      okR (if s.subroutineStack = [] then { s with currentState := "READING_TEXT" } else s)

/-- `ChoiceScriptStateMachine.processFinish`. -/
def processFinish (args : String) (s : MachineState) : MachineState :=
  let s := flushTextBuffer s
  let r := appendNode s "finish"
    ("Finish: " ++ (if args = "" then "End of game" else args))
    { buttonText := some args }
  r.2

/-- `ChoiceScriptStateMachine.processPageBreak`: a `page_break` node plus a
`text` continuation node. -/
def processPageBreak (args : String) (s : MachineState) : MachineState :=
  let s := flushTextBuffer s
  let (pageBreakNodeId, s) := createNode s "page_break"
    ("Page break: " ++ (if args = "" then "Next" else args))
    { buttonText := some args }
  let s := edgeFromCurrent s pageBreakNodeId
  let (continueNodeId, s) := createNode s "text"
    ("After page break at " ++ posStr s.position)
  let s := addEdge s pageBreakNodeId continueNodeId
  { s with currentNode := some continueNodeId }

/-- `ChoiceScriptStateMachine.processTitle`. -/
def processTitle (title : String) (s : MachineState) : MachineState :=
  let s := { s with graph := { s.graph with metadata :=
      { s.graph.metadata with title := some title } } }
  let r := appendNode s "metadata" ("Title: " ++ title)
    { metaType := some "title", value := some title }
  r.2

/-- `ChoiceScriptStateMachine.processAuthor`. -/
def processAuthor (author : String) (s : MachineState) : MachineState :=
  let s := { s with graph := { s.graph with metadata :=
      { s.graph.metadata with author := some author } } }
  let r := appendNode s "metadata" ("Author: " ++ author)
    { metaType := some "author", value := some author }
  r.2

/-- `ChoiceScriptStateMachine.processSceneList`. -/
def processSceneList (s : MachineState) : MachineState :=
  let s := flushTextBuffer s
  let r := appendNode s "scene_list" "Scene List"
    { metaType := some "scene_list", scenes := some [] }
  let s := r.2
  let s := { s with currentState := "SCENE_LIST" }
  { s with commandRequiringIndent := true,
           expectedIndentLevel := ratAdd1 s.currentIndentLevel }

/-- `\w` character class of the achievement/stat regexes. -/
def isWordChar (c : Char) : Bool :=
  decide (('a' ≤ c ∧ c ≤ 'z') ∨ ('A' ≤ c ∧ c ≤ 'Z') ∨
          ('0' ≤ c ∧ c ≤ '9') ∨ c = '_')

/-- The achievement regex `^(\w+)\s+(visible|hidden)\s+(\d+)\s+(.+)$`,
hand-rolled (the character classes are disjoint where it matters, so the
match is deterministic); returns `(id, visibility, points, name)`. -/
def matchAchievement (args : String) : Option (String × String × String × String) :=
  let l := args.data
  let idRun := l.takeWhile isWordChar
  if idRun = [] then none
  else
    let rest1 := l.drop idRun.length
    let ws1 := rest1.takeWhile Char.isWhitespace
    if ws1 = [] then none
    else
      let rest2 := rest1.drop ws1.length
      let tryVis (kw : String) : Option (String × List Char) :=
        if kw.data.isPrefixOf rest2 then
          let r := rest2.drop kw.length
          let w := r.takeWhile Char.isWhitespace
          if w = [] then none else some (kw, r.drop w.length)
        else none
      match tryVis "visible" <|> tryVis "hidden" with
      | none => none
      | some (vis, rest4) =>
        let digits := rest4.takeWhile (fun c => decide ('0' ≤ c ∧ c ≤ '9'))
        if digits = [] then none
        else
          let rest5 := rest4.drop digits.length
          let ws3 := rest5.takeWhile Char.isWhitespace
          if ws3 = [] then none
          else
            let rest6 := rest5.drop ws3.length
            if rest6 = [] then none
            else some (String.mk idRun, vis, String.mk digits, String.mk rest6)

/-- `ChoiceScriptStateMachine.processAchievement`. -/
def processAchievement (args : String) (s : MachineState) : MachineState :=
  match matchAchievement args with
  | some (id, visibility, points, name) =>
    let newAch : Achievement :=
      { id := id, name := name, visibility := visibility,
        points := (points.toNatJS).getD 0,
        description := "", earnedDescription := "" }
    let s := { s with currentAchievement := some newAch,
                      inAchievementBlock := true }
    let r := appendNode s "achievement"
      ("Achievement: " ++ name)
      { attrId := some id, name := some name, visibility := some visibility,
        points := some points }
    let s := r.2
    { s with commandRequiringIndent := true,
             expectedIndentLevel := ratAdd1 s.currentIndentLevel }
  | none =>
    if s.inAchievementBlock ∧ s.currentAchievement.isSome then
      let lines := s.textBuffer.trimJS.splitNl
      let s := if 2 ≤ lines.length then
          match s.currentAchievement with
          | some a =>
            let completed := { a with description := (lines.getD 0 "").trimJS,
                                      earnedDescription := (lines.getD 1 "").trimJS }
            { s with graph := { s.graph with metadata := { s.graph.metadata with
                achievements := s.graph.metadata.achievements ++ [completed] } } }
          | none => s
        else s
      { s with inAchievementBlock := false, currentAchievement := none,
               textBuffer := "" }
    else
      warn s ("Invalid achievement syntax at " ++ posStr s.position ++ ": " ++ args)

/-- The stat-chart line regex `^([^%]+)\s+%(\w+)(?:\s+(.*))?$`, hand-rolled
with the regex's backtracking semantics: `[^%]+` cannot cross the first
`%`, releases exactly the one whitespace character `\s+` needs, and the
optional description group requires at least one whitespace separator;
returns `(label, variable, description)` (description `""` when the group
is absent, as the consumer maps both to `''`). -/
def matchStatLine (statLine : String) : Option (String × String × String) :=
  let l := statLine.data
  match l.findIdx? (fun c => c = '%') with
  | none => none
  | some i =>
    if 2 ≤ i then
      let pre := l.take i
      if (pre.getLast?.map Char.isWhitespace).getD false then
        let labelChars := pre.dropLast
        let rest := l.drop (i + 1)
        let w := rest.takeWhile isWordChar
        if w = [] then none
        else
          let rest2 := rest.drop w.length
          if rest2 = [] then
            some (String.mk labelChars, String.mk w, "")
          else if (rest2.head?.map Char.isWhitespace).getD false then
            let wsRun := rest2.takeWhile Char.isWhitespace
            some (String.mk labelChars, String.mk w,
                  String.mk (rest2.drop wsRun.length))
          else none
      else none
    else none

/-- The `commandsRequiringIndent` list of `processLine`. -/
def commandsRequiringIndent : List String :=
  ["fake_choice", "choice", "if", "else", "elseif",
   "elsif", "scene_list", "achievement", "goto_random_scene",
   "stat_chart"]

/-- `ChoiceScriptStateMachine.processCommand`: parse the `*` line and
dispatch.  Commands without a `case` (including `goto_random_scene` and
`stat_chart`, whose handlers exist in the class but are never invoked)
fall to the default branch: a warning plus an `unknown_command` node. -/
def processCommand (line : String) (s : MachineState) : BuildR :=
  match parseCommand line s.position with
  | .error e => throwR s e
  | .ok (command, args) =>
    match command with
    | "choice" => okR (startChoiceBlock false s)
    | "fake_choice" => okR (startChoiceBlock true s)
    | "if" => okR (startConditional args s)
    | "elseif" => processElseIf args s
    | "elsif" => processElseIf args s
    | "else" => processElse s
    | "endif" => endConditional s
    | "goto" => okR (processGoto command args s)
    | "goto_scene" => okR (processGoto command args s)
    | "label" => okR (processLabel args s)
    | "create" => processVariableDeclaration command args s
    | "temp" => processVariableDeclaration command args s
    | "set" => processVariableAssignment args s
    | "gosub" => okR (processGosub command args s)
    | "gosub_scene" => okR (processGosub command args s)
    | "return" => processReturn s
    | "finish" => okR (processFinish args s)
    | "page_break" => okR (processPageBreak args s)
    | "title" => okR (processTitle args s)
    | "author" => okR (processAuthor args s)
    | "scene_list" => okR (processSceneList s)
    | "achievement" => okR (processAchievement args s)
    | "comment:" | "comment" =>
      let (commentNodeId, s) := createNode s "comment" args
      okR (match s.currentNode with
        | some cn =>
          let s := addEdge s cn commentNodeId
          { s with currentNode := some commentNodeId }
        | none => s)
    | _ =>
      let s := warn s ("Unsupported command at " ++ posStr s.position ++ ": " ++ command)
      let (cmdNodeId, s) := createNode s "unknown_command" (command ++ " " ++ args)
        { command := some command, args := some args }
      okR (match s.currentNode with
        | some cn =>
          let s := addEdge s cn cmdNodeId
          { s with currentNode := some cmdNodeId }
        | none => s)

/-- The choice-stack unwinding state of `processIndentedContent`
(the `CHOICE_BLOCK` dedent branch). -/
def choicePopState (s : MachineState) : MachineState :=
  let indentLevelDecrease := ratSub s.expectedIndentLevel s.currentIndentLevel
  let s := { s with choiceNodeStack := popChoiceLoop 0 indentLevelDecrease s.choiceNodeStack }
  let s := if s.choiceNodeStack = [] then { s with currentState := "READING_TEXT" } else s
  { s with expectedIndentLevel := s.currentIndentLevel }

/-- The conditional force-close state of `processIndentedContent`
(the `CONDITIONAL` dedent branch). -/
def condForceCloseState (s : MachineState) : MachineState :=
  let s := warn s ("Unexpected change in indentation level at " ++
    posStr s.position ++ ". Expected *endif.")
  let s := forceCloseLoop s.conditionalStack.length 0
    (ratSub s.expectedIndentLevel s.currentIndentLevel) s
  { s with expectedIndentLevel := s.currentIndentLevel }

/-- `ChoiceScriptStateMachine.processIndentedContent`, parameterized by the
`processLine` re-entry (`lineF`) to break the mutual recursion.  The two
early-exit branches fire when the indentation level dropped below the
expected level; otherwise the indented content is processed according to
the current state. -/
def processIndentedContent (lineF : String → MachineState → BuildR)
    (line : String) (s : MachineState) : BuildR :=
  if s.currentIndentLevel < s.expectedIndentLevel ∧ s.currentState = "CHOICE_BLOCK" then
    lineF line (choicePopState s)
  else if s.currentIndentLevel < s.expectedIndentLevel ∧ s.currentState = "CONDITIONAL" then
    lineF line (condForceCloseState s)
  else if s.currentState = "CHOICE_BLOCK" then
    let trimmedLine := line.trimJS
    if trimmedLine.startsWithJS "*" then
      let s := flushTextBuffer s
      processCommand trimmedLine s
    else
      okR (appendTextBuffer s trimmedLine)
  else if s.currentState = "CONDITIONAL" then
    lineF line.trimJS s
  else if s.currentState = "SCENE_LIST" ∨ s.currentState = "RANDOM_SCENE_LIST" ∨
      s.currentState = "STAT_CHART" then
    lineF line s
  else
    okR s

/-- The "Detect indentation type and size on first indented line" block of
`processLine`. -/
def detectIndentType (indentChars : List Char) (s : MachineState) : MachineState :=
  if 0 < indentChars.length ∧ s.indentSize = none then
    if '\t' ∈ indentChars then
      { s with lastIndentationType := some "tab", indentSize := some 1 }
    else
      { s with lastIndentationType := some "space", indentSize := some indentChars.length }
  else s

/-- The "Validate consistent indentation type" block of `processLine`. -/
def validateIndentType (indentChars : List Char) (s : MachineState) : MachineState :=
  if 0 < indentChars.length then
    let currentType := if '\t' ∈ indentChars then "tab" else "space"
    let s := if s.lastIndentationType ≠ none ∧ s.lastIndentationType ≠ some currentType then
        warn s ("Inconsistent indentation type at " ++ posStr s.position ++
          ". Mixing tabs and spaces.")
      else s
    { s with lastIndentationType := some currentType }
  else s

/-- The "Calculate current indent level" block of `processLine`. -/
def computeIndentLevel (indentChars : List Char) (s : MachineState) : MachineState :=
  match s.indentSize with
  | some n =>
    if 0 < n then
      { s with
          currentIndentLevel := ratDiv (indentChars.length : Rat)
            (if s.lastIndentationType = some "tab" then 1 else (n : Rat)) }
    else { s with currentIndentLevel := 0 }
  | none => { s with currentIndentLevel := 0 }

/-- The "Check indentation expectation" block of `processLine`. -/
def checkIndentExpectation (s : MachineState) : MachineState :=
  if s.commandRequiringIndent ∧ s.currentIndentLevel ≠ s.expectedIndentLevel then
    warn s ("Expected indentation level " ++ toString s.expectedIndentLevel ++
      " but got " ++ toString s.currentIndentLevel ++ " at " ++ posStr s.position)
  else s

/-- The straight-line indentation-tracking prefix of `processLine`
(track, detect, validate, compute, check, then clear
`commandRequiringIndent`). -/
def processLineIndent (line : String) (s : MachineState) : MachineState :=
  let indentChars := line.data.takeWhile Char.isWhitespace
  { checkIndentExpectation (computeIndentLevel indentChars
      (validateIndentType indentChars (detectIndentType indentChars s))) with
    commandRequiringIndent := false }

/-- `ChoiceScriptStateMachine.processLine` with explicit fuel bounding the
nested `processLine` re-entries (state-exit branches re-process the same
line after a state change; the nesting depth is small and exhaustion —
which returns the state unchanged — is never reached on the inputs of the
claims). -/
def processLine : Nat → String → MachineState → BuildR
  | 0, _, s => okR s
  | fuel + 1, line, s =>
    let s := processLineIndent line s
    let trimmedLine := line.trimJS
    -- Empty lines
    if trimmedLine = "" then
      okR (if s.currentState = "READING_TEXT" then
             { s with textBuffer := s.textBuffer ++ "\n" } else s)
    -- Comment lines (outside choice blocks)
    else if trimmedLine.startsWithJS "#" ∧ s.currentState ≠ "CHOICE_BLOCK" then
      okR s
    -- Command lines
    else if trimmedLine.startsWithJS "*" then
      let s := flushTextBuffer s
      let s := { s with currentState := "COMMAND" }
      match parseCommand trimmedLine s.position with
      | .error e => throwR s e
      | .ok (command, _) =>
        let s := if command ∈ commandsRequiringIndent then
            { s with commandRequiringIndent := true,
                     expectedIndentLevel := ratAdd1 s.currentIndentLevel }
          else s
        processCommand trimmedLine s
    -- Choice options
    else if trimmedLine.startsWithJS "#" ∧ s.currentState = "CHOICE_BLOCK" then
      let s := { s with commandRequiringIndent := true,
                        expectedIndentLevel := ratAdd1 s.currentIndentLevel }
      processChoiceOption trimmedLine s
    -- Scene list entries
    else if s.currentState = "SCENE_LIST" then
      if s.currentIndentLevel < s.expectedIndentLevel then
        okR (appendTextBuffer { s with currentState := "READING_TEXT" } trimmedLine)
      else if s.currentIndentLevel = s.expectedIndentLevel then
        let sceneName := trimmedLine
        let s := match s.currentNode with
          | some cn =>
            let nodes' := mapUpdate s.graph.nodes cn (fun node =>
              if node.type = "scene_list" then
                { node with attributes := { node.attributes with
                    scenes := some ((node.attributes.scenes.getD []) ++ [sceneName]) } }
              else node)
            { s with graph := { s.graph with nodes := nodes' } }
          | none => s
        let s := if sceneName ∉ s.graph.metadata.sceneList then
            { s with graph := { s.graph with metadata := { s.graph.metadata with
                sceneList := s.graph.metadata.sceneList ++ [sceneName] } } }
          else s
        okR s
      else
        okR (appendTextBuffer { s with currentState := "READING_TEXT" } trimmedLine)
    -- Indented content in choice blocks / conditionals
    else if 0 < s.currentIndentLevel ∧
        (s.currentState = "CHOICE_BLOCK" ∨ s.currentState = "CONDITIONAL") then
      processIndentedContent (fun l s' => processLine fuel l s') line s
    -- Random scene list entries (state set only by the never-called
    -- `processGotoRandomScene`; branch kept for faithfulness)
    else if s.currentState = "RANDOM_SCENE_LIST" then
      if s.currentIndentLevel < s.expectedIndentLevel then
        processLine fuel line { s with currentState := "READING_TEXT" }
      else if s.currentIndentLevel = s.expectedIndentLevel then
        let sceneName := line.trimJS
        okR (match s.currentNode with
          | some cn =>
            let nodes' := mapUpdate s.graph.nodes cn (fun node =>
              if node.type = "goto_random_scene" then
                { node with attributes := { node.attributes with
                    scenes := some ((node.attributes.scenes.getD []) ++ [sceneName]) } }
              else node)
            { s with graph := { s.graph with nodes := nodes' } }
          | none => s)
      else
        processLine fuel line { s with currentState := "READING_TEXT" }
    -- Stat chart entries (state set only by the never-called
    -- `processStatChart`).  The source's stat-chart `if` block has no
    -- trailing `return` except in its `<` branch, so the other branches
    -- fall through to the default text append below.
    else if s.currentState = "STAT_CHART" then
      if s.currentIndentLevel < s.expectedIndentLevel then
        processLine fuel line { s with currentState := "READING_TEXT" }
      else if s.currentIndentLevel = s.expectedIndentLevel then
        let statLine := line.trimJS
        let s := match matchStatLine statLine with
          | some (label, varName, description) =>
            (match s.currentNode with
             | some cn =>
               let entry : StatEntry :=
                 { label := label.trimJS, varName := varName,
                   description := if description ≠ "" then description.trimJS else "" }
               let nodes' := mapUpdate s.graph.nodes cn (fun node =>
                 if node.type = "stat_chart" then
                   { node with attributes := { node.attributes with
                       stats := some ((node.attributes.stats.getD []) ++ [entry]) } }
                 else node)
               { s with graph := { s.graph with nodes := nodes' } }
             | none => s)
          | none =>
            warn s ("Invalid stat chart entry at " ++ posStr s.position ++ ": " ++ statLine)
        okR (if s.currentState = "READING_TEXT" then appendTextBuffer s trimmedLine else s)
      else
        bindR (processLine fuel line { s with currentState := "READING_TEXT" })
          (fun s' => okR (if s'.currentState = "READING_TEXT" then
                            appendTextBuffer s' trimmedLine else s'))
    -- Default: add line to text buffer
    else
      okR (if s.currentState = "READING_TEXT" then appendTextBuffer s trimmedLine else s)

/-- The `lines.forEach((line, index) => …)` of `processContent`. -/
def processContentLines : List String → Nat → MachineState → BuildR
  | [], _, s => okR s
  | line :: rest, idx, s =>
    let s := { s with position := { s.position with line := idx + 1 } }
    bindR (processLine 12 line s) (processContentLines rest (idx + 1))

/-- `ChoiceScriptStateMachine.processContent`: split into lines, process
each, and flush the remaining text buffer (skipped, like the remaining
lines, if a line threw). -/
def processContent (content : String) (s : MachineState) : BuildR :=
  bindR (processContentLines (content.splitNl) 0 s)
    (fun s' => okR (flushTextBuffer s'))

/-- `ChoiceScriptStateMachine.processScene`: skip missing or already
processed scenes, otherwise create the scene-entry node, register the
entry point and process the content; errors thrown while processing are
caught (`try/catch`) and recorded. -/
def processScene (sp : SceneProvider) (sceneName : String) (s : MachineState) :
    MachineState :=
  if ¬ sp.hasScene sceneName then
    warn s ("Scene '" ++ sceneName ++ "' not found.")
  else if sceneName ∈ s.processedScenes then
    s
  else
    let s := { s with processedScenes := setAdd s.processedScenes sceneName }
    let s := { s with position := { file := sceneName, line := 0 } }
    let (entryNodeId, s) := createNode s "scene_entry"
      ("Entry point for " ++ sceneName)
    let entryPoints' := mapSet s.graph.entryPoints sceneName entryNodeId
    let s := { s with graph := { s.graph with entryPoints := entryPoints' } }
    let s := if s.currentNode = none then { s with currentNode := some entryNodeId } else s
    match processContent (sp.loadScene sceneName) s with
    | (s', none) => s'
    | (s', some e) => { s' with caughtErrors := s'.caughtErrors ++ [e] }

/-- The scene-reference scan of `processAllLinkedScenes`: the scenes of the
*first* `scene_list` node in insertion order (the loop `break`s after it;
the goto/gosub scan present in the source is commented out), deduplicated
into a `Set`. -/
def firstSceneListScenes : List (String × Node) → Option (List String)
  | [] => none
  | (_, node) :: rest =>
    if node.type = "scene_list" ∧ node.attributes.scenes.isSome then
      some (node.attributes.scenes.getD [])
    else firstSceneListScenes rest

def sceneRefsOf (g : Graph) : List String :=
  match firstSceneListScenes g.nodes with
  | some scenes => scenes.foldl setAdd []
  | none => []

/-- The `do … while (processedSceneCount !== processedScenes.size)` loop of
`processAllLinkedScenes`: each iteration recomputes the references and
processes the *first* not-yet-processed one (the inner `for` loop `break`s
after one `processScene` call). -/
def processAllLinkedScenesLoop (sp : SceneProvider) : Nat → MachineState → MachineState
  | 0, s => s
  | fuel + 1, s =>
    let processedSceneCount := s.processedScenes.length
    let sceneRefs := sceneRefsOf s.graph
    let s' := match sceneRefs.find? (fun n => decide (n ∉ s.processedScenes)) with
      | some n => processScene sp n s
      | none => s
    if processedSceneCount ≠ s'.processedScenes.length then
      processAllLinkedScenesLoop sp fuel s'
    else s'

/-- `ChoiceScriptStateMachine.processAllLinkedScenes`; the fuel
`|provider| + 1` is sufficient (proved in `claim_C2_amended`). -/
def processAllLinkedScenes (sp : SceneProvider) (s : MachineState) : MachineState :=
  processAllLinkedScenesLoop sp (sp.scenes.length + 1) s

/-- `ChoiceScriptStateMachine.resetState` (keeps `variables`, and does not
touch the achievement-block fields). -/
def resetState (s : MachineState) : MachineState :=
  { s with currentState := "READING_TEXT",
           position := { file := "", line := 0 },
           currentNode := none,
           choiceNodeStack := [],
           textBuffer := "",
           conditionalStack := [],
           executionMode := "normal",
           subroutineStack := [],
           currentIndentLevel := 0,
           expectedIndentLevel := 0,
           indentSize := none,
           lastIndentationType := none,
           commandRequiringIndent := false,
           graph := {},
           nodeIdCounter := 0,
           processedScenes := [] }

/-- `ChoiceScriptStateMachine.processGame(entryScene, processAllScenes)`. -/
def processGame (sp : SceneProvider) (entryScene : String := "startup")
    (processAllScenesFlag : Bool := true) (s : MachineState := {}) : MachineState :=
  let s := resetState s
  let s := processScene sp entryScene s
  if processAllScenesFlag then processAllLinkedScenes sp s else s

/-- A two-scene provider whose `startup` jumps to a scene that is in the
provider but in no `*scene_list`: the discovery scan never finds it. -/
def spGotoOnly : SceneProvider :=
  { scenes := [("startup", "*goto_scene other"), ("other", "hello")] }

/-- A one-scene provider for concrete builds. -/
def spSimple : SceneProvider := { scenes := [("startup", "hello world")] }

/-- A provider whose startup declares its linked scene in a `*scene_list`. -/
def spListed : SceneProvider :=
  { scenes := [("startup", "*scene_list\n  other"), ("other", "hello")] }

/-- A provider whose startup's only content is a dangling `*goto`. -/
def spDanglingGoto : SceneProvider :=
  { scenes := [("startup", "*goto missing_label")] }

/-- A tiny well-formed machine state with one node and the cursor on it. -/
def oneNodeState : MachineState :=
  { currentNode := some "node_1",
    nodeIdCounter := 1,
    graph := { nodes := [("node_1",
      { id := "node_1", type := "text", text := "hi",
        attributes := {}, position := { file := "s", line := 1 } })] } }

/-! ### Decimal rendering of node ids is injective

`createNode` mints ids `"node_" ++ toString counter`; distinctness of ids
for distinct counters underlies every freshness argument below.  We prove
it by evaluating the decimal string back to the number. -/

/-- Numeric value of a decimal digit character. -/
def digitVal (c : Char) : Nat := c.toNat - 48

/-- Fold a digit string into the number it denotes (most significant
first), starting from accumulator `a`. -/
def valFrom (a : Nat) (l : List Char) : Nat :=
  l.foldl (fun acc c => acc * 10 + digitVal c) a

theorem valFrom_eq (l : List Char) : ∀ a : Nat,
    valFrom a l = a * 10 ^ l.length + valFrom 0 l := by
  induction l with
  | nil => intro a; simp [valFrom]
  | cons c l ih =>
    intro a
    have h1 : valFrom a (c :: l) = valFrom (a * 10 + digitVal c) l := rfl
    have h2 : valFrom 0 (c :: l) = valFrom (0 * 10 + digitVal c) l := rfl
    rw [h1, h2, ih (a * 10 + digitVal c), ih (0 * 10 + digitVal c),
      List.length_cons, pow_succ]
    ring

theorem digitVal_digitChar (m : Nat) (h : m < 10) :
    digitVal (Nat.digitChar m) = m := by
  interval_cases m <;> rfl

theorem val_toDigitsCore (fuel : Nat) : ∀ (n : Nat) (ds : List Char), n < fuel →
    valFrom 0 (Nat.toDigitsCore 10 fuel n ds) = n * 10 ^ ds.length + valFrom 0 ds := by
  induction fuel with
  | zero => intro n ds h; omega
  | succ fuel ih =>
    intro n ds h
    rw [Nat.toDigitsCore]
    by_cases h10 : n / 10 = 0
    · have hn : n < 10 := by
        by_contra hge
        have : 1 ≤ n / 10 := Nat.one_le_div_iff (by norm_num) |>.mpr (by omega)
        omega
      simp only [h10, if_true]
      have hstep : valFrom 0 (Nat.digitChar (n % 10) :: ds) =
          valFrom (0 * 10 + digitVal (Nat.digitChar (n % 10))) ds := rfl
      rw [hstep, valFrom_eq ds,
        digitVal_digitChar (n % 10) (Nat.mod_lt _ (by norm_num)),
        Nat.mod_eq_of_lt hn]
      ring
    · simp only [h10, if_false]
      have hlt : n / 10 < fuel := by
        have h1 : n / 10 < n := Nat.div_lt_self (Nat.pos_of_ne_zero (by
          intro hz; rw [hz] at h10; simp at h10)) (by norm_num)
        omega
      rw [ih (n / 10) (Nat.digitChar (n % 10) :: ds) hlt]
      have hcons : valFrom 0 (Nat.digitChar (n % 10) :: ds) =
          (n % 10) * 10 ^ ds.length + valFrom 0 ds := by
        have hstep : valFrom 0 (Nat.digitChar (n % 10) :: ds) =
            valFrom (0 * 10 + digitVal (Nat.digitChar (n % 10))) ds := rfl
        rw [hstep, valFrom_eq ds,
          digitVal_digitChar (n % 10) (Nat.mod_lt _ (by norm_num))]
        ring
      rw [hcons, List.length_cons, pow_succ]
      conv_rhs => rw [← Nat.div_add_mod n 10]
      ring

/-- Evaluating `Nat.repr` recovers the number. -/
theorem valFrom_repr (n : Nat) : valFrom 0 (Nat.repr n).data = n := by
  have h : (Nat.repr n).data = Nat.toDigits 10 n := by
    simp [Nat.repr, List.asString]
  rw [h, Nat.toDigits, val_toDigitsCore (n + 1) n [] (Nat.lt_succ_self n)]
  simp [valFrom]

/-- `Nat.repr` is injective. -/
theorem natRepr_inj {m n : Nat} (h : Nat.repr m = Nat.repr n) : m = n := by
  have := congrArg (fun s => valFrom 0 (String.data s)) h
  simpa [valFrom_repr] using this

/-- Node ids minted from distinct counters are distinct. -/
theorem nodeId_inj {m n : Nat}
    (h : "node_" ++ Nat.repr m = "node_" ++ Nat.repr n) : m = n := by
  have hd := congrArg String.data h
  simp only [String.data_append] at hd
  exact natRepr_inj (String.ext (List.append_cancel_left hd))

/-! ### The edge-validity invariant (claim C1)

`GInv` is the graph well-formedness invariant the builder maintains: every
edge endpoint, the cursor, every stack entry, every label and entry point
refers to an existing node; node values carry their own key as `id`; and
every node key was minted by `createNode` (i.e. lies in the pool of ids up
to the current counter — the freshness fact behind every "new node is not
yet referenced" argument). -/

/-- The key set of the node map. -/
def nodeKeys (g : Graph) : List String := g.nodes.map Prod.fst

/-- All ids `node_1 … node_c`. -/
def nodeIdPool (c : Nat) : List String :=
  (List.range c).map (fun i => "node_" ++ toString (i + 1))

def GInv (s : MachineState) : Prop :=
  (∀ e ∈ s.graph.edges, e.source ∈ nodeKeys s.graph ∧ e.target ∈ nodeKeys s.graph) ∧
  (∀ n, s.currentNode = some n → n ∈ nodeKeys s.graph) ∧
  (∀ n ∈ s.choiceNodeStack, n ∈ nodeKeys s.graph) ∧
  (∀ f ∈ s.conditionalStack, f.nodeBeforeIf ∈ nodeKeys s.graph ∧
    ∀ b ∈ f.branchEndNodes, b ∈ nodeKeys s.graph) ∧
  (∀ n ∈ s.subroutineStack, n ∈ nodeKeys s.graph) ∧
  (∀ kv ∈ s.graph.labels, kv.2 ∈ nodeKeys s.graph) ∧
  (∀ kv ∈ s.graph.entryPoints, kv.2 ∈ nodeKeys s.graph) ∧
  (∀ kv ∈ s.graph.nodes, kv.2.id = kv.1) ∧
  (∀ k ∈ nodeKeys s.graph, k ∈ nodeIdPool s.nodeIdCounter)

/-- `GInv` plus a present cursor — the shape of the state everywhere inside
`processContent` (established when `processScene` creates the scene-entry
node). -/
def CInv (s : MachineState) : Prop := GInv s ∧ s.currentNode.isSome = true

/-- What one builder operation guarantees about the state it produces:
from a well-formed state with a present cursor (`CInv`) the graph
invariant is preserved, the cursor never becomes `null`, and neither the
processed-scenes set nor the entry-point map is touched (they are only
modified by `processScene` itself). -/
def StepOk (s t : MachineState) : Prop :=
  (CInv s → GInv t) ∧
  (s.currentNode.isSome = true → t.currentNode.isSome = true) ∧
  t.processedScenes = s.processedScenes ∧
  t.graph.entryPoints = s.graph.entryPoints

theorem StepOk.srefl (s : MachineState) : StepOk s s :=
  ⟨fun h => h.1, id, rfl, rfl⟩

theorem StepOk.strans {s t u : MachineState} (h1 : StepOk s t) (h2 : StepOk t u) :
    StepOk s u :=
  ⟨fun h => h2.1 ⟨h1.1 h, h1.2.1 h.2⟩, fun h => h2.2.1 (h1.2.1 h),
   h2.2.2.1.trans h1.2.2.1, h2.2.2.2.trans h1.2.2.2⟩

theorem StepOk.cinv {s t : MachineState} (h : StepOk s t) (hc : CInv s) : CInv t :=
  ⟨h.1 hc, h.2.1 hc.2⟩

/-! Association-list lemmas (JS `Map` semantics). -/

theorem mapSet_of_not_mem {β : Type} (l : List (String × β)) (k : String) (v : β)
    (h : k ∉ l.map Prod.fst) : mapSet l k v = l ++ [(k, v)] := by
  induction l with
  | nil => rfl
  | cons p rest ih =>
    obtain ⟨k', v'⟩ := p
    simp only [List.map_cons, List.mem_cons] at h
    push_neg at h
    simp only [mapSet]
    rw [if_neg (fun hc => h.1 hc.symm)]
    simp only [List.cons_append, List.cons.injEq, true_and]
    exact ih h.2

theorem mapUpdate_keys {β : Type} (l : List (String × β)) (k : String) (f : β → β) :
    (mapUpdate l k f).map Prod.fst = l.map Prod.fst := by
  induction l with
  | nil => rfl
  | cons p rest ih =>
    simp only [mapUpdate]
    split
    · simp
    · simpa using ih

theorem mapUpdate_forall {β : Type} (P : String × β → Prop)
    (k : String) (f : β → β) : ∀ (l : List (String × β)),
    (∀ kv ∈ l, P kv) →
    (∀ k' v', (k', v') ∈ l → P (k', v') → P (k', f v')) →
    ∀ kv ∈ mapUpdate l k f, P kv := by
  intro l
  induction l with
  | nil => intro _ _ kv hkv; simp [mapUpdate] at hkv
  | cons p rest ih =>
    intro h hf kv hkv
    obtain ⟨pk, pv⟩ := p
    simp only [mapUpdate] at hkv
    by_cases he : pk = k
    · rw [if_pos he] at hkv
      rcases List.mem_cons.mp hkv with h1 | h1
      · subst h1
        exact hf pk pv (List.mem_cons_self _ _) (h (pk, pv) (List.mem_cons_self _ _))
      · exact h kv (List.mem_cons_of_mem _ h1)
    · rw [if_neg he] at hkv
      rcases List.mem_cons.mp hkv with h1 | h1
      · rw [h1]; exact h (pk, pv) (List.mem_cons_self _ _)
      · exact ih (fun q hq => h q (List.mem_cons_of_mem _ hq))
          (fun k' v' hq => hf k' v' (List.mem_cons_of_mem _ hq)) kv h1

theorem mapGet_mem {β : Type} (l : List (String × β)) (k : String) (v : β)
    (h : mapGet l k = some v) : (k, v) ∈ l := by
  induction l with
  | nil => simp [mapGet] at h
  | cons p rest ih =>
    simp only [mapGet] at h
    by_cases he : p.1 = k
    · rw [if_pos he] at h
      cases h
      cases p
      simp_all
    · rw [if_neg he] at h
      exact List.mem_cons_of_mem _ (ih h)

theorem mapGet_append_of_isSome {β : Type} (l l' : List (String × β)) (k : String)
    (h : (mapGet l k).isSome) : mapGet (l ++ l') k = mapGet l k := by
  induction l with
  | nil => simp [mapGet] at h
  | cons p rest ih =>
    simp only [mapGet, List.cons_append]
    split
    · rfl
    · exact ih (by simpa [mapGet, *] using h)

/-! Node-id-pool lemmas. -/

theorem nodeIdPool_mono {c c' : Nat} (h : c ≤ c') : nodeIdPool c ⊆ nodeIdPool c' := by
  intro x hx
  simp only [nodeIdPool, List.mem_map, List.mem_range] at hx ⊢
  obtain ⟨i, hi, rfl⟩ := hx
  exact ⟨i, by omega, rfl⟩

theorem nodeIdPool_self_mem (c : Nat) : "node_" ++ toString (c + 1) ∈ nodeIdPool (c + 1) := by
  simp only [nodeIdPool, List.mem_map, List.mem_range]
  exact ⟨c, by omega, rfl⟩

theorem nodeIdPool_fresh (c : Nat) : "node_" ++ toString (c + 1) ∉ nodeIdPool c := by
  intro h
  simp only [nodeIdPool, List.mem_map, List.mem_range] at h
  obtain ⟨i, hi, heq⟩ := h
  have : i + 1 = c + 1 := nodeId_inj heq
  omega

/-- `GInv` only depends on the graph's nodes/edges/labels/entry points, the
cursor, the three stacks and the node counter (in particular not on the
metadata). -/
theorem GInv_congr {s t : MachineState}
    (hn : t.graph.nodes = s.graph.nodes) (he : t.graph.edges = s.graph.edges)
    (hl : t.graph.labels = s.graph.labels)
    (hep : t.graph.entryPoints = s.graph.entryPoints)
    (hcur : t.currentNode = s.currentNode)
    (hch : t.choiceNodeStack = s.choiceNodeStack)
    (hcond : t.conditionalStack = s.conditionalStack)
    (hsub : t.subroutineStack = s.subroutineStack)
    (hcnt : t.nodeIdCounter = s.nodeIdCounter) (h : GInv s) : GInv t := by
  have hk : nodeKeys t.graph = nodeKeys s.graph := by
    unfold nodeKeys; rw [hn]
  unfold GInv at h ⊢
  rw [hk, hn, he, hl, hep, hcur, hch, hcond, hsub, hcnt]
  exact h

/-! Atomic-mutation lemmas, chained in the per-operation proofs below. -/

/-- `createNode` appends a fresh node: key list grows by exactly the new
id, and `GInv` is preserved. -/
theorem createNode_spec (s : MachineState) (ty tx : String) (attrs : NodeAttributes)
    (h : GInv s) :
    nodeKeys (createNode s ty tx attrs).2.graph = nodeKeys s.graph ++ [(createNode s ty tx attrs).1] ∧
    GInv (createNode s ty tx attrs).2 := by
  obtain ⟨he, hcur, hch, hcond, hsub, hlab, hent, hids, hpool⟩ := h
  have hfresh : ("node_" ++ toString (s.nodeIdCounter + 1)) ∉ s.graph.nodes.map Prod.fst := by
    intro hmem
    exact nodeIdPool_fresh s.nodeIdCounter (hpool _ hmem)
  have hnodes : (createNode s ty tx attrs).2.graph.nodes =
      s.graph.nodes ++ [(("node_" ++ toString (s.nodeIdCounter + 1)),
        { id := "node_" ++ toString (s.nodeIdCounter + 1), type := ty, text := tx,
          attributes := attrs, position := s.position })] := by
    simp only [createNode]
    exact mapSet_of_not_mem _ _ _ hfresh
  have hkeys : nodeKeys (createNode s ty tx attrs).2.graph =
      nodeKeys s.graph ++ [(createNode s ty tx attrs).1] := by
    unfold nodeKeys
    rw [hnodes]
    simp [createNode]
  refine ⟨hkeys, ?_⟩
  have hmem : ∀ x, x ∈ nodeKeys s.graph →
      x ∈ nodeKeys (createNode s ty tx attrs).2.graph := by
    intro x hx; rw [hkeys]; exact List.mem_append_left _ hx
  refine ⟨?_, ?_, ?_, ?_, ?_, ?_, ?_, ?_, ?_⟩
  · intro e hee
    have : e ∈ s.graph.edges := by simpa [createNode] using hee
    exact ⟨hmem _ (he e this).1, hmem _ (he e this).2⟩
  · intro n hn
    have : s.currentNode = some n := by simpa [createNode] using hn
    exact hmem _ (hcur n this)
  · intro n hn
    exact hmem _ (hch n (by simpa [createNode] using hn))
  · intro f hf
    have hf' : f ∈ s.conditionalStack := by simpa [createNode] using hf
    exact ⟨hmem _ (hcond f hf').1, fun b hb => hmem _ ((hcond f hf').2 b hb)⟩
  · intro n hn
    exact hmem _ (hsub n (by simpa [createNode] using hn))
  · intro kv hkv
    exact hmem _ (hlab kv (by simpa [createNode] using hkv))
  · intro kv hkv
    exact hmem _ (hent kv (by simpa [createNode] using hkv))
  · intro kv hkv
    rw [hnodes] at hkv
    rcases List.mem_append.mp hkv with h1 | h1
    · exact hids kv h1
    · simp only [List.mem_singleton] at h1
      subst h1
      rfl
  · intro k hk
    rw [hkeys] at hk
    have hcnt : (createNode s ty tx attrs).2.nodeIdCounter = s.nodeIdCounter + 1 := by
      simp [createNode]
    rw [hcnt]
    rcases List.mem_append.mp hk with h1 | h1
    · exact nodeIdPool_mono (Nat.le_succ _) (hpool _ h1)
    · simp only [List.mem_singleton] at h1
      subst h1
      have : (createNode s ty tx attrs).1 = "node_" ++ toString (s.nodeIdCounter + 1) := by
        simp [createNode]
      rw [this]
      exact nodeIdPool_self_mem s.nodeIdCounter

theorem mapSet_forall {β : Type} (P : String × β → Prop) (k : String) (v : β) :
    ∀ (l : List (String × β)), (∀ kv ∈ l, P kv) → P (k, v) →
    ∀ kv ∈ mapSet l k v, P kv := by
  intro l
  induction l with
  | nil =>
    intro _ hv kv hkv
    simp only [mapSet, List.mem_singleton] at hkv
    rw [hkv]; exact hv
  | cons p rest ih =>
    intro h hv kv hkv
    obtain ⟨pk, pv⟩ := p
    simp only [mapSet] at hkv
    by_cases he : pk = k
    · rw [if_pos he] at hkv
      rcases List.mem_cons.mp hkv with h1 | h1
      · rw [h1, he]; exact hv
      · exact h kv (List.mem_cons_of_mem _ h1)
    · rw [if_neg he] at hkv
      rcases List.mem_cons.mp hkv with h1 | h1
      · rw [h1]; exact h (pk, pv) (List.mem_cons_self _ _)
      · exact ih (fun q hq => h q (List.mem_cons_of_mem _ hq)) hv kv h1

/-- Clause accessors for `GInv`. -/
theorem GInv_edges {s : MachineState} (h : GInv s) :
    ∀ e ∈ s.graph.edges, e.source ∈ nodeKeys s.graph ∧ e.target ∈ nodeKeys s.graph := h.1

theorem GInv_current {s : MachineState} {n : String} (h : GInv s)
    (hn : s.currentNode = some n) : n ∈ nodeKeys s.graph := h.2.1 n hn

theorem GInv_choice {s : MachineState} (h : GInv s) :
    ∀ n ∈ s.choiceNodeStack, n ∈ nodeKeys s.graph := h.2.2.1

theorem GInv_cond {s : MachineState} (h : GInv s) :
    ∀ f ∈ s.conditionalStack, f.nodeBeforeIf ∈ nodeKeys s.graph ∧
      ∀ b ∈ f.branchEndNodes, b ∈ nodeKeys s.graph := h.2.2.2.1

theorem GInv_sub {s : MachineState} (h : GInv s) :
    ∀ n ∈ s.subroutineStack, n ∈ nodeKeys s.graph := h.2.2.2.2.1

theorem GInv_label {s : MachineState} {k v : String} (h : GInv s)
    (hg : mapGet s.graph.labels k = some v) : v ∈ nodeKeys s.graph :=
  h.2.2.2.2.2.1 _ (mapGet_mem _ _ _ hg)

theorem GInv_entry {s : MachineState} {k v : String} (h : GInv s)
    (hg : mapGet s.graph.entryPoints k = some v) : v ∈ nodeKeys s.graph :=
  h.2.2.2.2.2.2.1 _ (mapGet_mem _ _ _ hg)

theorem GInv_ids {s : MachineState} (h : GInv s) :
    ∀ kv ∈ s.graph.nodes, kv.2.id = kv.1 := h.2.2.2.2.2.2.2.1

theorem GInv_pool {s : MachineState} (h : GInv s) :
    ∀ k ∈ nodeKeys s.graph, k ∈ nodeIdPool s.nodeIdCounter := h.2.2.2.2.2.2.2.2

/-- Setting the cursor to an existing node preserves `GInv`. -/
theorem GInv_set_current {s : MachineState} {nid : String} (h : GInv s)
    (hm : nid ∈ nodeKeys s.graph) : GInv { s with currentNode := some nid } := by
  obtain ⟨he, _, hch, hcond, hsub, hlab, hent, hids, hpool⟩ := h
  exact ⟨he, fun n hn => by cases hn; exact hm, hch, hcond, hsub, hlab, hent, hids, hpool⟩

/-- Replacing the choice stack by one of existing nodes preserves `GInv`. -/
theorem GInv_set_choice {s : MachineState} {st : List String} (h : GInv s)
    (hm : ∀ n ∈ st, n ∈ nodeKeys s.graph) :
    GInv { s with choiceNodeStack := st } := by
  obtain ⟨he, hcur, _, hcond, hsub, hlab, hent, hids, hpool⟩ := h
  exact ⟨he, hcur, hm, hcond, hsub, hlab, hent, hids, hpool⟩

/-- Replacing the conditional stack by valid frames preserves `GInv`. -/
theorem GInv_set_cond {s : MachineState} {st : List ConditionalState} (h : GInv s)
    (hm : ∀ f ∈ st, f.nodeBeforeIf ∈ nodeKeys s.graph ∧
      ∀ b ∈ f.branchEndNodes, b ∈ nodeKeys s.graph) :
    GInv { s with conditionalStack := st } := by
  obtain ⟨he, hcur, hch, _, hsub, hlab, hent, hids, hpool⟩ := h
  exact ⟨he, hcur, hch, hm, hsub, hlab, hent, hids, hpool⟩

/-- Replacing the subroutine stack by one of existing nodes preserves `GInv`. -/
theorem GInv_set_sub {s : MachineState} {st : List String} (h : GInv s)
    (hm : ∀ n ∈ st, n ∈ nodeKeys s.graph) :
    GInv { s with subroutineStack := st } := by
  obtain ⟨he, hcur, hch, hcond, _, hlab, hent, hids, hpool⟩ := h
  exact ⟨he, hcur, hch, hcond, hm, hlab, hent, hids, hpool⟩

/-- `labels.set(label, nodeId)` with an existing node preserves `GInv`. -/
theorem GInv_set_labels {s : MachineState} {k v : String} (h : GInv s)
    (hm : v ∈ nodeKeys s.graph) :
    GInv { s with graph := { s.graph with labels := mapSet s.graph.labels k v } } := by
  obtain ⟨he, hcur, hch, hcond, hsub, hlab, hent, hids, hpool⟩ := h
  exact ⟨he, hcur, hch, hcond, hsub,
    mapSet_forall _ _ _ _ hlab hm, hent, hids, hpool⟩

/-- `entryPoints.set(name, nodeId)` with an existing node preserves `GInv`. -/
theorem GInv_set_entries {s : MachineState} {k v : String} (h : GInv s)
    (hm : v ∈ nodeKeys s.graph) :
    GInv { s with graph := { s.graph with entryPoints := mapSet s.graph.entryPoints k v } } := by
  obtain ⟨he, hcur, hch, hcond, hsub, hlab, hent, hids, hpool⟩ := h
  exact ⟨he, hcur, hch, hcond, hsub, hlab,
    mapSet_forall _ _ _ _ hent hm, hids, hpool⟩

/-- In-place node mutation that keeps the `id` field preserves `GInv`. -/
theorem GInv_update_nodes {s : MachineState} {k : String} {f : Node → Node}
    (h : GInv s) (hf : ∀ v : Node, (f v).id = v.id) :
    GInv { s with graph := { s.graph with nodes := mapUpdate s.graph.nodes k f } } := by
  obtain ⟨he, hcur, hch, hcond, hsub, hlab, hent, hids, hpool⟩ := h
  have hkeys : nodeKeys { s.graph with nodes := mapUpdate s.graph.nodes k f } =
      nodeKeys s.graph := mapUpdate_keys _ _ _
  refine ⟨?_, ?_, ?_, ?_, ?_, ?_, ?_, ?_, ?_⟩ <;> simp only [hkeys]
  · exact he
  · exact hcur
  · exact hch
  · exact hcond
  · exact hsub
  · exact hlab
  · exact hent
  · exact mapUpdate_forall _ _ _ _ hids
      (fun k' v' _ hp => by rw [hf v']; exact hp)
  · exact hpool

/-- Pure bookkeeping updates (text buffer, warnings, indent tracking,
state tag, position, …) neither touch the graph nor the stacks:
`StepOk` holds whenever all invariant-relevant projections agree. -/
theorem StepOk_cosmetic {s t : MachineState}
    (hn : t.graph.nodes = s.graph.nodes) (he : t.graph.edges = s.graph.edges)
    (hl : t.graph.labels = s.graph.labels)
    (hep : t.graph.entryPoints = s.graph.entryPoints)
    (hcur : t.currentNode = s.currentNode)
    (hch : t.choiceNodeStack = s.choiceNodeStack)
    (hcond : t.conditionalStack = s.conditionalStack)
    (hsub : t.subroutineStack = s.subroutineStack)
    (hcnt : t.nodeIdCounter = s.nodeIdCounter)
    (hp : t.processedScenes = s.processedScenes) : StepOk s t :=
  ⟨fun h => GInv_congr hn he hl hep hcur hch hcond hsub hcnt h.1,
   fun h => by rw [hcur]; exact h, hp, hep⟩

/-- `addEdge` with endpoints that are existing node keys preserves `GInv`. -/
theorem addEdge_ginv (s : MachineState) (src tgt : String) (attrs : EdgeAttributes)
    (h : GInv s) (hs : src ∈ nodeKeys s.graph) (ht : tgt ∈ nodeKeys s.graph) :
    GInv (addEdge s src tgt attrs) := by
  obtain ⟨he, hcur, hch, hcond, hsub, hlab, hent, hids, hpool⟩ := h
  refine ⟨?_, ?_, ?_, ?_, ?_, ?_, ?_, ?_, ?_⟩ <;>
    simp only [addEdge, nodeKeys] at *
  · intro e hee
    rcases List.mem_append.mp hee with h1 | h1
    · exact he e h1
    · simp only [List.mem_singleton] at h1
      subst h1
      exact ⟨hs, ht⟩
  all_goals assumption

/-- Projections of `addEdge` other than the edge list are untouched. -/
theorem addEdge_proj (s : MachineState) (src tgt : String) (attrs : EdgeAttributes) :
    (addEdge s src tgt attrs).graph.nodes = s.graph.nodes ∧
    (addEdge s src tgt attrs).currentNode = s.currentNode ∧
    (addEdge s src tgt attrs).processedScenes = s.processedScenes ∧
    (addEdge s src tgt attrs).graph.entryPoints = s.graph.entryPoints ∧
    (addEdge s src tgt attrs).nodeIdCounter = s.nodeIdCounter ∧
    nodeKeys (addEdge s src tgt attrs).graph = nodeKeys s.graph := by
  simp [addEdge, nodeKeys]

/-- Packaged facts about `createNode` used throughout the sweep. -/
theorem createNode_step (s : MachineState) (ty tx : String) (a : NodeAttributes) :
    StepOk s (createNode s ty tx a).2 ∧
    (GInv s → (createNode s ty tx a).1 ∈ nodeKeys (createNode s ty tx a).2.graph) ∧
    (GInv s → ∀ x ∈ nodeKeys s.graph, x ∈ nodeKeys (createNode s ty tx a).2.graph) := by
  refine ⟨⟨fun h => (createNode_spec s ty tx a h.1).2, ?_, ?_, ?_⟩, ?_, ?_⟩
  · simp [createNode]
  · simp [createNode]
  · simp [createNode]
  · intro h
    rw [(createNode_spec s ty tx a h).1]
    exact List.mem_append_right _ (List.mem_singleton_self _)
  · intro h x hx
    rw [(createNode_spec s ty tx a h).1]
    exact List.mem_append_left _ hx

/-- Unchanged projections of `createNode`. -/
theorem createNode_proj (s : MachineState) (ty tx : String) (a : NodeAttributes) :
    (createNode s ty tx a).2.currentNode = s.currentNode ∧
    (createNode s ty tx a).2.choiceNodeStack = s.choiceNodeStack ∧
    (createNode s ty tx a).2.conditionalStack = s.conditionalStack ∧
    (createNode s ty tx a).2.subroutineStack = s.subroutineStack ∧
    (createNode s ty tx a).2.graph.edges = s.graph.edges ∧
    (createNode s ty tx a).2.graph.labels = s.graph.labels ∧
    (createNode s ty tx a).2.graph.entryPoints = s.graph.entryPoints ∧
    (createNode s ty tx a).2.processedScenes = s.processedScenes := by
  simp [createNode]

theorem edgeFromCurrent_ginv {s : MachineState} {target : String}
    {ea : EdgeAttributes} (h : GInv s) (ht : target ∈ nodeKeys s.graph) :
    GInv (edgeFromCurrent s target ea) := by
  unfold edgeFromCurrent
  cases hc : s.currentNode with
  | some cn => exact addEdge_ginv s cn target ea h (GInv_current h hc) ht
  | none => exact h

theorem edgeFromCurrent_proj (s : MachineState) (target : String) (ea : EdgeAttributes) :
    (edgeFromCurrent s target ea).graph.nodes = s.graph.nodes ∧
    (edgeFromCurrent s target ea).currentNode = s.currentNode ∧
    (edgeFromCurrent s target ea).graph.labels = s.graph.labels ∧
    (edgeFromCurrent s target ea).graph.entryPoints = s.graph.entryPoints ∧
    (edgeFromCurrent s target ea).processedScenes = s.processedScenes ∧
    (edgeFromCurrent s target ea).nodeIdCounter = s.nodeIdCounter ∧
    (edgeFromCurrent s target ea).choiceNodeStack = s.choiceNodeStack ∧
    (edgeFromCurrent s target ea).conditionalStack = s.conditionalStack ∧
    (edgeFromCurrent s target ea).subroutineStack = s.subroutineStack ∧
    nodeKeys (edgeFromCurrent s target ea).graph = nodeKeys s.graph := by
  unfold edgeFromCurrent
  cases hc : s.currentNode <;> simp [hc, addEdge, nodeKeys]

/-- Packaged facts about `appendNode` (create + edge-from-cursor + move
cursor): `StepOk`, the new id is a key, old keys persist, and the
invariant-irrelevant projections are unchanged. -/
theorem appendNode_step (s : MachineState) (ty tx : String) (a : NodeAttributes)
    (ea : EdgeAttributes) :
    StepOk s (appendNode s ty tx a ea).2 ∧
    (GInv s → (appendNode s ty tx a ea).1 ∈ nodeKeys (appendNode s ty tx a ea).2.graph) ∧
    (GInv s → ∀ x ∈ nodeKeys s.graph, x ∈ nodeKeys (appendNode s ty tx a ea).2.graph) ∧
    (appendNode s ty tx a ea).2.currentNode = some (appendNode s ty tx a ea).1 ∧
    (appendNode s ty tx a ea).2.choiceNodeStack = s.choiceNodeStack ∧
    (appendNode s ty tx a ea).2.conditionalStack = s.conditionalStack ∧
    (appendNode s ty tx a ea).2.subroutineStack = s.subroutineStack ∧
    (appendNode s ty tx a ea).2.graph.labels = s.graph.labels ∧
    (appendNode s ty tx a ea).2.textBuffer = s.textBuffer := by
  rcases hcn : createNode s ty tx a with ⟨nid, s1⟩
  have hstep := createNode_step s ty tx a
  have hproj := createNode_proj s ty tx a
  rw [hcn] at hstep hproj
  have hefc := edgeFromCurrent_proj s1 nid ea
  simp only [appendNode, hcn]
  refine ⟨⟨?_, ?_, ?_, ?_⟩, ?_, ?_, ?_, ?_, ?_, ?_, ?_, ?_⟩
  · intro h
    have h1 : GInv s1 := hstep.1.1 h
    have hnid : nid ∈ nodeKeys s1.graph := hstep.2.1 h.1
    have h2 : GInv (edgeFromCurrent s1 nid ea) := edgeFromCurrent_ginv h1 hnid
    exact GInv_set_current h2 (hefc.2.2.2.2.2.2.2.2.2 ▸ hnid)
  · intro _; rfl
  · exact (hefc.2.2.2.2.1).trans hproj.2.2.2.2.2.2.2
  · exact (hefc.2.2.2.1).trans hproj.2.2.2.2.2.2.1
  · intro h
    rw [hefc.2.2.2.2.2.2.2.2.2]
    exact hstep.2.1 h
  · intro h x hx
    rw [hefc.2.2.2.2.2.2.2.2.2]
    exact hstep.2.2 h x hx
  · trivial
  · exact (hefc.2.2.2.2.2.2.1).trans hproj.2.1
  · exact (hefc.2.2.2.2.2.2.2.1).trans hproj.2.2.1
  · exact (hefc.2.2.2.2.2.2.2.2.1).trans hproj.2.2.2.1
  · exact (hefc.2.2.1).trans hproj.2.2.2.2.2.1
  · show (edgeFromCurrent s1 nid ea).textBuffer = s.textBuffer
    have h1 : (edgeFromCurrent s1 nid ea).textBuffer = s1.textBuffer := by
      unfold edgeFromCurrent
      cases s1.currentNode <;> simp [addEdge]
    rw [h1]
    show s1.textBuffer = s.textBuffer
    have := congrArg (fun p => p.2.textBuffer) hcn
    simpa [createNode] using this.symm

theorem flushTextBuffer_step (s : MachineState) : StepOk s (flushTextBuffer s) := by
  unfold flushTextBuffer
  split
  · exact StepOk.strans ((appendNode_step s "text" s.textBuffer {} {}).1)
      (StepOk_cosmetic rfl rfl rfl rfl rfl rfl rfl rfl rfl rfl)
  · exact StepOk_cosmetic rfl rfl rfl rfl rfl rfl rfl rfl rfl rfl

/-- Pushing the cursor node onto the choice stack. -/
theorem StepOk_push_choice {s : MachineState} {nid : String}
    (hcur : s.currentNode = some nid) :
    StepOk s { s with choiceNodeStack := nid :: s.choiceNodeStack } := by
  refine ⟨?_, fun h => h, rfl, rfl⟩
  intro hc
  apply GInv_set_choice hc.1
  intro n hn
  rcases List.mem_cons.mp hn with h1 | h1
  · rw [h1]; exact GInv_current hc.1 hcur
  · exact GInv_choice hc.1 n h1

/-- In-place node mutation keeping `id` is a valid step. -/
theorem StepOk_update_nodes {s : MachineState} {k : String} {f : Node → Node}
    (hf : ∀ v : Node, (f v).id = v.id) :
    StepOk s { s with graph := { s.graph with nodes := mapUpdate s.graph.nodes k f } } :=
  ⟨fun h => GInv_update_nodes h.1 hf, fun h => h, rfl, rfl⟩

/-- Registering the cursor node as a label is a valid step. -/
theorem StepOk_set_labels {s : MachineState} {k nid : String}
    (hcur : s.currentNode = some nid) :
    StepOk s { s with graph := { s.graph with labels := mapSet s.graph.labels k nid } } :=
  ⟨fun h => GInv_set_labels h.1 (GInv_current h.1 hcur), fun h => h, rfl, rfl⟩

/-- Pushing the conditional frame (`nodeBeforeIf = currentNode || ''`): a
valid step because `CInv` guarantees the cursor is present, so the frame
records an existing node (with a `null` cursor the source would record
`''`, which no later lookup could satisfy). -/
theorem StepOk_push_frame {s : MachineState} (condition : String) :
    StepOk s { s with conditionalStack :=
      { condition := condition, nodeBeforeIf := (s.currentNode).getD "",
        branchEndNodes := [] } :: s.conditionalStack } := by
  refine ⟨?_, fun h => h, rfl, rfl⟩
  intro hc
  apply GInv_set_cond hc.1
  intro f hf
  rcases List.mem_cons.mp hf with h1 | h1
  · rw [h1]
    refine ⟨?_, by intro b hb; simp at hb⟩
    match hcur : s.currentNode, hc.2 with
    | some n, _ =>
      simpa using GInv_current hc.1 hcur
  · exact GInv_cond hc.1 f h1

/-- `StepOk` strengthened with key monotonicity: every node key of the
input graph survives into the output graph (nothing ever deletes a node). -/
def StepOkK (s t : MachineState) : Prop :=
  StepOk s t ∧ (CInv s → ∀ x ∈ nodeKeys s.graph, x ∈ nodeKeys t.graph)

theorem StepOkK.trans {s t u : MachineState} (h1 : StepOkK s t) (h2 : StepOkK t u) :
    StepOkK s u :=
  ⟨h1.1.strans h2.1, fun h x hx => h2.2 (h1.1.cinv h) x (h1.2 h x hx)⟩

theorem StepOkK.refl (s : MachineState) : StepOkK s s :=
  ⟨StepOk.srefl s, fun _ x hx => hx⟩

theorem StepOkK_of_keys {s t : MachineState} (h : StepOk s t)
    (hk : nodeKeys t.graph = nodeKeys s.graph) : StepOkK s t :=
  ⟨h, fun _ x hx => hk ▸ hx⟩

/-- Cosmetic updates with the node map untouched are key-monotone steps. -/
theorem StepOkK_cosmetic {s t : MachineState}
    (hn : t.graph.nodes = s.graph.nodes) (he : t.graph.edges = s.graph.edges)
    (hl : t.graph.labels = s.graph.labels)
    (hep : t.graph.entryPoints = s.graph.entryPoints)
    (hcur : t.currentNode = s.currentNode)
    (hch : t.choiceNodeStack = s.choiceNodeStack)
    (hcond : t.conditionalStack = s.conditionalStack)
    (hsub : t.subroutineStack = s.subroutineStack)
    (hcnt : t.nodeIdCounter = s.nodeIdCounter)
    (hp : t.processedScenes = s.processedScenes) : StepOkK s t :=
  StepOkK_of_keys (StepOk_cosmetic hn he hl hep hcur hch hcond hsub hcnt hp)
    (by unfold nodeKeys; rw [hn])

theorem warn_stepK (s : MachineState) (m : String) : StepOkK s (warn s m) :=
  StepOkK_cosmetic rfl rfl rfl rfl rfl rfl rfl rfl rfl rfl

/-- `addEdge` whose endpoints are keys (under `CInv`) is a valid step. -/
theorem addEdge_stepK {s : MachineState} (src tgt : String) (a : EdgeAttributes)
    (h1 : CInv s → src ∈ nodeKeys s.graph) (h2 : CInv s → tgt ∈ nodeKeys s.graph) :
    StepOkK s (addEdge s src tgt a) :=
  StepOkK_of_keys
    ⟨fun h => addEdge_ginv s src tgt a h.1 (h1 h) (h2 h),
     fun h => by rw [(addEdge_proj s src tgt a).2.1]; exact h, rfl, rfl⟩
    (addEdge_proj s src tgt a).2.2.2.2.2

theorem createNode_stepK (s : MachineState) (ty tx : String) (a : NodeAttributes) :
    StepOkK s (createNode s ty tx a).2 :=
  ⟨(createNode_step s ty tx a).1, fun h => (createNode_step s ty tx a).2.2 h.1⟩

theorem appendNode_stepK (s : MachineState) (ty tx : String) (a : NodeAttributes)
    (ea : EdgeAttributes) : StepOkK s (appendNode s ty tx a ea).2 :=
  ⟨(appendNode_step s ty tx a ea).1, fun h => (appendNode_step s ty tx a ea).2.2.1 h.1⟩

theorem flushTextBuffer_stepK (s : MachineState) : StepOkK s (flushTextBuffer s) := by
  unfold flushTextBuffer
  split
  · exact (appendNode_stepK s "text" s.textBuffer {} {}).trans
      (StepOkK_cosmetic rfl rfl rfl rfl rfl rfl rfl rfl rfl rfl)
  · exact StepOkK_cosmetic rfl rfl rfl rfl rfl rfl rfl rfl rfl rfl

theorem StepOkK_push_choice {s : MachineState} {nid : String}
    (hcur : s.currentNode = some nid) :
    StepOkK s { s with choiceNodeStack := nid :: s.choiceNodeStack } :=
  StepOkK_of_keys (StepOk_push_choice hcur) rfl

theorem StepOkK_update_nodes {s : MachineState} {k : String} {f : Node → Node}
    (hf : ∀ v : Node, (f v).id = v.id) :
    StepOkK s { s with graph := { s.graph with nodes := mapUpdate s.graph.nodes k f } } :=
  StepOkK_of_keys (StepOk_update_nodes hf) (mapUpdate_keys _ _ _)

theorem StepOkK_set_labels {s : MachineState} {k nid : String}
    (hcur : s.currentNode = some nid) :
    StepOkK s { s with graph := { s.graph with labels := mapSet s.graph.labels k nid } } :=
  StepOkK_of_keys (StepOk_set_labels hcur) rfl

/-- Pushing an existing node (under `CInv`, the cursor) onto the
subroutine stack. -/
theorem StepOkK_push_sub {s : MachineState} {cn : String}
    (hcur : s.currentNode = some cn) :
    StepOkK s { s with subroutineStack := cn :: s.subroutineStack } := by
  refine StepOkK_of_keys ⟨?_, fun h => h, rfl, rfl⟩ rfl
  intro hc
  apply GInv_set_sub hc.1
  intro n hn
  rcases List.mem_cons.mp hn with h1 | h1
  · rw [h1]; exact GInv_current hc.1 hcur
  · exact GInv_sub hc.1 n h1

/-- Moving the cursor to an existing key. -/
theorem StepOkK_set_current {s : MachineState} {nid : String}
    (hmem : CInv s → nid ∈ nodeKeys s.graph) :
    StepOkK s { s with currentNode := some nid } :=
  StepOkK_of_keys ⟨fun h => GInv_set_current h.1 (hmem h), fun _ => rfl, rfl, rfl⟩ rfl

/-- `mapSet` always leaves its key present. -/
theorem mapSet_key_mem {β : Type} (l : List (String × β)) (k : String) (v : β) :
    k ∈ (mapSet l k v).map Prod.fst := by
  induction l with
  | nil => simp [mapSet]
  | cons hd tl ih =>
    unfold mapSet
    split
    · simp_all
    · simpa using Or.inr ih

/-- The freshly minted id is a key of the post-`createNode` graph —
unconditionally, because `mapSet` always installs its key. -/
theorem createNode_mem (s : MachineState) (ty tx : String) (a : NodeAttributes) :
    (createNode s ty tx a).1 ∈ nodeKeys (createNode s ty tx a).2.graph := by
  simp only [createNode, nodeKeys]
  exact mapSet_key_mem _ _ _

theorem appendNode_mem (s : MachineState) (ty tx : String) (a : NodeAttributes)
    (ea : EdgeAttributes) :
    (appendNode s ty tx a ea).1 ∈ nodeKeys (appendNode s ty tx a ea).2.graph := by
  rcases hcn : createNode s ty tx a with ⟨nid, s1⟩
  have h := createNode_mem s ty tx a
  rw [hcn] at h
  simp only [appendNode, hcn]
  rw [(edgeFromCurrent_proj s1 nid ea).2.2.2.2.2.2.2.2.2]
  exact h

/-- `addEdge` on a state reached from `s0`, with both endpoints keys of the
current graph whenever the origin satisfied `CInv`. -/
theorem addEdge_reach {s0 s : MachineState} (hreach : StepOkK s0 s)
    (src tgt : String) (a : EdgeAttributes)
    (h1 : CInv s0 → src ∈ nodeKeys s.graph) (h2 : CInv s0 → tgt ∈ nodeKeys s.graph) :
    StepOkK s0 (addEdge s src tgt a) :=
  ⟨⟨fun h => addEdge_ginv s src tgt a (hreach.1.cinv h).1 (h1 h) (h2 h),
    fun h => by rw [(addEdge_proj s src tgt a).2.1]; exact hreach.1.2.1 h,
    (addEdge_proj s src tgt a).2.2.1.trans hreach.1.2.2.1,
    (addEdge_proj s src tgt a).2.2.2.1.trans hreach.1.2.2.2⟩,
   fun h x hx => by
     rw [(addEdge_proj s src tgt a).2.2.2.2.2]
     exact hreach.2 h x hx⟩

/-- `edgeFromCurrent` on a reached state. -/
theorem edgeFromCurrent_reach {s0 s : MachineState} (hreach : StepOkK s0 s)
    (tgt : String) (ea : EdgeAttributes)
    (h2 : CInv s0 → tgt ∈ nodeKeys s.graph) :
    StepOkK s0 (edgeFromCurrent s tgt ea) := by
  unfold edgeFromCurrent
  cases hc : s.currentNode with
  | some cn =>
    exact addEdge_reach hreach cn tgt ea
      (fun h => GInv_current (hreach.1.cinv h).1 hc) h2
  | none => exact hreach

/-- Moving the cursor of a reached state to a key of its graph. -/
theorem set_current_reach {s0 s : MachineState} (hreach : StepOkK s0 s) {nid : String}
    (hmem : CInv s0 → nid ∈ nodeKeys s.graph) :
    StepOkK s0 { s with currentNode := some nid } :=
  ⟨⟨fun h => GInv_set_current (hreach.1.cinv h).1 (hmem h), fun _ => rfl,
    hreach.1.2.2.1, hreach.1.2.2.2⟩,
   fun h x hx => hreach.2 h x hx⟩

theorem StepOkK_push_frame {s : MachineState} (condition : String) :
    StepOkK s { s with conditionalStack :=
      { condition := condition, nodeBeforeIf := (s.currentNode).getD "",
        branchEndNodes := [] } :: s.conditionalStack } :=
  StepOkK_of_keys (StepOk_push_frame condition) rfl

/-- Replacing the subroutine stack of a reached state by node keys. -/
theorem set_sub_reach {s0 s : MachineState} (hreach : StepOkK s0 s) {st : List String}
    (hm : CInv s0 → ∀ n ∈ st, n ∈ nodeKeys s.graph) :
    StepOkK s0 { s with subroutineStack := st } :=
  ⟨⟨fun h => GInv_set_sub (hreach.1.cinv h).1 (hm h), hreach.1.2.1,
    hreach.1.2.2.1, hreach.1.2.2.2⟩, hreach.2⟩

/-- Replacing the conditional stack of a reached state by valid frames. -/
theorem set_cond_reach {s0 s : MachineState} (hreach : StepOkK s0 s)
    {st : List ConditionalState}
    (hm : CInv s0 → ∀ f ∈ st, f.nodeBeforeIf ∈ nodeKeys s.graph ∧
      ∀ b ∈ f.branchEndNodes, b ∈ nodeKeys s.graph) :
    StepOkK s0 { s with conditionalStack := st } :=
  ⟨⟨fun h => GInv_set_cond (hreach.1.cinv h).1 (hm h), hreach.1.2.1,
    hreach.1.2.2.1, hreach.1.2.2.2⟩, hreach.2⟩

/-- Replacing the choice stack of a reached state by node keys. -/
theorem set_choice_reach {s0 s : MachineState} (hreach : StepOkK s0 s) {st : List String}
    (hm : CInv s0 → ∀ n ∈ st, n ∈ nodeKeys s.graph) :
    StepOkK s0 { s with choiceNodeStack := st } :=
  ⟨⟨fun h => GInv_set_choice (hreach.1.cinv h).1 (hm h), hreach.1.2.1,
    hreach.1.2.2.1, hreach.1.2.2.2⟩, hreach.2⟩

/-- Registering a label of a reached state at its cursor. -/
theorem set_labels_reach {s0 s : MachineState} (hreach : StepOkK s0 s) {k nid : String}
    (hcur : s.currentNode = some nid) :
    StepOkK s0 { s with graph := { s.graph with labels := mapSet s.graph.labels k nid } } :=
  hreach.trans (StepOkK_set_labels hcur)

theorem startChoiceBlock_stepK (isFake : Bool) (s : MachineState) :
    StepOkK s (startChoiceBlock isFake s) := by
  let s1 : MachineState := flushTextBuffer s
  let s2 : MachineState := { s1 with currentState := "CHOICE_BLOCK" }
  let r : String × MachineState :=
    appendNode s2 "choice" ("Choice at " ++ posStr s2.position) { isFake := some isFake } {}
  let s3 : MachineState := r.2
  let s4 : MachineState := { s3 with choiceNodeStack := r.1 :: s3.choiceNodeStack }
  let s5 : MachineState := { s4 with graph := { s4.graph with
      nodes := mapUpdate s4.graph.nodes r.1 (fun n => { n with options := some [] }) } }
  have h1 : StepOkK s s1 := flushTextBuffer_stepK s
  have h2 : StepOkK s1 s2 := StepOkK_cosmetic rfl rfl rfl rfl rfl rfl rfl rfl rfl rfl
  have h3 : StepOkK s2 s3 :=
    appendNode_stepK s2 "choice" ("Choice at " ++ posStr s2.position)
      { isFake := some isFake } {}
  have hcur : s3.currentNode = some r.1 :=
    (appendNode_step s2 "choice" ("Choice at " ++ posStr s2.position)
      { isFake := some isFake } {}).2.2.2.1
  have h4 : StepOkK s3 s4 := StepOkK_push_choice hcur
  have h5 : StepOkK s4 s5 := StepOkK_update_nodes (fun v => rfl)
  let s6 : MachineState :=
    { s5 with commandRequiringIndent := true,
              expectedIndentLevel := ratAdd1 s5.currentIndentLevel }
  have h6 : StepOkK s5 s6 :=
    StepOkK_cosmetic rfl rfl rfl rfl rfl rfl rfl rfl rfl rfl
  exact h1.trans (h2.trans (h3.trans (h4.trans (h5.trans h6))))

theorem startConditional_stepK (condition : String) (s : MachineState) :
    StepOkK s (startConditional condition s) := by
  let s1 : MachineState := flushTextBuffer s
  let s2 : MachineState := { s1 with conditionalStack :=
      { condition := condition, nodeBeforeIf := (s1.currentNode).getD "",
        branchEndNodes := [] } :: s1.conditionalStack }
  let s3 : MachineState := { s2 with currentState := "CONDITIONAL" }
  let r : String × MachineState := appendNode s3 "conditional" ("If: " ++ condition)
    { condition := some condition } { condition := some condition }
  let s4 : MachineState := r.2
  have h1 : StepOkK s s1 := flushTextBuffer_stepK s
  have h2 : StepOkK s1 s2 := StepOkK_push_frame condition
  have h3 : StepOkK s2 s3 := StepOkK_cosmetic rfl rfl rfl rfl rfl rfl rfl rfl rfl rfl
  have h4 : StepOkK s3 s4 :=
    appendNode_stepK s3 "conditional" ("If: " ++ condition)
      { condition := some condition } { condition := some condition }
  let s5 : MachineState :=
    { s4 with commandRequiringIndent := true,
              expectedIndentLevel := ratAdd1 s4.currentIndentLevel }
  have h5 : StepOkK s4 s5 :=
    StepOkK_cosmetic rfl rfl rfl rfl rfl rfl rfl rfl rfl rfl
  exact h1.trans (h2.trans (h3.trans (h4.trans h5)))

theorem processFinish_stepK (args : String) (s : MachineState) :
    StepOkK s (processFinish args s) := by
  have h1 := flushTextBuffer_stepK s
  have h2 := appendNode_stepK (flushTextBuffer s) "finish"
    ("Finish: " ++ (if args = "" then "End of game" else args)) { buttonText := some args } {}
  exact h1.trans h2

theorem processTitle_stepK (title : String) (s : MachineState) :
    StepOkK s (processTitle title s) := by
  let s1 : MachineState := { s with graph := { s.graph with metadata :=
      { s.graph.metadata with title := some title } } }
  have h1 : StepOkK s s1 := StepOkK_cosmetic rfl rfl rfl rfl rfl rfl rfl rfl rfl rfl
  have h2 := appendNode_stepK s1 "metadata" ("Title: " ++ title)
    { metaType := some "title", value := some title } {}
  exact h1.trans h2

theorem processAuthor_stepK (author : String) (s : MachineState) :
    StepOkK s (processAuthor author s) := by
  let s1 : MachineState := { s with graph := { s.graph with metadata :=
      { s.graph.metadata with author := some author } } }
  have h1 : StepOkK s s1 := StepOkK_cosmetic rfl rfl rfl rfl rfl rfl rfl rfl rfl rfl
  have h2 := appendNode_stepK s1 "metadata" ("Author: " ++ author)
    { metaType := some "author", value := some author } {}
  exact h1.trans h2

theorem processSceneList_stepK (s : MachineState) : StepOkK s (processSceneList s) := by
  let s1 : MachineState := flushTextBuffer s
  have h1 := flushTextBuffer_stepK s
  have h2 := appendNode_stepK s1 "scene_list" "Scene List"
    { metaType := some "scene_list", scenes := some [] } {}
  let s2 : MachineState := (appendNode s1 "scene_list" "Scene List"
    { metaType := some "scene_list", scenes := some [] } {}).2
  let s3 : MachineState := { s2 with currentState := "SCENE_LIST" }
  have h3 : StepOkK s2 s3 := StepOkK_cosmetic rfl rfl rfl rfl rfl rfl rfl rfl rfl rfl
  let s4 : MachineState :=
    { s3 with commandRequiringIndent := true,
              expectedIndentLevel := ratAdd1 s3.currentIndentLevel }
  have h4 : StepOkK s3 s4 := StepOkK_cosmetic rfl rfl rfl rfl rfl rfl rfl rfl rfl rfl
  exact h1.trans (h2.trans (h3.trans h4))

theorem processLabel_stepK (label : String) (s : MachineState) :
    StepOkK s (processLabel label s) := by
  let s1 : MachineState := flushTextBuffer s
  have h1 := flushTextBuffer_stepK s
  have h2 := appendNode_stepK s1 "label" ("Label: " ++ label) {} {}
  have hcur := (appendNode_step s1 "label" ("Label: " ++ label) {} {}).2.2.2.1
  have h3 := set_labels_reach (h1.trans h2) (k := label) hcur
  exact h3

theorem processVariableAssignment_stepK (args : String) (s : MachineState) :
    StepOkK s (processVariableAssignment args s).1 := by
  unfold processVariableAssignment
  split
  · exact StepOkK.refl s
  · exact appendNode_stepK s "set" _ _ _

theorem processVariableDeclaration_stepK (command args : String) (s : MachineState) :
    StepOkK s (processVariableDeclaration command args s).1 := by
  unfold processVariableDeclaration
  split
  · exact StepOkK.refl s
  · refine StepOkK.trans ?_ (appendNode_stepK _ "variable" _ _ {})
    split
    · exact StepOkK_cosmetic rfl rfl rfl rfl rfl rfl rfl rfl rfl rfl
    · exact StepOkK_cosmetic rfl rfl rfl rfl rfl rfl rfl rfl rfl rfl

theorem processAchievement_stepK (args : String) (s : MachineState) :
    StepOkK s (processAchievement args s) := by
  unfold processAchievement
  split
  · rename_i id visibility points name heq
    let newAch : Achievement :=
      { id := id, name := name, visibility := visibility,
        points := (points.toNatJS).getD 0,
        description := "", earnedDescription := "" }
    let s1 : MachineState := { s with currentAchievement := some newAch,
                                      inAchievementBlock := true }
    have h1 : StepOkK s s1 := StepOkK_cosmetic rfl rfl rfl rfl rfl rfl rfl rfl rfl rfl
    have h2 := appendNode_stepK s1 "achievement" ("Achievement: " ++ name)
      { attrId := some id, name := some name, visibility := some visibility,
        points := some points } {}
    let s2 : MachineState := (appendNode s1 "achievement" ("Achievement: " ++ name)
      { attrId := some id, name := some name, visibility := some visibility,
        points := some points } {}).2
    let s3 : MachineState :=
      { s2 with commandRequiringIndent := true,
                expectedIndentLevel := ratAdd1 s2.currentIndentLevel }
    have h3 : StepOkK s2 s3 := StepOkK_cosmetic rfl rfl rfl rfl rfl rfl rfl rfl rfl rfl
    exact h1.trans (h2.trans h3)
  · split
    · dsimp only
      split <;> try split
      all_goals exact StepOkK_cosmetic rfl rfl rfl rfl rfl rfl rfl rfl rfl rfl
    · exact warn_stepK s _

theorem processPageBreak_stepK (args : String) (s : MachineState) :
    StepOkK s (processPageBreak args s) := by
  let s1 : MachineState := flushTextBuffer s
  have h1 := flushTextBuffer_stepK s
  let r1 : String × MachineState := createNode s1 "page_break"
    ("Page break: " ++ (if args = "" then "Next" else args)) { buttonText := some args }
  have h2 : StepOkK s r1.2 := h1.trans (createNode_stepK s1 "page_break"
    ("Page break: " ++ (if args = "" then "Next" else args)) { buttonText := some args })
  have hm1 : CInv s → r1.1 ∈ nodeKeys r1.2.graph := fun _ => createNode_mem s1 _ _ _
  let s2 : MachineState := edgeFromCurrent r1.2 r1.1 {}
  have h3 : StepOkK s s2 := edgeFromCurrent_reach h2 r1.1 {} hm1
  have hm2 : CInv s → r1.1 ∈ nodeKeys s2.graph := fun h => by
    show r1.1 ∈ nodeKeys (edgeFromCurrent r1.2 r1.1 {}).graph
    rw [(edgeFromCurrent_proj r1.2 r1.1 {}).2.2.2.2.2.2.2.2.2]
    exact hm1 h
  let r2 : String × MachineState := createNode s2 "text"
    ("After page break at " ++ posStr s2.position) {}
  have h4 : StepOkK s r2.2 := h3.trans (createNode_stepK s2 "text"
    ("After page break at " ++ posStr s2.position) {})
  have hm3 : CInv s → r1.1 ∈ nodeKeys r2.2.graph := fun h =>
    (createNode_step s2 "text" ("After page break at " ++ posStr s2.position) {}).2.2
      (h3.1.cinv h).1 r1.1 (hm2 h)
  have hm4 : CInv s → r2.1 ∈ nodeKeys r2.2.graph := fun _ => createNode_mem s2 _ _ _
  let s3 : MachineState := addEdge r2.2 r1.1 r2.1 {}
  have h5 : StepOkK s s3 := addEdge_reach h4 r1.1 r2.1 {} hm3 hm4
  have hm5 : CInv s → r2.1 ∈ nodeKeys s3.graph := fun h => by
    show r2.1 ∈ nodeKeys (addEdge r2.2 r1.1 r2.1 {}).graph
    rw [(addEdge_proj r2.2 r1.1 r2.1 {}).2.2.2.2.2]
    exact hm4 h
  exact set_current_reach h5 hm5

/-- The shared `if (sceneName) … else if (labelName) …` linking tail of
`processGoto`/`processGosub` when a scene name is present. -/
theorem linkTail_scene {s0 t : MachineState} (h : StepOkK s0 t) {gid : String}
    (hm : CInv s0 → gid ∈ nodeKeys t.graph) (sn ln : String) :
    StepOkK s0 (if sn ≠ "" then
        match mapGet t.graph.entryPoints sn with
        | some tse => addEdge t gid tse
        | none => t
      else if ln ≠ "" then
        match mapGet t.graph.labels ln with
        | some tln => addEdge t gid tln
        | none => t
      else t) := by
  split
  · split
    · rename_i tse heq
      exact addEdge_reach h gid tse {} hm (fun hh => GInv_entry (h.1.cinv hh).1 heq)
    · exact h
  · split
    · split
      · rename_i tln heq
        exact addEdge_reach h gid tln {} hm (fun hh => GInv_label (h.1.cinv hh).1 heq)
      · exact h
    · exact h

/-- The label-only linking tail (no scene name). -/
theorem linkTail_label {s0 t : MachineState} (h : StepOkK s0 t) {gid : String}
    (hm : CInv s0 → gid ∈ nodeKeys t.graph) (ln : String) :
    StepOkK s0 (if ln ≠ "" then
        match mapGet t.graph.labels ln with
        | some tln => addEdge t gid tln
        | none => t
      else t) := by
  split
  · split
    · rename_i tln heq
      exact addEdge_reach h gid tln {} hm (fun hh => GInv_label (h.1.cinv hh).1 heq)
    · exact h
  · exact h

theorem processGoto_stepK (command target : String) (s : MachineState) :
    StepOkK s (processGoto command target s) := by
  unfold processGoto
  have h1 := flushTextBuffer_stepK s
  revert h1
  generalize flushTextBuffer s = s1
  intro h1
  split
  rename_i sceneName labelName heqp
  dsimp only
  have h2 := h1.trans (appendNode_stepK s1 "goto" ("Goto: " ++ target)
    { sceneName := sceneName, labelName := some labelName } {})
  have hm := appendNode_mem s1 "goto" ("Goto: " ++ target)
    { sceneName := sceneName, labelName := some labelName } {}
  revert h2 hm
  generalize appendNode s1 "goto" ("Goto: " ++ target)
    { sceneName := sceneName, labelName := some labelName } {} = r
  intro h2 hm
  cases sceneName with
  | some sn => exact linkTail_scene h2 (fun _ => hm) sn labelName
  | none => exact linkTail_label h2 (fun _ => hm) labelName

/-- The cursor-linking + `SUBROUTINE` preamble of `processGosub`, shared by
both its branches: link from the cursor, push it, move the cursor to the
new `gosub` node. -/
theorem gosubMid_reach {s0 : MachineState} {r : String × MachineState}
    (h2 : StepOkK s0 r.2) (hm : r.1 ∈ nodeKeys r.2.graph) :
    StepOkK s0 { (match r.2.currentNode with
        | some cn =>
          let s := addEdge r.2 cn r.1
          { s with subroutineStack := cn :: s.subroutineStack }
        | none => r.2) with
      currentNode := some r.1, currentState := "SUBROUTINE" } ∧
    r.1 ∈ nodeKeys (match r.2.currentNode with
        | some cn =>
          let s := addEdge r.2 cn r.1
          { s with subroutineStack := cn :: s.subroutineStack }
        | none => r.2).graph := by
  have hmid : StepOkK s0 (match r.2.currentNode with
      | some cn =>
        let s := addEdge r.2 cn r.1
        { s with subroutineStack := cn :: s.subroutineStack }
      | none => r.2) ∧
      r.1 ∈ nodeKeys (match r.2.currentNode with
      | some cn =>
        let s := addEdge r.2 cn r.1
        { s with subroutineStack := cn :: s.subroutineStack }
      | none => r.2).graph := by
    cases hrc : r.2.currentNode with
    | some cn =>
      have h3 := addEdge_reach h2 cn r.1 {}
        (fun h => GInv_current (h2.1.cinv h).1 hrc) (fun _ => hm)
      have hc3 : (addEdge r.2 cn r.1 {}).currentNode = some cn := by
        rw [(addEdge_proj r.2 cn r.1 {}).2.1]; exact hrc
      refine ⟨h3.trans (StepOkK_push_sub hc3), ?_⟩
      show r.1 ∈ nodeKeys (addEdge r.2 cn r.1 {}).graph
      rw [(addEdge_proj r.2 cn r.1 {}).2.2.2.2.2]
      exact hm
    | none => exact ⟨h2, hm⟩
  refine ⟨?_, hmid.2⟩
  exact (set_current_reach hmid.1 (fun _ => hmid.2)).trans
    (StepOkK_cosmetic rfl rfl rfl rfl rfl rfl rfl rfl rfl rfl)

theorem processGosub_stepK (command target : String) (s : MachineState) :
    StepOkK s (processGosub command target s) := by
  unfold processGosub
  have h1 := flushTextBuffer_stepK s
  revert h1
  generalize flushTextBuffer s = s1
  intro h1
  split
  rename_i sceneName labelName heqp
  dsimp only
  have h2 := h1.trans (createNode_stepK s1 "gosub" (command ++ ": " ++ target)
    { sceneName := sceneName, labelName := some labelName })
  have hm := createNode_mem s1 "gosub" (command ++ ": " ++ target)
    { sceneName := sceneName, labelName := some labelName }
  revert h2 hm
  generalize createNode s1 "gosub" (command ++ ": " ++ target)
    { sceneName := sceneName, labelName := some labelName } = r
  intro h2 hm
  have hmid := gosubMid_reach h2 hm
  cases sceneName with
  | some sn => exact linkTail_scene hmid.1 (fun _ => hmid.2) sn labelName
  | none => exact linkTail_label hmid.1 (fun _ => hmid.2) labelName

/-- The branch-edge fold of `endConditional` does not change the keys. -/
theorem foldl_addEdge_proj (mid : String) :
    ∀ (ends : List String) (s : MachineState),
      nodeKeys ((ends.foldl (fun acc endNode => addEdge acc endNode mid) s)).graph
        = nodeKeys s.graph
  | [], _ => rfl
  | e :: es, s => by
    rw [List.foldl_cons, foldl_addEdge_proj mid es]
    exact (addEdge_proj s e mid {}).2.2.2.2.2

/-- The branch-edge fold of `endConditional` is a valid step when every
branch end and the merge node are keys. -/
theorem foldl_addEdge_reach {s0 : MachineState} (mid : String) (ends : List String) :
    ∀ {s : MachineState}, StepOkK s0 s →
      (CInv s0 → ∀ n ∈ ends, n ∈ nodeKeys s.graph) →
      (CInv s0 → mid ∈ nodeKeys s.graph) →
      StepOkK s0 (ends.foldl (fun acc endNode => addEdge acc endNode mid) s) := by
  induction ends with
  | nil => intro s h _ _; exact h
  | cons e es ih =>
    intro s h hm hmid
    rw [List.foldl_cons]
    refine ih ?_ ?_ ?_
    · exact addEdge_reach h e mid {} (fun hc => hm hc e (List.mem_cons_self e es)) hmid
    · intro hc n hn
      show n ∈ nodeKeys (addEdge s e mid {}).graph
      rw [(addEdge_proj s e mid {}).2.2.2.2.2]
      exact hm hc n (List.mem_cons_of_mem e hn)
    · intro hc
      show mid ∈ nodeKeys (addEdge s e mid {}).graph
      rw [(addEdge_proj s e mid {}).2.2.2.2.2]
      exact hmid hc

theorem endConditional_stepK (s : MachineState) :
    StepOkK s (endConditional s).1 := by
  unfold endConditional
  have h1 := flushTextBuffer_stepK s
  revert h1
  generalize flushTextBuffer s = s1
  intro h1
  dsimp only
  split
  · exact h1
  · rename_i ifState restStack heq
    dsimp only [okR]
    have h2 : StepOkK s { s1 with conditionalStack := restStack } :=
      set_cond_reach h1 (fun hc f hf => GInv_cond (h1.1.cinv hc).1 f
        (by rw [heq]; exact List.mem_cons_of_mem _ hf))
    have hbe : CInv s → ∀ n ∈ (match s1.currentNode with
        | some cn => ifState.branchEndNodes ++ [cn]
        | none => ifState.branchEndNodes), n ∈ nodeKeys s1.graph := by
      intro hc n hn
      have hg : GInv s1 := (h1.1.cinv hc).1
      have hfr := GInv_cond hg ifState (by rw [heq]; exact List.mem_cons_self _ _)
      cases hcur : s1.currentNode with
      | some cn =>
        simp only [hcur] at hn
        rcases List.mem_append.mp hn with h | h
        · exact hfr.2 n h
        · have hcn : n = cn := by simpa using h
          subst hcn
          exact GInv_current hg hcur
      | none =>
        simp only [hcur] at hn
        exact hfr.2 n hn
    have h3 := h2.trans (createNode_stepK { s1 with conditionalStack := restStack }
      "merge" ("End of conditional at " ++ posStr s1.position) {})
    have hmem0 := createNode_mem { s1 with conditionalStack := restStack }
      "merge" ("End of conditional at " ++ posStr s1.position) {}
    have hkeep : CInv s → ∀ n ∈ (match s1.currentNode with
        | some cn => ifState.branchEndNodes ++ [cn]
        | none => ifState.branchEndNodes),
        n ∈ nodeKeys (createNode { s1 with conditionalStack := restStack }
          "merge" ("End of conditional at " ++ posStr s1.position) {}).2.graph :=
      fun hc n hn =>
        (createNode_step { s1 with conditionalStack := restStack }
          "merge" ("End of conditional at " ++ posStr s1.position) {}).2.2
          (h2.1.cinv hc).1 n (hbe hc n hn)
    revert h3 hmem0 hkeep
    generalize createNode { s1 with conditionalStack := restStack }
      "merge" ("End of conditional at " ++ posStr s1.position) {} = rc
    obtain ⟨mid, st⟩ := rc
    intro h3 hmem0 hkeep
    dsimp only
    have h4 := foldl_addEdge_reach mid _ h3 hkeep (fun _ => hmem0)
    have hc5 : CInv s → mid ∈ nodeKeys ((match s1.currentNode with
        | some cn => ifState.branchEndNodes ++ [cn]
        | none => ifState.branchEndNodes).foldl
          (fun acc endNode => addEdge acc endNode mid) st).graph := by
      intro hc
      rw [foldl_addEdge_proj]
      exact hmem0
    have h5 := set_current_reach h4 hc5
    split
    · exact h5.trans (StepOkK_cosmetic rfl rfl rfl rfl rfl rfl rfl rfl rfl rfl)
    · exact h5

/-- The conditional force-close loop of `processIndentedContent`. -/
theorem forceCloseLoop_stepK (fuel i : Nat) (d : Rat) (s : MachineState) :
    StepOkK s (forceCloseLoop fuel i d s) := by
  induction fuel generalizing i s with
  | zero => exact StepOkK.refl s
  | succ n ih =>
    unfold forceCloseLoop
    split
    · exact (endConditional_stepK s).trans (ih _ _)
    · exact StepOkK.refl s

theorem processElse_stepK (s : MachineState) :
    StepOkK s (processElse s).1 := by
  unfold processElse
  have h1 := flushTextBuffer_stepK s
  revert h1
  generalize flushTextBuffer s = s1
  intro h1
  dsimp only
  split
  · exact h1
  · rename_i ifState restStack heq
    dsimp only [okR]
    have hfr : CInv s → (match s1.currentNode with
        | some cn => { ifState with branchEndNodes := ifState.branchEndNodes ++ [cn] }
        | none => ifState).nodeBeforeIf ∈ nodeKeys s1.graph ∧
        ∀ b ∈ (match s1.currentNode with
        | some cn => { ifState with branchEndNodes := ifState.branchEndNodes ++ [cn] }
        | none => ifState).branchEndNodes, b ∈ nodeKeys s1.graph := by
      intro hc
      have hg : GInv s1 := (h1.1.cinv hc).1
      have hf0 := GInv_cond hg ifState (by rw [heq]; exact List.mem_cons_self _ _)
      cases hcur : s1.currentNode with
      | some cn =>
        refine ⟨hf0.1, ?_⟩
        intro b hb
        dsimp only at hb
        rcases List.mem_append.mp hb with h | h
        · exact hf0.2 b h
        · have hbc : b = cn := by simpa using h
          subst hbc
          exact GInv_current hg hcur
      | none => exact hf0
    revert hfr
    generalize (match s1.currentNode with
        | some cn => { ifState with branchEndNodes := ifState.branchEndNodes ++ [cn] }
        | none => ifState) = fr
    intro hfr
    have h2 : StepOkK s { s1 with conditionalStack := fr :: restStack } :=
      set_cond_reach h1 (fun hc f hf => by
        rcases List.mem_cons.mp hf with h | h
        · subst h; exact hfr hc
        · exact GInv_cond (h1.1.cinv hc).1 f
            (by rw [heq]; exact List.mem_cons_of_mem _ h))
    have h3 := h2.trans (createNode_stepK { s1 with conditionalStack := fr :: restStack }
      "conditional" "Else" { condition := some ("not(" ++ fr.condition ++ ")") })
    have hmem0 := createNode_mem { s1 with conditionalStack := fr :: restStack }
      "conditional" "Else" { condition := some ("not(" ++ fr.condition ++ ")") }
    have hsrc : CInv s → fr.nodeBeforeIf ∈
        nodeKeys (createNode { s1 with conditionalStack := fr :: restStack }
          "conditional" "Else" { condition := some ("not(" ++ fr.condition ++ ")") }).2.graph :=
      fun hc => (createNode_step { s1 with conditionalStack := fr :: restStack }
        "conditional" "Else" { condition := some ("not(" ++ fr.condition ++ ")") }).2.2
        (h2.1.cinv hc).1 _ (hfr hc).1
    revert h3 hmem0 hsrc
    generalize createNode { s1 with conditionalStack := fr :: restStack }
      "conditional" "Else" { condition := some ("not(" ++ fr.condition ++ ")") } = rc
    obtain ⟨eid, st⟩ := rc
    intro h3 hmem0 hsrc
    dsimp only
    have h4 := addEdge_reach h3 fr.nodeBeforeIf eid
      { condition := some ("not(" ++ fr.condition ++ ")") } hsrc (fun _ => hmem0)
    have hm5 : CInv s → eid ∈ nodeKeys (addEdge st fr.nodeBeforeIf eid
        { condition := some ("not(" ++ fr.condition ++ ")") }).graph := by
      intro _
      rw [(addEdge_proj st fr.nodeBeforeIf eid
        { condition := some ("not(" ++ fr.condition ++ ")") }).2.2.2.2.2]
      exact hmem0
    exact (set_current_reach h4 hm5).trans
      (StepOkK_cosmetic rfl rfl rfl rfl rfl rfl rfl rfl rfl rfl)

theorem processElseIf_stepK (condition : String) (s : MachineState) :
    StepOkK s (processElseIf condition s).1 := by
  unfold processElseIf
  have h1 := flushTextBuffer_stepK s
  revert h1
  generalize flushTextBuffer s = s1
  intro h1
  dsimp only
  split
  · exact h1
  · rename_i ifState restStack heq
    dsimp only [okR]
    have hfr : CInv s → (match s1.currentNode with
        | some cn => { ifState with branchEndNodes := ifState.branchEndNodes ++ [cn] }
        | none => ifState).nodeBeforeIf ∈ nodeKeys s1.graph ∧
        ∀ b ∈ (match s1.currentNode with
        | some cn => { ifState with branchEndNodes := ifState.branchEndNodes ++ [cn] }
        | none => ifState).branchEndNodes, b ∈ nodeKeys s1.graph := by
      intro hc
      have hg : GInv s1 := (h1.1.cinv hc).1
      have hf0 := GInv_cond hg ifState (by rw [heq]; exact List.mem_cons_self _ _)
      cases hcur : s1.currentNode with
      | some cn =>
        refine ⟨hf0.1, ?_⟩
        intro b hb
        dsimp only at hb
        rcases List.mem_append.mp hb with h | h
        · exact hf0.2 b h
        · have hbc : b = cn := by simpa using h
          subst hbc
          exact GInv_current hg hcur
      | none => exact hf0
    revert hfr
    generalize (match s1.currentNode with
        | some cn => { ifState with branchEndNodes := ifState.branchEndNodes ++ [cn] }
        | none => ifState) = fr
    intro hfr
    have h2 : StepOkK s { s1 with conditionalStack := fr :: restStack } :=
      set_cond_reach h1 (fun hc f hf => by
        rcases List.mem_cons.mp hf with h | h
        · subst h; exact hfr hc
        · exact GInv_cond (h1.1.cinv hc).1 f
            (by rw [heq]; exact List.mem_cons_of_mem _ h))
    have h3 := h2.trans (createNode_stepK { s1 with conditionalStack := fr :: restStack }
      "conditional" ("ElseIf: " ++ condition) { condition := some condition })
    have hmem0 := createNode_mem { s1 with conditionalStack := fr :: restStack }
      "conditional" ("ElseIf: " ++ condition) { condition := some condition }
    have hsrc : CInv s → fr.nodeBeforeIf ∈
        nodeKeys (createNode { s1 with conditionalStack := fr :: restStack }
          "conditional" ("ElseIf: " ++ condition) { condition := some condition }).2.graph :=
      fun hc => (createNode_step { s1 with conditionalStack := fr :: restStack }
        "conditional" ("ElseIf: " ++ condition) { condition := some condition }).2.2
        (h2.1.cinv hc).1 _ (hfr hc).1
    have hst := (createNode_proj { s1 with conditionalStack := fr :: restStack }
      "conditional" ("ElseIf: " ++ condition) { condition := some condition }).2.2.1
    revert h3 hmem0 hsrc hst
    generalize createNode { s1 with conditionalStack := fr :: restStack }
      "conditional" ("ElseIf: " ++ condition) { condition := some condition } = rc
    obtain ⟨eid, st⟩ := rc
    intro h3 hmem0 hsrc hst
    dsimp only
    dsimp only at hst
    have h4 := addEdge_reach h3 fr.nodeBeforeIf eid
      { condition := some ("not(" ++ fr.condition ++ ")" ++ " and (" ++ condition ++ ")") }
      hsrc (fun _ => hmem0)
    have h5 : StepOkK s { (addEdge st fr.nodeBeforeIf eid
        { condition := some ("not(" ++ fr.condition ++ ")" ++ " and (" ++ condition ++ ")") }) with
        conditionalStack :=
          { fr with condition := "(" ++ fr.condition ++ ") or (" ++ condition ++ ")" }
            :: restStack } :=
      set_cond_reach h4 (fun hc f hf => by
        have hg4 : GInv (addEdge st fr.nodeBeforeIf eid
            { condition := some ("not(" ++ fr.condition ++ ")" ++ " and (" ++ condition ++ ")") }) :=
          (h4.1.cinv hc).1
        have hmemstack : ∀ g : ConditionalState, g ∈ fr :: restStack →
            g ∈ (addEdge st fr.nodeBeforeIf eid
            { condition := some ("not(" ++ fr.condition ++ ")" ++ " and (" ++ condition ++ ")")
            }).conditionalStack := by
          intro g hg
          show g ∈ st.conditionalStack
          rw [hst]
          exact hg
        rcases List.mem_cons.mp hf with h | h
        · subst h
          exact GInv_cond hg4 fr (hmemstack fr (List.mem_cons_self _ _))
        · exact GInv_cond hg4 f (hmemstack f (List.mem_cons_of_mem _ h)))
    have hm5 : CInv s → eid ∈ nodeKeys (addEdge st fr.nodeBeforeIf eid
        { condition := some ("not(" ++ fr.condition ++ ")" ++ " and (" ++ condition ++ ")") }).graph := by
      intro _
      rw [(addEdge_proj st fr.nodeBeforeIf eid
        { condition := some ("not(" ++ fr.condition ++ ")" ++ " and (" ++ condition ++ ")") }).2.2.2.2.2]
      exact hmem0
    exact (set_current_reach h5 hm5).trans
      (StepOkK_cosmetic rfl rfl rfl rfl rfl rfl rfl rfl rfl rfl)

/-- In-place node mutation on a reached state, with the resulting key set. -/
theorem update_nodes_reach {s0 s : MachineState} (hreach : StepOkK s0 s)
    (k : String) (f : Node → Node) (hf : ∀ v : Node, (f v).id = v.id) :
    StepOkK s0 { s with graph := { s.graph with nodes := mapUpdate s.graph.nodes k f } } ∧
    nodeKeys { s with graph :=
      { s.graph with nodes := mapUpdate s.graph.nodes k f } }.graph = nodeKeys s.graph :=
  ⟨hreach.trans (StepOkK_update_nodes hf), mapUpdate_keys _ _ _⟩

theorem processChoiceOption_stepK (line : String) (s : MachineState) :
    StepOkK s (processChoiceOption line s).1 := by
  unfold processChoiceOption
  split
  · exact StepOkK.refl s
  · dsimp only
    generalize extractOptionPrefixes (substringFrom line 1).trimJS = info
    have h1 := createNode_stepK s "option" info.cleanText
      { hideReuse := some info.hideReuse, disableReuse := some info.disableReuse,
        allowReuse := some info.allowReuse, isSelectable := some info.isSelectable,
        condition := info.condition }
    have hm := createNode_mem s "option" info.cleanText
      { hideReuse := some info.hideReuse, disableReuse := some info.disableReuse,
        allowReuse := some info.allowReuse, isSelectable := some info.isSelectable,
        condition := info.condition }
    revert h1 hm
    generalize createNode s "option" info.cleanText
      { hideReuse := some info.hideReuse, disableReuse := some info.disableReuse,
        allowReuse := some info.allowReuse, isSelectable := some info.isSelectable,
        condition := info.condition } = rc
    obtain ⟨oid, st⟩ := rc
    intro h1 hm
    dsimp only
    split
    · exact h1
    · rename_i ccid rest heq
      split
      · exact h1
      · rename_i choiceNode heq2
        split
        · exact h1
        · rename_i opts heq3
          dsimp only [okR]
          generalize ({ id := oid, text := info.cleanText,
                        conditions := if (match info.condition with
                                          | some c => c != ""
                                          | none => false) = true then
                                        [info.condition.getD ""]
                                      else [],
                        isSelectable := info.isSelectable } : ChoiceOptionEntry) = newOpt
          generalize (if (match info.condition with
                          | some c => c != ""
                          | none => false) = true then
                        ({ condition := info.condition,
                           isSelectable := some info.isSelectable } : EdgeAttributes)
                      else {}) = edgeAttrs
          have h2 := update_nodes_reach h1 ccid
            (fun n => { n with options := some (opts ++ [newOpt]) }) (fun v => rfl)
          have hcc : CInv s → ccid ∈ nodeKeys st.graph := fun hc =>
            GInv_choice (h1.1.cinv hc).1 ccid (by rw [heq]; exact List.mem_cons_self _ _)
          have hid : CInv s → choiceNode.id = ccid := fun hc =>
            GInv_ids (h1.1.cinv hc).1 (ccid, choiceNode) (mapGet_mem _ _ _ heq2)
          have h3 := addEdge_reach h2.1 choiceNode.id oid edgeAttrs
            (fun hc => by rw [h2.2, hid hc]; exact hcc hc)
            (fun hc => by rw [h2.2]; exact hm)
          exact (set_current_reach h3 (fun hc => by
              rw [(addEdge_proj _ choiceNode.id oid edgeAttrs).2.2.2.2.2, h2.2]
              exact hm)).trans
            (StepOkK_cosmetic rfl rfl rfl rfl rfl rfl rfl rfl rfl rfl)

theorem processReturn_stepK (s : MachineState) :
    StepOkK s (processReturn s).1 := by
  unfold processReturn
  have h1 := flushTextBuffer_stepK s
  revert h1
  generalize flushTextBuffer s = s1
  intro h1
  dsimp only
  split
  · exact h1
  · rename_i hne
    have h2 := h1.trans (createNode_stepK s1 "return"
      ("Return at " ++ posStr s1.position) {})
    have hm := createNode_mem s1 "return" ("Return at " ++ posStr s1.position) {}
    have hsub := (createNode_proj s1 "return"
      ("Return at " ++ posStr s1.position) {}).2.2.2.1
    revert h2 hm hsub
    generalize createNode s1 "return" ("Return at " ++ posStr s1.position) {} = rc
    obtain ⟨rid, st⟩ := rc
    intro h2 hm hsub
    dsimp only
    dsimp only at hsub
    have h3 := edgeFromCurrent_reach h2 rid {} (fun _ => hm)
    have hm3 : rid ∈ nodeKeys (edgeFromCurrent st rid {}).graph := by
      rw [(edgeFromCurrent_proj st rid {}).2.2.2.2.2.2.2.2.2]
      exact hm
    have hsub3 : (edgeFromCurrent st rid {}).subroutineStack = s1.subroutineStack := by
      rw [(edgeFromCurrent_proj st rid {}).2.2.2.2.2.2.2.2.1]
      exact hsub
    revert h3 hm3 hsub3
    generalize edgeFromCurrent st rid {} = s3
    intro h3 hm3 hsub3
    split
    · exact h3
    · rename_i returnTarget restStack heq
      dsimp only [okR]
      have h4 : StepOkK s { s3 with subroutineStack := restStack } :=
        set_sub_reach h3 (fun hc n hn => GInv_sub (h3.1.cinv hc).1 n
          (by rw [heq]; exact List.mem_cons_of_mem _ hn))
      have hrt : CInv s → returnTarget ∈ nodeKeys s3.graph := fun hc =>
        GInv_sub (h3.1.cinv hc).1 returnTarget (by rw [heq]; exact List.mem_cons_self _ _)
      have h5 := addEdge_reach h4 rid returnTarget {} (fun _ => hm3) hrt
      have h6 := set_current_reach h5 (fun hc => by
        rw [(addEdge_proj { s3 with subroutineStack := restStack }
          rid returnTarget {}).2.2.2.2.2]
        exact hm3)
      split
      · exact h6.trans (StepOkK_cosmetic rfl rfl rfl rfl rfl rfl rfl rfl rfl rfl)
      · exact h6

theorem processCommand_stepK (line : String) (s : MachineState) :
    StepOkK s (processCommand line s).1 := by
  unfold processCommand
  split
  · exact StepOkK.refl s
  · rename_i command args heqp
    split
    · exact startChoiceBlock_stepK false s
    · exact startChoiceBlock_stepK true s
    · exact startConditional_stepK args s
    · exact processElseIf_stepK args s
    · exact processElseIf_stepK args s
    · exact processElse_stepK s
    · exact endConditional_stepK s
    · exact processGoto_stepK "goto" args s
    · exact processGoto_stepK "goto_scene" args s
    · exact processLabel_stepK args s
    · exact processVariableDeclaration_stepK "create" args s
    · exact processVariableDeclaration_stepK "temp" args s
    · exact processVariableAssignment_stepK args s
    · exact processGosub_stepK "gosub" args s
    · exact processGosub_stepK "gosub_scene" args s
    · exact processReturn_stepK s
    · exact processFinish_stepK args s
    · exact processPageBreak_stepK args s
    · exact processTitle_stepK args s
    · exact processAuthor_stepK args s
    · exact processSceneList_stepK s
    · exact processAchievement_stepK args s
    · -- comment
      dsimp only [okR]
      have h1 := createNode_stepK s "comment" args {}
      have hm := createNode_mem s "comment" args {}
      revert h1 hm
      generalize createNode s "comment" args {} = rc
      obtain ⟨cid, st⟩ := rc
      intro h1 hm
      dsimp only
      split
      · rename_i cn hcn
        have h2 := addEdge_reach h1 cn cid {}
          (fun hc => GInv_current (h1.1.cinv hc).1 hcn) (fun _ => hm)
        exact set_current_reach h2 (fun hc => by
          rw [(addEdge_proj st cn cid {}).2.2.2.2.2]
          exact hm)
      · exact h1
    · -- comment
      dsimp only [okR]
      have h1 := createNode_stepK s "comment" args {}
      have hm := createNode_mem s "comment" args {}
      revert h1 hm
      generalize createNode s "comment" args {} = rc
      obtain ⟨cid, st⟩ := rc
      intro h1 hm
      dsimp only
      split
      · rename_i cn hcn
        have h2 := addEdge_reach h1 cn cid {}
          (fun hc => GInv_current (h1.1.cinv hc).1 hcn) (fun _ => hm)
        exact set_current_reach h2 (fun hc => by
          rw [(addEdge_proj st cn cid {}).2.2.2.2.2]
          exact hm)
      · exact h1
    · -- unsupported command
      dsimp only [okR]
      have h0 := warn_stepK s ("Unsupported command at " ++ posStr s.position ++
        ": " ++ command)
      revert h0
      generalize warn s ("Unsupported command at " ++ posStr s.position ++
        ": " ++ command) = s1
      intro h0
      have h1 := h0.trans (createNode_stepK s1 "unknown_command" (command ++ " " ++ args)
        { command := some command, args := some args })
      have hm := createNode_mem s1 "unknown_command" (command ++ " " ++ args)
        { command := some command, args := some args }
      revert h1 hm
      generalize createNode s1 "unknown_command" (command ++ " " ++ args)
        { command := some command, args := some args } = rc
      obtain ⟨cid, st⟩ := rc
      intro h1 hm
      dsimp only
      split
      · rename_i cn hcn
        have h2 := addEdge_reach h1 cn cid {}
          (fun hc => GInv_current (h1.1.cinv hc).1 hcn) (fun _ => hm)
        exact set_current_reach h2 (fun hc => by
          rw [(addEdge_proj st cn cid {}).2.2.2.2.2]
          exact hm)
      · exact h1

theorem detectIndentType_stepK (ic : List Char) (s : MachineState) :
    StepOkK s (detectIndentType ic s) := by
  unfold detectIndentType
  split
  · split <;> exact StepOkK_cosmetic rfl rfl rfl rfl rfl rfl rfl rfl rfl rfl
  · exact StepOkK.refl s

theorem validateIndentType_stepK (ic : List Char) (s : MachineState) :
    StepOkK s (validateIndentType ic s) := by
  unfold validateIndentType
  dsimp only
  split
  · split <;> split
    · exact (warn_stepK s ("Inconsistent indentation type at " ++ posStr s.position ++
        ". Mixing tabs and spaces.")).trans
        (StepOkK_cosmetic rfl rfl rfl rfl rfl rfl rfl rfl rfl rfl)
    · exact StepOkK_cosmetic rfl rfl rfl rfl rfl rfl rfl rfl rfl rfl
    · exact (warn_stepK s ("Inconsistent indentation type at " ++ posStr s.position ++
        ". Mixing tabs and spaces.")).trans
        (StepOkK_cosmetic rfl rfl rfl rfl rfl rfl rfl rfl rfl rfl)
    · exact StepOkK_cosmetic rfl rfl rfl rfl rfl rfl rfl rfl rfl rfl
  · exact StepOkK.refl s

theorem computeIndentLevel_stepK (ic : List Char) (s : MachineState) :
    StepOkK s (computeIndentLevel ic s) := by
  unfold computeIndentLevel
  split
  · split <;> exact StepOkK_cosmetic rfl rfl rfl rfl rfl rfl rfl rfl rfl rfl
  · exact StepOkK_cosmetic rfl rfl rfl rfl rfl rfl rfl rfl rfl rfl

theorem checkIndentExpectation_stepK (s : MachineState) :
    StepOkK s (checkIndentExpectation s) := by
  unfold checkIndentExpectation
  split
  · exact warn_stepK s _
  · exact StepOkK.refl s

theorem processLineIndent_stepK (line : String) (s : MachineState) :
    StepOkK s (processLineIndent line s) := by
  unfold processLineIndent
  exact (((detectIndentType_stepK _ s).trans
    (validateIndentType_stepK _ _)).trans
    ((computeIndentLevel_stepK _ _).trans
      ((checkIndentExpectation_stepK _).trans
        (StepOkK_cosmetic rfl rfl rfl rfl rfl rfl rfl rfl rfl rfl))))

/-- The choice-stack pop loop only removes elements. -/
theorem popChoiceLoop_subset : ∀ (i : Nat) (d : Rat) (l : List String),
    ∀ x ∈ popChoiceLoop i d l, x ∈ l := by
  intro i d l
  induction l generalizing i with
  | nil => intro x hx; simpa [popChoiceLoop] using hx
  | cons a t ih =>
    intro x hx
    unfold popChoiceLoop at hx
    split at hx
    · exact List.mem_cons_of_mem _ (ih _ x hx)
    · exact hx

/-- `bindR` of two valid steps is a valid step (on error the rest is
skipped, so the state is the first one's). -/
theorem bindR_stepK {s : MachineState} {r : BuildR} {f : MachineState → BuildR}
    (h1 : StepOkK s r.1) (h2 : ∀ t, StepOkK t (f t).1) :
    StepOkK s (bindR r f).1 := by
  rcases r with ⟨t, e⟩
  cases e with
  | none => exact h1.trans (h2 t)
  | some m => exact h1

theorem choicePopState_stepK (s : MachineState) : StepOkK s (choicePopState s) := by
  let t1 : MachineState := { s with
    choiceNodeStack :=
      popChoiceLoop 0 (ratSub s.expectedIndentLevel s.currentIndentLevel) s.choiceNodeStack }
  have h1 : StepOkK s t1 := set_choice_reach (StepOkK.refl s) (fun hc n hn =>
    GInv_choice hc.1 n (popChoiceLoop_subset _ _ _ n hn))
  let t2 : MachineState :=
    if t1.choiceNodeStack = [] then { t1 with currentState := "READING_TEXT" } else t1
  have h2 : StepOkK s t2 := by
    show StepOkK s
      (if t1.choiceNodeStack = [] then { t1 with currentState := "READING_TEXT" } else t1)
    split
    · exact h1.trans (StepOkK_cosmetic rfl rfl rfl rfl rfl rfl rfl rfl rfl rfl)
    · exact h1
  exact h2.trans (StepOkK_cosmetic rfl rfl rfl rfl rfl rfl rfl rfl rfl rfl)

theorem condForceCloseState_stepK (s : MachineState) :
    StepOkK s (condForceCloseState s) := by
  let t1 : MachineState := warn s ("Unexpected change in indentation level at " ++
    posStr s.position ++ ". Expected *endif.")
  have h1 : StepOkK s t1 := warn_stepK s ("Unexpected change in indentation level at " ++
    posStr s.position ++ ". Expected *endif.")
  let t2 : MachineState := forceCloseLoop t1.conditionalStack.length 0
    (ratSub t1.expectedIndentLevel t1.currentIndentLevel) t1
  have h2 : StepOkK s t2 := h1.trans (forceCloseLoop_stepK _ _ _ t1)
  exact h2.trans (StepOkK_cosmetic rfl rfl rfl rfl rfl rfl rfl rfl rfl rfl)

theorem processIndentedContent_stepK (lineF : String → MachineState → BuildR)
    (hlf : ∀ (l : String) (t : MachineState), StepOkK t (lineF l t).1)
    (line : String) (s : MachineState) :
    StepOkK s (processIndentedContent lineF line s).1 := by
  unfold processIndentedContent
  split
  · exact (choicePopState_stepK s).trans (hlf line _)
  · split
    · exact (condForceCloseState_stepK s).trans (hlf line _)
    · split
      · dsimp only
        split
        · exact (flushTextBuffer_stepK s).trans (processCommand_stepK line.trimJS _)
        · exact StepOkK_cosmetic rfl rfl rfl rfl rfl rfl rfl rfl rfl rfl
      · split
        · exact hlf line.trimJS s
        · split
          · exact hlf line s
          · exact StepOkK.refl s

theorem processLine_stepK : ∀ (fuel : Nat) (line : String) (s : MachineState),
    StepOkK s (processLine fuel line s).1 := by
  intro fuel
  induction fuel with
  | zero => intro line s; exact StepOkK.refl s
  | succ n ih =>
    intro line s
    unfold processLine
    have h0 := processLineIndent_stepK line s
    revert h0
    generalize processLineIndent line s = t5
    intro h0
    dsimp only
    by_cases h1 : line.trimJS = ""
    · rw [if_pos h1]
      try dsimp only [okR]
      split
      · exact h0.trans (StepOkK_cosmetic rfl rfl rfl rfl rfl rfl rfl rfl rfl rfl)
      · exact h0
    · rw [if_neg h1]
      by_cases h2 : line.trimJS.startsWithJS "#" = true ∧ ¬ t5.currentState = "CHOICE_BLOCK"
      · rw [if_pos h2]
        exact h0
      · rw [if_neg h2]
        by_cases h3 : line.trimJS.startsWithJS "*" = true
        · rw [if_pos h3]
          try dsimp only
          split
          · exact (h0.trans (flushTextBuffer_stepK t5)).trans
              (StepOkK_cosmetic rfl rfl rfl rfl rfl rfl rfl rfl rfl rfl)
          · rename_i command args2 heqc
            split
            · refine StepOkK.trans ?_ (processCommand_stepK line.trimJS _)
              exact (h0.trans (flushTextBuffer_stepK t5)).trans
                (StepOkK_cosmetic rfl rfl rfl rfl rfl rfl rfl rfl rfl rfl)
            · refine StepOkK.trans ?_ (processCommand_stepK line.trimJS _)
              exact (h0.trans (flushTextBuffer_stepK t5)).trans
                (StepOkK_cosmetic rfl rfl rfl rfl rfl rfl rfl rfl rfl rfl)
        · rw [if_neg h3]
          by_cases h4 : line.trimJS.startsWithJS "#" = true ∧ t5.currentState = "CHOICE_BLOCK"
          · rw [if_pos h4]
            exact (h0.trans
              (StepOkK_cosmetic rfl rfl rfl rfl rfl rfl rfl rfl rfl rfl)).trans
              (processChoiceOption_stepK line.trimJS
                { t5 with commandRequiringIndent := true,
                          expectedIndentLevel := ratAdd1 t5.currentIndentLevel })
          · rw [if_neg h4]
            by_cases h5 : t5.currentState = "SCENE_LIST"
            · rw [if_pos h5]
              split
              · exact h0.trans (StepOkK_cosmetic rfl rfl rfl rfl rfl rfl rfl rfl rfl rfl)
              · split
                · dsimp only [okR]
                  split
                  · split
                    · rename_i cn hcn
                      have h6 := update_nodes_reach h0 cn (fun node =>
                        if node.type = "scene_list" then
                          { node with attributes := { node.attributes with
                              scenes := some ((node.attributes.scenes.getD [])
                                ++ [line.trimJS]) } }
                        else node) (fun v => by dsimp only; split <;> rfl)
                      exact h6.1.trans
                        (StepOkK_cosmetic rfl rfl rfl rfl rfl rfl rfl rfl rfl rfl)
                    · exact h0.trans
                        (StepOkK_cosmetic rfl rfl rfl rfl rfl rfl rfl rfl rfl rfl)
                  · split
                    · rename_i cn hcn
                      exact (update_nodes_reach h0 cn (fun node =>
                        if node.type = "scene_list" then
                          { node with attributes := { node.attributes with
                              scenes := some ((node.attributes.scenes.getD [])
                                ++ [line.trimJS]) } }
                        else node) (fun v => by dsimp only; split <;> rfl)).1
                    · exact h0
                · exact h0.trans (StepOkK_cosmetic rfl rfl rfl rfl rfl rfl rfl rfl rfl rfl)
            · rw [if_neg h5]
              by_cases h6c : 0 < t5.currentIndentLevel ∧
                (t5.currentState = "CHOICE_BLOCK" ∨ t5.currentState = "CONDITIONAL")
              · rw [if_pos h6c]
                exact h0.trans (processIndentedContent_stepK
                  (fun l s' => processLine n l s') (fun l t => ih l t) line t5)
              · rw [if_neg h6c]
                by_cases h7 : t5.currentState = "RANDOM_SCENE_LIST"
                · rw [if_pos h7]
                  split
                  · exact (h0.trans
                      (StepOkK_cosmetic rfl rfl rfl rfl rfl rfl rfl rfl rfl rfl)).trans
                      (ih line { t5 with currentState := "READING_TEXT" })
                  · split
                    · dsimp only [okR]
                      split
                      · rename_i cn hcn
                        exact (update_nodes_reach h0 cn (fun node =>
                          if node.type = "goto_random_scene" then
                            { node with attributes := { node.attributes with
                                scenes := some ((node.attributes.scenes.getD [])
                                  ++ [line.trimJS]) } }
                          else node) (fun v => by dsimp only; split <;> rfl)).1
                      · exact h0
                    · exact (h0.trans
                        (StepOkK_cosmetic rfl rfl rfl rfl rfl rfl rfl rfl rfl rfl)).trans
                        (ih line { t5 with currentState := "READING_TEXT" })
                · rw [if_neg h7]
                  by_cases h8 : t5.currentState = "STAT_CHART"
                  · rw [if_pos h8]
                    split
                    · exact (h0.trans
                        (StepOkK_cosmetic rfl rfl rfl rfl rfl rfl rfl rfl rfl rfl)).trans
                        (ih line { t5 with currentState := "READING_TEXT" })
                    · split
                      · dsimp only [okR]
                        split
                        · -- stat line added (or warned), then text appended
                          split
                          · rename_i label varName description heqm
                            split
                            · rename_i cn hcn
                              have h6 := update_nodes_reach h0 cn (fun node =>
                                if node.type = "stat_chart" then
                                  { node with attributes := { node.attributes with
                                      stats := some ((node.attributes.stats.getD [])
                                        ++ [{ label := label.trimJS, varName := varName,
                                              description := if description ≠ "" then
                                                description.trimJS else "" }]) } }
                                else node) (fun v => by dsimp only; split <;> rfl)
                              exact h6.1.trans
                                (StepOkK_cosmetic rfl rfl rfl rfl rfl rfl rfl rfl rfl rfl)
                            · exact h0.trans
                                (StepOkK_cosmetic rfl rfl rfl rfl rfl rfl rfl rfl rfl rfl)
                          · exact (h0.trans (warn_stepK t5 ("Invalid stat chart entry at "
                              ++ posStr t5.position ++ ": " ++ line.trimJS))).trans
                              (StepOkK_cosmetic rfl rfl rfl rfl rfl rfl rfl rfl rfl rfl)
                        · split
                          · rename_i label varName description heqm
                            split
                            · rename_i cn hcn
                              exact (update_nodes_reach h0 cn (fun node =>
                                if node.type = "stat_chart" then
                                  { node with attributes := { node.attributes with
                                      stats := some ((node.attributes.stats.getD [])
                                        ++ [{ label := label.trimJS, varName := varName,
                                              description := if description ≠ "" then
                                                description.trimJS else "" }]) } }
                                else node) (fun v => by dsimp only; split <;> rfl)).1
                            · exact h0
                          · exact h0.trans (warn_stepK t5 ("Invalid stat chart entry at "
                              ++ posStr t5.position ++ ": " ++ line.trimJS))
                      · exact bindR_stepK ((h0.trans
                          (StepOkK_cosmetic rfl rfl rfl rfl rfl rfl rfl rfl rfl rfl)).trans
                          (ih line { t5 with currentState := "READING_TEXT" }))
                          (fun t => by
                            dsimp only [okR]
                            split
                            · exact StepOkK_cosmetic rfl rfl rfl rfl rfl rfl rfl rfl rfl rfl
                            · exact StepOkK.refl t)
                  · rw [if_neg h8]
                    dsimp only [okR]
                    split
                    · exact h0.trans (StepOkK_cosmetic rfl rfl rfl rfl rfl rfl rfl rfl rfl rfl)
                    · exact h0

theorem processContentLines_stepK : ∀ (lines : List String) (idx : Nat)
    (s : MachineState), StepOkK s (processContentLines lines idx s).1 := by
  intro lines
  induction lines with
  | nil => intro idx s; exact StepOkK.refl s
  | cons line rest ih =>
    intro idx s
    unfold processContentLines
    dsimp only
    refine bindR_stepK ?_ (fun t => ih (idx + 1) t)
    refine StepOkK.trans ?_ (processLine_stepK 12 line _)
    exact StepOkK_cosmetic rfl rfl rfl rfl rfl rfl rfl rfl rfl rfl

theorem processContent_stepK (content : String) (s : MachineState) :
    StepOkK s (processContent content s).1 := by
  unfold processContent
  exact bindR_stepK (processContentLines_stepK _ 0 s) (fun t => flushTextBuffer_stepK t)

/-- `processScene` preserves the graph invariant (it establishes the
cursor itself before processing content). -/
theorem processScene_ginv (sp : SceneProvider) (sceneName : String) (s : MachineState)
    (h : GInv s) : GInv (processScene sp sceneName s) := by
  unfold processScene
  split
  · exact GInv_congr rfl rfl rfl rfl rfl rfl rfl rfl rfl h
  · split
    · exact h
    · dsimp only
      have hg2 : GInv { s with
          position := { file := sceneName, line := 0 },
          processedScenes := setAdd s.processedScenes sceneName } :=
        GInv_congr rfl rfl rfl rfl rfl rfl rfl rfl rfl h
      revert hg2
      generalize ({ s with
          position := { file := sceneName, line := 0 },
          processedScenes := setAdd s.processedScenes sceneName } : MachineState) = s2
      intro hg2
      have hg3 := (createNode_spec s2 "scene_entry"
        ("Entry point for " ++ sceneName) {} hg2).2
      have hm := createNode_mem s2 "scene_entry" ("Entry point for " ++ sceneName) {}
      revert hg3 hm
      generalize createNode s2 "scene_entry" ("Entry point for " ++ sceneName) = rc
      obtain ⟨eid, st⟩ := rc
      intro hg3 hm
      dsimp only
      have hg4 : GInv { st with graph :=
          { st.graph with entryPoints := mapSet st.graph.entryPoints sceneName eid } } :=
        GInv_set_entries hg3 hm
      have hm4 : eid ∈ nodeKeys { st with graph :=
          { st.graph with entryPoints := mapSet st.graph.entryPoints sceneName eid }
          }.graph := hm
      by_cases hcur : st.currentNode = none
      · rw [if_pos hcur]
        have hg := (processContent_stepK (sp.loadScene sceneName)
          { st with currentNode := some eid,
                    graph := { st.graph with
                      entryPoints := mapSet st.graph.entryPoints sceneName eid } }).1.1 ⟨GInv_set_current hg4 hm4, rfl⟩
        revert hg
        generalize processContent (sp.loadScene sceneName)
          { st with currentNode := some eid,
                    graph := { st.graph with
                      entryPoints := mapSet st.graph.entryPoints sceneName eid } } = r2
        obtain ⟨sr, er⟩ := r2
        intro hg
        cases er with
        | none => exact hg
        | some e => exact GInv_congr rfl rfl rfl rfl rfl rfl rfl rfl rfl hg
      · rw [if_neg hcur]
        have hg := (processContent_stepK (sp.loadScene sceneName)
          { st with graph := { st.graph with
              entryPoints := mapSet st.graph.entryPoints sceneName eid } }).1.1
          ⟨hg4, Option.isSome_iff_ne_none.mpr hcur⟩
        revert hg
        generalize processContent (sp.loadScene sceneName)
          { st with graph := { st.graph with
              entryPoints := mapSet st.graph.entryPoints sceneName eid } } = r2
        obtain ⟨sr, er⟩ := r2
        intro hg
        cases er with
        | none => exact hg
        | some e => exact GInv_congr rfl rfl rfl rfl rfl rfl rfl rfl rfl hg

/-- `resetState` yields a well-formed (empty-graph) state. -/
theorem GInv_resetState (s : MachineState) : GInv (resetState s) :=
  ⟨fun e he => by simp [resetState] at he,
   fun n hn => by simp [resetState] at hn,
   fun n hn => by simp [resetState] at hn,
   fun f hf => by simp [resetState] at hf,
   fun n hn => by simp [resetState] at hn,
   fun kv hkv => by simp [resetState] at hkv,
   fun kv hkv => by simp [resetState] at hkv,
   fun kv hkv => by simp [resetState] at hkv,
   fun k hk => by simp [resetState, nodeKeys] at hk⟩

/-- The scene-discovery loop preserves the graph invariant. -/
theorem processAllLinkedScenesLoop_ginv (sp : SceneProvider) :
    ∀ (fuel : Nat) (s : MachineState), GInv s →
      GInv (processAllLinkedScenesLoop sp fuel s) := by
  intro fuel
  induction fuel with
  | zero => intro s h; exact h
  | succ n ih =>
    intro s h
    unfold processAllLinkedScenesLoop
    dsimp only
    have hg2 : GInv (match (sceneRefsOf s.graph).find?
        (fun n => decide (n ∉ s.processedScenes)) with
      | some n => processScene sp n s
      | none => s) := by
      split
      · rename_i n2 heq
        exact processScene_ginv sp n2 s h
      · exact h
    revert hg2
    generalize (match (sceneRefsOf s.graph).find?
        (fun n => decide (n ∉ s.processedScenes)) with
      | some n => processScene sp n s
      | none => s) = s2
    intro hg2
    split
    · exact ih s2 hg2
    · exact hg2

/-- `processGame` always yields a well-formed graph. -/
theorem processGame_ginv (sp : SceneProvider) (entryScene : String)
    (processAllScenesFlag : Bool) (s : MachineState) :
    GInv (processGame sp entryScene processAllScenesFlag s) := by
  unfold processGame
  dsimp only
  have h2 := processScene_ginv sp entryScene (resetState s) (GInv_resetState s)
  split
  · exact processAllLinkedScenesLoop_ginv sp _ _ h2
  · exact h2

/-- The single-node state is well-formed with a live cursor. -/
theorem oneNodeState_cinv : CInv oneNodeState := by
  refine ⟨⟨by decide, ?_, by decide, by decide, by decide, by decide, by decide,
    by decide, by decide⟩, rfl⟩
  intro n hn
  simp only [oneNodeState, Option.some.injEq] at hn
  subst hn
  decide

/-- **C1** (invariants): every edge of a graph produced by a completed
`ChoiceScriptStateMachine.processGame` build references existing nodes —
both `source` and `target` are keys of `Graph.nodes` — and the invariant is
maintained across every builder command: from any well-formed state with a
live cursor, the state after `processCommand` (which performs every edge
insertion via `addEdge`) again has all edges between existing keys. -/
theorem claim_C1 (sp : SceneProvider) (entryScene : String) (processAll : Bool)
    (s0 : MachineState) :
    (∀ e ∈ (processGame sp entryScene processAll s0).graph.edges,
      e.source ∈ nodeKeys (processGame sp entryScene processAll s0).graph ∧
      e.target ∈ nodeKeys (processGame sp entryScene processAll s0).graph) ∧
    (∀ (line : String) (s : MachineState), CInv s →
      ∀ e ∈ (processCommand line s).1.graph.edges,
        e.source ∈ nodeKeys (processCommand line s).1.graph ∧
        e.target ∈ nodeKeys (processCommand line s).1.graph) :=
  ⟨fun e he => GInv_edges (processGame_ginv sp entryScene processAll s0) e he,
   fun line s hc e he => GInv_edges ((processCommand_stepK line s).1.1 hc) e he⟩

/-- An element is always a member after `setAdd`ing it. -/
theorem setAdd_mem (l : List String) (x : String) : x ∈ setAdd l x := by
  unfold setAdd
  split
  · assumption
  · exact List.mem_append_right _ (List.mem_singleton.mpr rfl)

/-- Running `processScene` on a scene the provider has marks it processed. -/
theorem processScene_mem (sp : SceneProvider) (n : String) (s : MachineState)
    (hs : sp.hasScene n = true) : n ∈ (processScene sp n s).processedScenes := by
  unfold processScene
  rw [if_neg (by simp [hs])]
  by_cases hm : n ∈ s.processedScenes
  · rw [if_pos hm]; exact hm
  · rw [if_neg hm]
    dsimp only
    have hmem : n ∈ ({ s with
        position := { file := n, line := 0 },
        processedScenes := setAdd s.processedScenes n } : MachineState).processedScenes :=
      setAdd_mem s.processedScenes n
    revert hmem
    generalize ({ s with
        position := { file := n, line := 0 },
        processedScenes := setAdd s.processedScenes n } : MachineState) = s2
    intro hmem
    have hcp : (createNode s2 "scene_entry" ("Entry point for " ++ n) {}).2.processedScenes
        = s2.processedScenes := rfl
    revert hcp
    generalize createNode s2 "scene_entry" ("Entry point for " ++ n) = rc
    obtain ⟨eid, st⟩ := rc
    intro hcp
    dsimp only at hcp ⊢
    by_cases hcur : st.currentNode = none
    · rw [if_pos hcur]
      have hps := (processContent_stepK (sp.loadScene n)
        { st with currentNode := some eid,
                  graph := { st.graph with
                    entryPoints := mapSet st.graph.entryPoints n eid } }).1.2.2.1
      revert hps
      generalize processContent (sp.loadScene n)
        { st with currentNode := some eid,
                  graph := { st.graph with
                    entryPoints := mapSet st.graph.entryPoints n eid } } = r2
      obtain ⟨sr, er⟩ := r2
      intro hps
      cases er with
      | none =>
        dsimp only
        rw [hps]
        dsimp only
        rw [hcp]
        exact hmem
      | some e =>
        dsimp only
        rw [hps]
        dsimp only
        rw [hcp]
        exact hmem
    · rw [if_neg hcur]
      have hps := (processContent_stepK (sp.loadScene n)
        { st with graph := { st.graph with
            entryPoints := mapSet st.graph.entryPoints n eid } }).1.2.2.1
      revert hps
      generalize processContent (sp.loadScene n)
        { st with graph := { st.graph with
            entryPoints := mapSet st.graph.entryPoints n eid } } = r2
      obtain ⟨sr, er⟩ := r2
      intro hps
      cases er with
      | none =>
        dsimp only
        rw [hps]
        dsimp only
        rw [hcp]
        exact hmem
      | some e =>
        dsimp only
        rw [hps]
        dsimp only
        rw [hcp]
        exact hmem

/-- `processScene` is the identity on states that have already processed
the (existing) scene. -/
theorem processScene_again (sp : SceneProvider) (n : String) (t : MachineState)
    (hs : sp.hasScene n = true) (hm : n ∈ t.processedScenes) :
    processScene sp n t = t := by
  unfold processScene
  rw [if_neg (by simp [hs]), if_pos hm]

/-- C1 at concrete inputs: a well-formed one-node state, a `*finish`
command processed from it, and a full one-scene build. -/
theorem claim_C1_witness :
    CInv oneNodeState ∧
    (∀ e ∈ (processCommand "*finish" oneNodeState).1.graph.edges,
      e.source ∈ nodeKeys (processCommand "*finish" oneNodeState).1.graph ∧
      e.target ∈ nodeKeys (processCommand "*finish" oneNodeState).1.graph) ∧
    (∀ e ∈ (processGame spSimple "startup" true {}).graph.edges,
      e.source ∈ nodeKeys (processGame spSimple "startup" true {}).graph ∧
      e.target ∈ nodeKeys (processGame spSimple "startup" true {}).graph) :=
  ⟨oneNodeState_cinv,
   (claim_C1 spSimple "startup" true {}).2 "*finish" oneNodeState oneNodeState_cinv,
   (claim_C1 spSimple "startup" true {}).1⟩

/-- `edgeFromCurrent` never touches the subroutine or conditional stacks. -/
theorem edgeFromCurrent_stacks (s : MachineState) (t : String) (ea : EdgeAttributes) :
    (edgeFromCurrent s t ea).subroutineStack = s.subroutineStack ∧
    (edgeFromCurrent s t ea).conditionalStack = s.conditionalStack := by
  unfold edgeFromCurrent
  split <;> exact ⟨rfl, rfl⟩

/-- `appendNode` never touches the subroutine or conditional stacks. -/
theorem appendNode_stacks (s : MachineState) (ty tx : String) (a : NodeAttributes)
    (ea : EdgeAttributes) :
    (appendNode s ty tx a ea).2.subroutineStack = s.subroutineStack ∧
    (appendNode s ty tx a ea).2.conditionalStack = s.conditionalStack := by
  unfold appendNode
  dsimp only
  exact ⟨(edgeFromCurrent_stacks _ _ _).1, (edgeFromCurrent_stacks _ _ _).2⟩

/-- `flushTextBuffer` never touches the subroutine or conditional stacks. -/
theorem flushTextBuffer_stacks (s : MachineState) :
    (flushTextBuffer s).subroutineStack = s.subroutineStack ∧
    (flushTextBuffer s).conditionalStack = s.conditionalStack := by
  unfold flushTextBuffer
  split
  · dsimp only
    exact ⟨(appendNode_stacks _ _ _ _ _).1, (appendNode_stacks _ _ _ _ _).2⟩
  · exact ⟨rfl, rfl⟩

/-- `edgeFromCurrent` appends no warning. -/
theorem edgeFromCurrent_warnings (s : MachineState) (t : String) (ea : EdgeAttributes) :
    (edgeFromCurrent s t ea).warnings = s.warnings := by
  unfold edgeFromCurrent
  split <;> rfl

/-- `appendNode` appends no warning. -/
theorem appendNode_warnings (s : MachineState) (ty tx : String) (a : NodeAttributes)
    (ea : EdgeAttributes) : (appendNode s ty tx a ea).2.warnings = s.warnings := by
  unfold appendNode
  dsimp only
  exact edgeFromCurrent_warnings _ _ _

/-- `flushTextBuffer` appends no warning. -/
theorem flushTextBuffer_warnings (s : MachineState) :
    (flushTextBuffer s).warnings = s.warnings := by
  unfold flushTextBuffer
  split
  · dsimp only
    exact appendNode_warnings _ _ _ _ _
  · rfl

/-- `processGoto` never records any diagnostic: on a label or scene lookup
miss the edge is silently omitted. -/
theorem processGoto_warnings (command target : String) (s : MachineState) :
    (processGoto command target s).warnings = s.warnings := by
  unfold processGoto
  dsimp only
  by_cases hc : command = "goto_scene"
  · rw [if_pos hc]
    dsimp only
    repeat' first
      | exact (appendNode_warnings _ _ _ _ _).trans (flushTextBuffer_warnings s)
      | split
  · rw [if_neg hc]
    dsimp only
    repeat' first
      | exact (appendNode_warnings _ _ _ _ _).trans (flushTextBuffer_warnings s)
      | split

/-- `processReturn` throws exactly on an empty subroutine stack (the inner
`unreachable` throw is dead code: nothing between the check and the pop
touches the stack). -/
theorem processReturn_throws (s : MachineState) :
    (processReturn s).2.isSome = true ↔ s.subroutineStack = [] := by
  unfold processReturn
  dsimp only
  have hf := (flushTextBuffer_stacks s).1
  rcases hss : s.subroutineStack with _ | ⟨a, rest⟩
  · rw [hf.trans hss]
    simp [throwR, hss]
  · rw [hf.trans hss]
    dsimp only
    rw [(edgeFromCurrent_stacks
        (createNode (flushTextBuffer s) "return"
          ("Return at " ++ posStr (flushTextBuffer s).position)).2
        (createNode (flushTextBuffer s) "return"
          ("Return at " ++ posStr (flushTextBuffer s).position)).1 _).1.trans
        (hf.trans hss)]
    simp [okR, hss]

/-- `processElseIf` throws exactly on an empty conditional stack. -/
theorem processElseIf_throws (c : String) (s : MachineState) :
    (processElseIf c s).2.isSome = true ↔ s.conditionalStack = [] := by
  unfold processElseIf
  dsimp only
  have hf := (flushTextBuffer_stacks s).2
  rcases hss : s.conditionalStack with _ | ⟨fr, rest⟩
  · rw [hf.trans hss]
    simp [throwR, hss]
  · rw [hf.trans hss]
    simp [okR, hss]

/-- `processElse` throws exactly on an empty conditional stack. -/
theorem processElse_throws (s : MachineState) :
    (processElse s).2.isSome = true ↔ s.conditionalStack = [] := by
  unfold processElse
  dsimp only
  have hf := (flushTextBuffer_stacks s).2
  rcases hss : s.conditionalStack with _ | ⟨fr, rest⟩
  · rw [hf.trans hss]
    simp [throwR, hss]
  · rw [hf.trans hss]
    simp [okR, hss]

/-- `endConditional` throws exactly on an empty conditional stack. -/
theorem endConditional_throws (s : MachineState) :
    (endConditional s).2.isSome = true ↔ s.conditionalStack = [] := by
  unfold endConditional
  dsimp only
  have hf := (flushTextBuffer_stacks s).2
  rcases hss : s.conditionalStack with _ | ⟨fr, rest⟩
  · rw [hf.trans hss]
    simp [throwR, hss]
  · rw [hf.trans hss]
    simp [okR, hss]

/-- **C8** (idempotence): running `processScene` a second time on the same
scene name is a no-op for the graph — the nodes, edges, entry points and
labels after the second run are exactly those after the first.  For a
scene the provider has, the second call returns the state unchanged (the
processed-scenes set enforces at-most-once); for a missing scene both
calls only append a warning. -/
theorem claim_C8 (sp : SceneProvider) (n : String) (s : MachineState) :
    (processScene sp n (processScene sp n s)).graph.nodes =
      (processScene sp n s).graph.nodes ∧
    (processScene sp n (processScene sp n s)).graph.edges =
      (processScene sp n s).graph.edges ∧
    (processScene sp n (processScene sp n s)).graph.entryPoints =
      (processScene sp n s).graph.entryPoints ∧
    (processScene sp n (processScene sp n s)).graph.labels =
      (processScene sp n s).graph.labels := by
  by_cases hs : sp.hasScene n = true
  · rw [processScene_again sp n (processScene sp n s) hs (processScene_mem sp n s hs)]
    exact ⟨rfl, rfl, rfl, rfl⟩
  · have h1 : processScene sp n s = warn s ("Scene '" ++ n ++ "' not found.") := by
      unfold processScene
      rw [if_pos hs]
    have h2 : processScene sp n (warn s ("Scene '" ++ n ++ "' not found.")) =
        warn (warn s ("Scene '" ++ n ++ "' not found."))
          ("Scene '" ++ n ++ "' not found.") := by
      unfold processScene
      rw [if_pos hs]
    rw [h1, h2]
    exact ⟨rfl, rfl, rfl, rfl⟩

/-- C8 at concrete inputs: the one-scene provider with its `startup`
scene, processed twice from the empty state. -/
theorem claim_C8_witness :
    (processScene spSimple "startup" (processScene spSimple "startup" {})).graph.nodes =
      (processScene spSimple "startup" {}).graph.nodes ∧
    (processScene spSimple "startup" (processScene spSimple "startup" {})).graph.edges =
      (processScene spSimple "startup" {}).graph.edges ∧
    (processScene spSimple "startup" (processScene spSimple "startup" {})).graph.entryPoints =
      (processScene spSimple "startup" {}).graph.entryPoints ∧
    (processScene spSimple "startup" (processScene spSimple "startup" {})).graph.labels =
      (processScene spSimple "startup" {}).graph.labels :=
  claim_C8 spSimple "startup" {}

theorem mapGet_mapSet_self {β : Type} (l : List (String × β)) (k : String) (v : β) :
    mapGet (mapSet l k v) k = some v := by
  induction l with
  | nil => simp [mapSet, mapGet]
  | cons p rest ih =>
    obtain ⟨a, b⟩ := p
    by_cases hak : a = k
    · subst hak
      simp [mapSet, mapGet]
    · simp only [mapSet, if_neg hak, mapGet]
      exact ih

theorem mapGet_mapSet_ne {β : Type} (l : List (String × β)) (k k' : String) (v : β)
    (h : k ≠ k') : mapGet (mapSet l k v) k' = mapGet l k' := by
  induction l with
  | nil => simp only [mapSet, mapGet, if_neg h]
  | cons p rest ih =>
    obtain ⟨a, b⟩ := p
    by_cases hak : a = k
    · subst hak
      simp only [mapSet, if_pos rfl, mapGet]
      rw [if_neg h, if_neg h]
    · simp only [mapSet, if_neg hak, mapGet]
      by_cases hak' : a = k'
      · rw [if_pos hak', if_pos hak']
      · rw [if_neg hak', if_neg hak']
        exact ih

theorem mem_setAdd {l : List String} {x m : String} (h : m ∈ setAdd l x) :
    m ∈ l ∨ m = x := by
  unfold setAdd at h
  split at h
  · exact Or.inl h
  · rcases List.mem_append.mp h with h1 | h1
    · exact Or.inl h1
    · exact Or.inr (List.mem_singleton.mp h1)

theorem length_filter_le_mono {α : Type} (l : List α) (p q : α → Bool)
    (himp : ∀ k, q k = true → p k = true) :
    (l.filter q).length ≤ (l.filter p).length := by
  induction l with
  | nil => simp
  | cons a rest ih =>
    by_cases hqa : q a = true
    · simp only [List.filter_cons, hqa, himp a hqa, if_true, List.length_cons]
      omega
    · have hqa' : q a = false := by simpa using hqa
      by_cases hpa : p a = true
      · simp only [List.filter_cons, hqa', hpa, if_true, Bool.false_eq_true, if_false,
          List.length_cons]
        omega
      · have hpa' : p a = false := by simpa using hpa
        simp only [List.filter_cons, hqa', hpa', Bool.false_eq_true, if_false]
        exact ih

theorem length_filter_lt {α : Type} (l : List α) (p q : α → Bool)
    (himp : ∀ k, q k = true → p k = true) (x : α) (hx : x ∈ l)
    (hpx : p x = true) (hqx : q x = false) :
    (l.filter q).length < (l.filter p).length := by
  induction l with
  | nil => cases hx
  | cons a rest ih =>
    rcases List.mem_cons.mp hx with h1 | h1
    · subst h1
      simp only [List.filter_cons, hpx, hqx, if_true, Bool.false_eq_true, if_false,
        List.length_cons]
      exact Nat.lt_succ_of_le (length_filter_le_mono rest p q himp)
    · by_cases hqa : q a = true
      · simp only [List.filter_cons, hqa, himp a hqa, if_true, List.length_cons]
        exact Nat.succ_lt_succ (ih h1)
      · have hqa' : q a = false := by simpa using hqa
        by_cases hpa : p a = true
        · simp only [List.filter_cons, hqa', hpa, if_true, Bool.false_eq_true, if_false,
            List.length_cons]
          exact Nat.lt_succ_of_lt (ih h1)
        · have hpa' : p a = false := by simpa using hpa
          simp only [List.filter_cons, hqa', hpa', Bool.false_eq_true, if_false]
          exact ih h1

/-- Characterization of a first (run) pass of `processScene`: the scene
name is appended to the processed-scenes list and its entry point is
registered on top of the incoming entry-point map. -/
theorem processScene_run_chr (sp : SceneProvider) (n : String) (s : MachineState)
    (hs : sp.hasScene n = true) (hm : n ∉ s.processedScenes) :
    (processScene sp n s).processedScenes = s.processedScenes ++ [n] ∧
    ∃ eid, (processScene sp n s).graph.entryPoints = mapSet s.graph.entryPoints n eid := by
  unfold processScene
  rw [if_neg (by simp [hs]), if_neg hm]
  dsimp only
  have hsa : setAdd s.processedScenes n = s.processedScenes ++ [n] := by
    unfold setAdd
    rw [if_neg hm]
  have hfacts : ({ s with
      position := { file := n, line := 0 },
      processedScenes := setAdd s.processedScenes n } : MachineState).processedScenes
        = s.processedScenes ++ [n] ∧
      ({ s with
      position := { file := n, line := 0 },
      processedScenes := setAdd s.processedScenes n } : MachineState).graph.entryPoints
        = s.graph.entryPoints := ⟨hsa, rfl⟩
  revert hfacts
  generalize ({ s with
      position := { file := n, line := 0 },
      processedScenes := setAdd s.processedScenes n } : MachineState) = s2
  intro hfacts
  have hcp : (createNode s2 "scene_entry" ("Entry point for " ++ n) {}).2.processedScenes
      = s2.processedScenes := rfl
  have hce : (createNode s2 "scene_entry" ("Entry point for " ++ n) {}).2.graph.entryPoints
      = s2.graph.entryPoints := rfl
  revert hcp hce
  generalize createNode s2 "scene_entry" ("Entry point for " ++ n) = rc
  obtain ⟨eid, st⟩ := rc
  intro hcp hce
  dsimp only at hcp hce ⊢
  by_cases hcur : st.currentNode = none
  · rw [if_pos hcur]
    have hk := (processContent_stepK (sp.loadScene n)
      { st with currentNode := some eid,
                graph := { st.graph with
                  entryPoints := mapSet st.graph.entryPoints n eid } }).1
    revert hk
    generalize processContent (sp.loadScene n)
      { st with currentNode := some eid,
                graph := { st.graph with
                  entryPoints := mapSet st.graph.entryPoints n eid } } = r2
    obtain ⟨sr, er⟩ := r2
    intro hk
    have hps : sr.processedScenes = s.processedScenes ++ [n] :=
      hk.2.2.1.trans (hcp.trans hfacts.1)
    have hpe : sr.graph.entryPoints = mapSet s.graph.entryPoints n eid := by
      refine hk.2.2.2.trans ?_
      show mapSet st.graph.entryPoints n eid = mapSet s.graph.entryPoints n eid
      rw [hce, hfacts.2]
    cases er with
    | none => exact ⟨hps, eid, hpe⟩
    | some e => exact ⟨hps, eid, hpe⟩
  · rw [if_neg hcur]
    have hk := (processContent_stepK (sp.loadScene n)
      { st with graph := { st.graph with
          entryPoints := mapSet st.graph.entryPoints n eid } }).1
    revert hk
    generalize processContent (sp.loadScene n)
      { st with graph := { st.graph with
          entryPoints := mapSet st.graph.entryPoints n eid } } = r2
    obtain ⟨sr, er⟩ := r2
    intro hk
    have hps : sr.processedScenes = s.processedScenes ++ [n] :=
      hk.2.2.1.trans (hcp.trans hfacts.1)
    have hpe : sr.graph.entryPoints = mapSet s.graph.entryPoints n eid := by
      refine hk.2.2.2.trans ?_
      show mapSet st.graph.entryPoints n eid = mapSet s.graph.entryPoints n eid
      rw [hce, hfacts.2]
    cases er with
    | none => exact ⟨hps, eid, hpe⟩
    | some e => exact ⟨hps, eid, hpe⟩

/-- Every processed scene has a registered entry point — the invariant the
discovery phase relies on (`processScene` is the only writer of both). -/
def PSInv (s : MachineState) : Prop :=
  ∀ n ∈ s.processedScenes, (mapGet s.graph.entryPoints n).isSome = true

theorem processScene_psinv (sp : SceneProvider) (n : String) (s : MachineState)
    (h : PSInv s) : PSInv (processScene sp n s) := by
  by_cases hs : sp.hasScene n = true
  · by_cases hm : n ∈ s.processedScenes
    · rw [processScene_again sp n s hs hm]
      exact h
    · obtain ⟨hproc, eid, hent⟩ := processScene_run_chr sp n s hs hm
      intro m hmem
      rw [hent]
      rw [hproc] at hmem
      rcases List.mem_append.mp hmem with h1 | h1
      · by_cases hmn : n = m
        · subst hmn
          rw [mapGet_mapSet_self]
          rfl
        · rw [mapGet_mapSet_ne _ _ _ _ hmn]
          exact h m h1
      · have h2 : m = n := List.mem_singleton.mp h1
        subst h2
        rw [mapGet_mapSet_self]
        rfl
  · have hw : processScene sp n s = warn s ("Scene '" ++ n ++ "' not found.") := by
      unfold processScene
      rw [if_pos hs]
    rw [hw]
    exact h

/-- Number of provider scenes not yet processed — the loop measure. -/
def unprocessedCount (sp : SceneProvider) (s : MachineState) : Nat :=
  ((sp.scenes.map Prod.fst).filter (fun k => decide (k ∉ s.processedScenes))).length

/-- With fuel exceeding the measure, the discovery loop reaches a fixed
point: at the final state either every referenced scene is processed, or
the loop stopped on a reference missing from the provider. -/
theorem processAllLinkedScenesLoop_fixed (sp : SceneProvider) :
    ∀ (fuel : Nat) (s : MachineState), unprocessedCount sp s < fuel →
    (∀ n ∈ sceneRefsOf (processAllLinkedScenesLoop sp fuel s).graph,
        n ∈ (processAllLinkedScenesLoop sp fuel s).processedScenes) ∨
    (∃ n, n ∈ sceneRefsOf (processAllLinkedScenesLoop sp fuel s).graph ∧
        n ∉ (processAllLinkedScenesLoop sp fuel s).processedScenes ∧
        sp.hasScene n = false) := by
  intro fuel
  induction fuel with
  | zero => intro s h; exact absurd h (Nat.not_lt_zero _)
  | succ f ih =>
    intro s h
    unfold processAllLinkedScenesLoop
    dsimp only
    cases hfind : (sceneRefsOf s.graph).find?
        (fun n => decide (n ∉ s.processedScenes)) with
    | none =>
      dsimp only
      rw [if_neg (by simp)]
      left
      intro m hm2
      have h3 := List.find?_eq_none.mp hfind m hm2
      simpa using h3
    | some n =>
      dsimp only
      have hnp : n ∉ s.processedScenes := by simpa using List.find?_some hfind
      have hnm : n ∈ sceneRefsOf s.graph := List.mem_of_find?_eq_some hfind
      by_cases hs : sp.hasScene n = true
      · have hrun := (processScene_run_chr sp n s hs hnp).1
        have hcond : s.processedScenes.length ≠
            (processScene sp n s).processedScenes.length := by
          rw [hrun]
          simp
        rw [if_pos hcond]
        apply ih
        have hkey : n ∈ sp.scenes.map Prod.fst := by
          unfold SceneProvider.hasScene at hs
          obtain ⟨v, hv⟩ := Option.isSome_iff_exists.mp hs
          exact List.mem_map_of_mem Prod.fst (mapGet_mem _ _ _ hv)
        have hlt : unprocessedCount sp (processScene sp n s) < unprocessedCount sp s := by
          unfold unprocessedCount
          refine length_filter_lt _ _ _ ?_ n hkey ?_ ?_
          · intro k hk
            rw [decide_eq_true_eq] at hk ⊢
            rw [hrun] at hk
            exact fun hc => hk (List.mem_append_left _ hc)
          · exact decide_eq_true hnp
          · rw [decide_eq_false_iff_not]
            rw [hrun]
            intro hc
            exact hc (List.mem_append_right _ (List.mem_singleton.mpr rfl))
        omega
      · have hw : processScene sp n s = warn s ("Scene '" ++ n ++ "' not found.") := by
          unfold processScene
          rw [if_pos hs]
        rw [hw]
        rw [if_neg (by simp [warn])]
        right
        exact ⟨n, hnm, hnp, by simpa using hs⟩

/-- The discovery loop preserves the processed-scenes/entry-point link. -/
theorem processAllLinkedScenesLoop_psinv (sp : SceneProvider) :
    ∀ (fuel : Nat) (s : MachineState), PSInv s →
      PSInv (processAllLinkedScenesLoop sp fuel s) := by
  intro fuel
  induction fuel with
  | zero => intro s h; exact h
  | succ f ih =>
    intro s h
    unfold processAllLinkedScenesLoop
    dsimp only
    have hg2 : PSInv (match (sceneRefsOf s.graph).find?
        (fun n => decide (n ∉ s.processedScenes)) with
      | some n => processScene sp n s
      | none => s) := by
      split
      · rename_i n2 heq
        exact processScene_psinv sp n2 s h
      · exact h
    revert hg2
    generalize (match (sceneRefsOf s.graph).find?
        (fun n => decide (n ∉ s.processedScenes)) with
      | some n => processScene sp n s
      | none => s) = s2
    intro hg2
    split
    · exact ih s2 hg2
    · exact hg2

/-- C2 counterexample: in the two-scene game whose `startup` is just
`*goto_scene other`, the scene `other` is the target of a `goto_scene`
node, exists in the provider, and is declared in no scene list — yet after
the full build with recursive processing it is neither processed nor given
an entry point (the discovery scan only reads `*scene_list` nodes). -/
theorem claim_C2_counterexample :
    spGotoOnly.hasScene "other" = true ∧
    (processGame spGotoOnly).graph.nodes.map
      (fun kv => (kv.2.type, kv.2.attributes.sceneName)) =
      [("scene_entry", none), ("goto", some "other")] ∧
    "other" ∉ (processGame spGotoOnly).processedScenes ∧
    mapGet (processGame spGotoOnly).graph.entryPoints "other" = none :=
  ⟨by decide, by decide, by decide, by decide⟩

/-- **C2** (amended): after a full build with recursive processing, the
discovery loop reaches a fixed point over the scenes named in the first
`*scene_list` node (`sceneRefsOf`): either every referenced scene has been
processed, or the loop stopped at a reference missing from the provider;
every processed scene has a registered entry point; and in the concrete
game whose startup declares `other` in a `*scene_list`, `other` is indeed
loaded, processed and given an entry point. -/
theorem claim_C2_amended (sp : SceneProvider) (entry : String) (s : MachineState) :
    ((∀ n ∈ sceneRefsOf (processGame sp entry true s).graph,
        n ∈ (processGame sp entry true s).processedScenes) ∨
     (∃ n, n ∈ sceneRefsOf (processGame sp entry true s).graph ∧
        n ∉ (processGame sp entry true s).processedScenes ∧
        sp.hasScene n = false)) ∧
    (∀ n ∈ (processGame sp entry true s).processedScenes,
      (mapGet (processGame sp entry true s).graph.entryPoints n).isSome = true) ∧
    (processGame spListed).processedScenes = ["startup", "other"] ∧
    (mapGet (processGame spListed).graph.entryPoints "other").isSome = true := by
  refine ⟨?_, ?_, by decide, by decide⟩
  · have hb : unprocessedCount sp (processScene sp entry (resetState s)) <
        sp.scenes.length + 1 := by
      refine Nat.lt_succ_of_le (le_trans (List.length_filter_le _ _) ?_)
      simp
    exact processAllLinkedScenesLoop_fixed sp (sp.scenes.length + 1)
      (processScene sp entry (resetState s)) hb
  · have h0 : PSInv (resetState s) := by
      intro m hm
      simp [resetState] at hm
    exact processAllLinkedScenesLoop_psinv sp (sp.scenes.length + 1)
      (processScene sp entry (resetState s)) (processScene_psinv sp entry _ h0)

/-- C2 amended at concrete inputs. -/
theorem claim_C2_amended_witness :
    ((∀ n ∈ sceneRefsOf (processGame spListed "startup" true {}).graph,
        n ∈ (processGame spListed "startup" true {}).processedScenes) ∨
     (∃ n, n ∈ sceneRefsOf (processGame spListed "startup" true {}).graph ∧
        n ∉ (processGame spListed "startup" true {}).processedScenes ∧
        spListed.hasScene n = false)) ∧
    (∀ n ∈ (processGame spListed "startup" true {}).processedScenes,
      (mapGet (processGame spListed "startup" true {}).graph.entryPoints n).isSome
        = true) ∧
    (processGame spListed).processedScenes = ["startup", "other"] ∧
    (mapGet (processGame spListed).graph.entryPoints "other").isSome = true :=
  claim_C2_amended spListed "startup" {}

/-- C6 counterexample: building the scene `*goto missing_label` completes
without a fatal error and leaves the goto node (`node_2`) with zero
outgoing edges, but the surfaced diagnostics are empty — there is no
`UnresolvedReferenceWarning` (the claimed exactly-one warning is absent). -/
theorem claim_C6_counterexample :
    (processGame spDanglingGoto).caughtErrors = [] ∧
    ((processGame spDanglingGoto).graph.nodes.filter
      (fun kv => kv.2.type = "goto")).map Prod.fst = ["node_2"] ∧
    (processGame spDanglingGoto).graph.edges.filter
      (fun e => e.source = "node_2") = [] ∧
    (processGame spDanglingGoto).warnings = [] := by
  refine ⟨by decide, by decide, by decide, by decide⟩

/-- **C6** (amended): a dangling `*goto` never surfaces any diagnostic:
`processGoto` leaves the warning log untouched in every case, and the
concrete `*goto missing_label` build completes with no caught error, a
goto node with zero outgoing edges, and an empty warning list. -/
theorem claim_C6_amended (command target : String) (s : MachineState) :
    (processGoto command target s).warnings = s.warnings ∧
    ((processGame spDanglingGoto).caughtErrors = [] ∧
     (processGame spDanglingGoto).graph.edges.filter
       (fun e => e.source = "node_2") = [] ∧
     (processGame spDanglingGoto).warnings = []) :=
  ⟨processGoto_warnings command target s, by decide, by decide, by decide⟩

/-- C6 amended at concrete inputs. -/
theorem claim_C6_amended_witness :
    (processGoto "goto" "missing_label" oneNodeState).warnings =
      oneNodeState.warnings ∧
    ((processGame spDanglingGoto).caughtErrors = [] ∧
     (processGame spDanglingGoto).graph.edges.filter
       (fun e => e.source = "node_2") = [] ∧
     (processGame spDanglingGoto).warnings = []) :=
  claim_C6_amended "goto" "missing_label" oneNodeState

/-- C7 counterexample: from a state with empty subroutine and conditional
stacks (no structural mismatch pending), processing `*set` with malformed
arguments raises a fatal builder error — so fatal errors are not raised
only on structural mismatches. -/
theorem claim_C7_counterexample :
    oneNodeState.subroutineStack = [] ∧
    oneNodeState.conditionalStack = [] ∧
    (processCommand "*set" oneNodeState).2.isSome = true :=
  ⟨rfl, rfl, by decide⟩

/-- **C7** (amended): the four structural commands raise exactly on a
structural mismatch — `processReturn` throws iff the subroutine stack is
empty, and `processElseIf`, `processElse` and `endConditional` throw iff
the conditional stack is empty (the original claim's converse direction
fails: other commands, e.g. `*set` with bad arguments, also throw). -/
theorem claim_C7_amended (c : String) (s : MachineState) :
    ((processReturn s).2.isSome = true ↔ s.subroutineStack = []) ∧
    ((processElseIf c s).2.isSome = true ↔ s.conditionalStack = []) ∧
    ((processElse s).2.isSome = true ↔ s.conditionalStack = []) ∧
    ((endConditional s).2.isSome = true ↔ s.conditionalStack = []) :=
  ⟨processReturn_throws s, processElseIf_throws c s, processElse_throws s,
   endConditional_throws s⟩

/-- A builder command that cannot open or close a conditional and cannot
throw — the body vocabulary of an if/elseif/else construct "with no
nesting inside its branches". -/
inductive SimpleCmd where
  | text (t : String)
  | goto (target : String)
  | gotoScene (target : String)
  | label (name : String)
  | finish (args : String)
  | pageBreak (args : String)
  | title (t : String)
  | author (t : String)

/-- Run one branch-body command through the corresponding handler. -/
def runSimple : SimpleCmd → MachineState → MachineState
  | .text t, s => appendTextBuffer s t
  | .goto t, s => processGoto "goto" t s
  | .gotoScene t, s => processGoto "goto_scene" t s
  | .label n, s => processLabel n s
  | .finish a, s => processFinish a s
  | .pageBreak a, s => processPageBreak a s
  | .title t, s => processTitle t s
  | .author t, s => processAuthor t s

def runBody (body : List SimpleCmd) (s : MachineState) : MachineState :=
  body.foldl (fun acc c => runSimple c acc) s

/-- The elseif cascade: each `*elseif` followed by its branch body. -/
def runElseifs : List (String × List SimpleCmd) → MachineState → BuildR
  | [], s => okR s
  | (c, b) :: rest, s =>
    bindR (processElseIf c s) (fun t => runElseifs rest (runBody b t))

/-- One whole `*if`/`*elseif*`/`*else?`/`*endif` construct, run through the
builder's own handlers. -/
def runConstruct (cond : String) (b0 : List SimpleCmd)
    (elseifs : List (String × List SimpleCmd)) (els : Option (List SimpleCmd))
    (s : MachineState) : BuildR :=
  bindR (runElseifs elseifs (runBody b0 (startConditional cond s)))
    (fun t2 =>
      bindR (match els with
             | some b => bindR (processElse t2) (fun u => okR (runBody b u))
             | none => okR t2)
        endConditional)

/-- The running disjunction the builder keeps in the frame's `condition`
field: `(…((c0) or (c1)) or … ) or (ck)`. -/
def accCond (c0 : String) (cs : List String) : String :=
  cs.foldl (fun a c => "(" ++ a ++ ") or (" ++ c ++ ")") c0

/-- `edgeFromCurrent` only appends edges. -/
theorem edgeFromCurrent_edges (s : MachineState) (t : String) (ea : EdgeAttributes) :
    ∀ e ∈ s.graph.edges, e ∈ (edgeFromCurrent s t ea).graph.edges := by
  unfold edgeFromCurrent
  split
  · exact fun e he => List.mem_append_left _ he
  · exact fun e he => he

/-- `appendNode` only appends edges. -/
theorem appendNode_edges (s : MachineState) (ty tx : String) (a : NodeAttributes)
    (ea : EdgeAttributes) :
    ∀ e ∈ s.graph.edges, e ∈ (appendNode s ty tx a ea).2.graph.edges := by
  unfold appendNode
  dsimp only
  exact fun e he => edgeFromCurrent_edges _ _ _ e he

/-- `flushTextBuffer` only appends edges. -/
theorem flushTextBuffer_edges (s : MachineState) :
    ∀ e ∈ s.graph.edges, e ∈ (flushTextBuffer s).graph.edges := by
  unfold flushTextBuffer
  split
  · dsimp only
    exact fun e he => appendNode_edges _ _ _ _ _ e he
  · exact fun e he => he

set_option maxHeartbeats 1000000 in
/-- `processGoto` keeps the conditional stack and only appends edges. -/
theorem processGoto_frame (command target : String) (s : MachineState) :
    (processGoto command target s).conditionalStack = s.conditionalStack ∧
    (∀ e ∈ s.graph.edges, e ∈ (processGoto command target s).graph.edges) := by
  unfold processGoto
  by_cases hc : command = "goto_scene"
  · rw [if_pos hc]
    dsimp only
    repeat' first
      | exact ⟨(appendNode_stacks _ _ _ _ _).2.trans (flushTextBuffer_stacks s).2,
          fun e he => List.mem_append_left _
            (appendNode_edges _ _ _ _ _ e (flushTextBuffer_edges s e he))⟩
      | exact ⟨(appendNode_stacks _ _ _ _ _).2.trans (flushTextBuffer_stacks s).2,
          fun e he => appendNode_edges _ _ _ _ _ e (flushTextBuffer_edges s e he)⟩
      | split
  · rw [if_neg hc]
    dsimp only
    repeat' first
      | exact ⟨(appendNode_stacks _ _ _ _ _).2.trans (flushTextBuffer_stacks s).2,
          fun e he => List.mem_append_left _
            (appendNode_edges _ _ _ _ _ e (flushTextBuffer_edges s e he))⟩
      | exact ⟨(appendNode_stacks _ _ _ _ _).2.trans (flushTextBuffer_stacks s).2,
          fun e he => appendNode_edges _ _ _ _ _ e (flushTextBuffer_edges s e he)⟩
      | split

/-- Every simple branch-body command keeps the conditional stack and only
appends edges. -/
theorem runSimple_frame (c : SimpleCmd) (s : MachineState) :
    (runSimple c s).conditionalStack = s.conditionalStack ∧
    (∀ e ∈ s.graph.edges, e ∈ (runSimple c s).graph.edges) := by
  cases c with
  | text t => exact ⟨rfl, fun e he => he⟩
  | goto t => exact processGoto_frame "goto" t s
  | gotoScene t => exact processGoto_frame "goto_scene" t s
  | label n =>
    exact ⟨(appendNode_stacks _ _ _ _ _).2.trans (flushTextBuffer_stacks s).2,
      fun e he => appendNode_edges _ _ _ _ _ e (flushTextBuffer_edges s e he)⟩
  | finish a =>
    exact ⟨(appendNode_stacks _ _ _ _ _).2.trans (flushTextBuffer_stacks s).2,
      fun e he => appendNode_edges _ _ _ _ _ e (flushTextBuffer_edges s e he)⟩
  | pageBreak a =>
    exact ⟨(edgeFromCurrent_stacks _ _ _).2.trans (flushTextBuffer_stacks s).2,
      fun e he => List.mem_append_left _
        (edgeFromCurrent_edges _ _ _ e (flushTextBuffer_edges s e he))⟩
  | title t =>
    exact ⟨(appendNode_stacks _ _ _ _ _).2,
      fun e he => appendNode_edges _ _ _ _ _ e he⟩
  | author t =>
    exact ⟨(appendNode_stacks _ _ _ _ _).2,
      fun e he => appendNode_edges _ _ _ _ _ e he⟩

/-- Every simple branch-body command is a valid builder step. -/
theorem runSimple_stepK (c : SimpleCmd) (s : MachineState) :
    StepOkK s (runSimple c s) := by
  cases c with
  | text t => exact StepOkK_cosmetic rfl rfl rfl rfl rfl rfl rfl rfl rfl rfl
  | goto t => exact processGoto_stepK "goto" t s
  | gotoScene t => exact processGoto_stepK "goto_scene" t s
  | label n => exact processLabel_stepK n s
  | finish a => exact processFinish_stepK a s
  | pageBreak a => exact processPageBreak_stepK a s
  | title t => exact processTitle_stepK t s
  | author t => exact processAuthor_stepK t s

theorem runBody_stepK (b : List SimpleCmd) : ∀ s : MachineState, StepOkK s (runBody b s) := by
  induction b with
  | nil => exact fun s => StepOkK.refl s
  | cons c cs ih =>
    intro s
    show StepOkK s (runBody cs (runSimple c s))
    exact StepOkK.trans (runSimple_stepK c s) (ih _)

theorem runBody_frame (b : List SimpleCmd) : ∀ s : MachineState,
    (runBody b s).conditionalStack = s.conditionalStack ∧
    (∀ e ∈ s.graph.edges, e ∈ (runBody b s).graph.edges) := by
  induction b with
  | nil => exact fun s => ⟨rfl, fun e he => he⟩
  | cons c cs ih =>
    intro s
    refine ⟨?_, ?_⟩
    · show (runBody cs (runSimple c s)).conditionalStack = s.conditionalStack
      exact (ih _).1.trans (runSimple_frame c s).1
    · intro e he
      show e ∈ (runBody cs (runSimple c s)).graph.edges
      exact (ih _).2 e ((runSimple_frame c s).2 e he)

theorem foldl_addEdge_mono (mid : String) : ∀ (ends : List String) (s : MachineState)
    (e : Edge), e ∈ s.graph.edges →
    e ∈ ((ends.foldl (fun acc endNode => addEdge acc endNode mid) s)).graph.edges := by
  intro ends
  induction ends with
  | nil => exact fun s e he => he
  | cons en es ih =>
    intro s e he
    rw [List.foldl_cons]
    exact ih _ e (List.mem_append_left _ he)

theorem foldl_addEdge_count (mid : String) : ∀ (ends : List String) (s : MachineState),
    (((ends.foldl (fun acc endNode => addEdge acc endNode mid) s)).graph.edges.filter
        (fun e => e.target = mid)).length
      = (s.graph.edges.filter (fun e => e.target = mid)).length + ends.length := by
  intro ends
  induction ends with
  | nil => intro s; simp
  | cons en es ih =>
    intro s
    rw [List.foldl_cons, ih]
    have h1 : ((addEdge s en mid {}).graph.edges.filter
        (fun e => decide (e.target = mid))).length
        = (s.graph.edges.filter (fun e => decide (e.target = mid))).length + 1 := by
      simp [addEdge, List.filter_append]
    rw [h1]
    simp [Nat.add_assoc, Nat.add_comm 1]

/-- What `startConditional` does to the conditional stack: pushes a frame
recording the (flushed) pre-if cursor, with no branch ends yet; the cursor
moves onto the new `conditional` node. -/
theorem startConditional_chr (c : String) (s : MachineState) :
    (startConditional c s).conditionalStack =
      { condition := c, nodeBeforeIf := (flushTextBuffer s).currentNode.getD "",
        branchEndNodes := [] } :: s.conditionalStack ∧
    (startConditional c s).currentNode.isSome = true := by
  unfold startConditional
  dsimp only
  constructor
  · refine ((appendNode_stacks _ _ _ _ _).2).trans ?_
    show ({ condition := c,
            nodeBeforeIf := (flushTextBuffer s).currentNode.getD "",
            branchEndNodes := [] } : ConditionalState) ::
        (flushTextBuffer s).conditionalStack = _
    rw [(flushTextBuffer_stacks s).2]
  · rfl

/-- What `processElseIf` does from a state with an open frame and a live
cursor: no throw; the frame gains one branch end and its condition grows
by one disjunct; a new edge leaves the original pre-if node carrying
`not(previous) and (condition)`; old edges persist. -/
theorem processElseIf_chr (c : String) (s : MachineState) (fr : ConditionalState)
    (rest : List ConditionalState)
    (hst : s.conditionalStack = fr :: rest) (hs : s.currentNode.isSome = true) :
    (processElseIf c s).2 = none ∧
    (∃ be, (processElseIf c s).1.conditionalStack =
      { condition := "(" ++ fr.condition ++ ") or (" ++ c ++ ")",
        nodeBeforeIf := fr.nodeBeforeIf,
        branchEndNodes := fr.branchEndNodes ++ [be] } :: rest) ∧
    (processElseIf c s).1.currentNode.isSome = true ∧
    (∃ e ∈ (processElseIf c s).1.graph.edges,
      e.source = fr.nodeBeforeIf ∧
      e.attributes.condition =
        some ("not(" ++ fr.condition ++ ")" ++ " and (" ++ c ++ ")")) ∧
    (∀ e ∈ s.graph.edges, e ∈ (processElseIf c s).1.graph.edges) := by
  unfold processElseIf
  dsimp only
  obtain ⟨cn0, hcn0⟩ := Option.isSome_iff_exists.mp ((flushTextBuffer_stepK s).1.2.1 hs)
  rw [(flushTextBuffer_stacks s).2.trans hst]
  dsimp only
  rw [hcn0]
  dsimp only
  refine ⟨rfl, ⟨cn0, rfl⟩, rfl, ?_, ?_⟩
  · refine ⟨_, List.mem_append_right _ (List.mem_singleton.mpr rfl), ?_, ?_⟩
    · rfl
    · rfl
  · exact fun e he => List.mem_append_left _ (flushTextBuffer_edges s e he)

/-- What `processElse` does from a state with an open frame and a live
cursor: no throw; the frame gains one branch end (condition unchanged); a
new edge leaves the original pre-if node carrying `not(condition)`; old
edges persist. -/
theorem processElse_chr (s : MachineState) (fr : ConditionalState)
    (rest : List ConditionalState)
    (hst : s.conditionalStack = fr :: rest) (hs : s.currentNode.isSome = true) :
    (processElse s).2 = none ∧
    (∃ be, (processElse s).1.conditionalStack =
      { condition := fr.condition, nodeBeforeIf := fr.nodeBeforeIf,
        branchEndNodes := fr.branchEndNodes ++ [be] } :: rest) ∧
    (processElse s).1.currentNode.isSome = true ∧
    (∃ e ∈ (processElse s).1.graph.edges,
      e.source = fr.nodeBeforeIf ∧
      e.attributes.condition = some ("not(" ++ fr.condition ++ ")")) ∧
    (∀ e ∈ s.graph.edges, e ∈ (processElse s).1.graph.edges) := by
  unfold processElse
  dsimp only
  obtain ⟨cn0, hcn0⟩ := Option.isSome_iff_exists.mp ((flushTextBuffer_stepK s).1.2.1 hs)
  rw [(flushTextBuffer_stacks s).2.trans hst]
  dsimp only
  rw [hcn0]
  dsimp only
  refine ⟨rfl, ⟨cn0, rfl⟩, rfl, ?_, ?_⟩
  · refine ⟨_, List.mem_append_right _ (List.mem_singleton.mpr rfl), ?_, ?_⟩
    · rfl
    · rfl
  · exact fun e he => List.mem_append_left _ (flushTextBuffer_edges s e he)

/-- What `endConditional` does from a well-formed state with an open frame
and a live cursor: no throw; the merge node it creates is fresh, receives
exactly one edge per recorded branch end plus one from the cursor, and
becomes the cursor; old edges persist. -/
theorem endConditional_chr (s : MachineState) (fr : ConditionalState)
    (rest : List ConditionalState)
    (hst : s.conditionalStack = fr :: rest) (hs : s.currentNode.isSome = true)
    (hg : CInv s) :
    (endConditional s).2 = none ∧
    ∃ mid, (endConditional s).1.currentNode = some mid ∧
      ((endConditional s).1.graph.edges.filter (fun e => e.target = mid)).length
        = fr.branchEndNodes.length + 1 ∧
      (∀ e ∈ s.graph.edges, e ∈ (endConditional s).1.graph.edges) := by
  unfold endConditional
  dsimp only
  obtain ⟨cn0, hcn0⟩ := Option.isSome_iff_exists.mp ((flushTextBuffer_stepK s).1.2.1 hs)
  rw [(flushTextBuffer_stacks s).2.trans hst]
  dsimp only
  rw [hcn0]
  dsimp only
  have hginv : GInv (flushTextBuffer s) := (flushTextBuffer_stepK s).1.1 hg
  have hzero : ((flushTextBuffer s).graph.edges.filter
      (fun e => e.target = "node_" ++ toString ((flushTextBuffer s).nodeIdCounter + 1))).length
        = 0 := by
    rw [List.length_eq_zero, List.filter_eq_nil]
    intro e he heq
    rw [decide_eq_true_eq] at heq
    have h1 := (GInv_edges hginv e he).2
    have h2 := GInv_pool hginv _ h1
    rw [heq] at h2
    exact nodeIdPool_fresh _ h2
  have hmid : (createNode
      ({ flushTextBuffer s with currentNode := some cn0, conditionalStack := rest })
      "merge" ("End of conditional at " ++ posStr (flushTextBuffer s).position)).1
        = "node_" ++ toString ((flushTextBuffer s).nodeIdCounter + 1) := rfl
  have hcp : (createNode
      ({ flushTextBuffer s with currentNode := some cn0, conditionalStack := rest })
      "merge" ("End of conditional at " ++ posStr (flushTextBuffer s).position)).2.graph.edges
        = (flushTextBuffer s).graph.edges := rfl
  revert hmid hcp
  generalize createNode
      ({ flushTextBuffer s with currentNode := some cn0, conditionalStack := rest })
      "merge" ("End of conditional at " ++ posStr (flushTextBuffer s).position) = rc
  obtain ⟨mid, st⟩ := rc
  intro hmid hcp
  dsimp only at hmid hcp ⊢
  have hcount : (((fr.branchEndNodes ++ [cn0]).foldl
      (fun acc endNode => addEdge acc endNode mid) st).graph.edges.filter
        (fun e => e.target = mid)).length = fr.branchEndNodes.length + 1 := by
    rw [foldl_addEdge_count, hcp, hmid, hzero]
    simp
  have hmono : ∀ e ∈ s.graph.edges,
      e ∈ ((fr.branchEndNodes ++ [cn0]).foldl
        (fun acc endNode => addEdge acc endNode mid) st).graph.edges := by
    intro e he
    refine foldl_addEdge_mono mid _ _ e ?_
    rw [hcp]
    exact flushTextBuffer_edges s e he
  split
  · exact ⟨rfl, ⟨mid, rfl, hcount, hmono⟩⟩
  · exact ⟨rfl, ⟨mid, rfl, hcount, hmono⟩⟩

/-- A builder result with no pending exception continues into the next
operation. -/
theorem bindR_none (r : BuildR) (f : MachineState → BuildR) (h : r.2 = none) :
    bindR r f = f r.1 := by
  obtain ⟨a, b⟩ := r
  dsimp only at h
  subst h
  rfl

/-- Invariant of the elseif cascade: no step throws; the frame keeps the
original pre-if node, gains one branch end per `*elseif` and accumulates
the disjunction of the seen conditions; each `*elseif` leaves an edge from
the pre-if node whose condition negates everything seen before it; edges
persist. -/
theorem runElseifs_chr (n0 : String) (rest0 : List ConditionalState) :
    ∀ (es : List (String × List SimpleCmd)) (c0 : String) (bes : List String)
      (u : MachineState),
      CInv u →
      u.conditionalStack =
        { condition := c0, nodeBeforeIf := n0, branchEndNodes := bes } :: rest0 →
      (runElseifs es u).2 = none ∧
      CInv (runElseifs es u).1 ∧
      (∃ bes2 : List String, bes2.length = bes.length + es.length ∧
        (runElseifs es u).1.conditionalStack =
          { condition := accCond c0 (es.map Prod.fst), nodeBeforeIf := n0,
            branchEndNodes := bes2 } :: rest0) ∧
      (∀ i, i < es.length →
        ∃ e ∈ (runElseifs es u).1.graph.edges,
          e.source = n0 ∧
          e.attributes.condition =
            some ("not(" ++ accCond c0 ((es.map Prod.fst).take i) ++ ")" ++
              " and (" ++ (es.map Prod.fst).getD i "" ++ ")")) ∧
      (∀ e ∈ u.graph.edges, e ∈ (runElseifs es u).1.graph.edges) := by
  intro es
  induction es with
  | nil =>
    intro c0 bes u hc hst
    exact ⟨rfl, hc, ⟨bes, rfl, hst⟩,
      fun i hi => absurd hi (Nat.not_lt_zero i), fun e he => he⟩
  | cons cb es ih =>
    obtain ⟨c, b⟩ := cb
    intro c0 bes u hc hst
    have h1 := processElseIf_chr c u
      { condition := c0, nodeBeforeIf := n0, branchEndNodes := bes } rest0 hst hc.2
    obtain ⟨hok1, ⟨be, hst1⟩, hcur1, ⟨e1, he1, hsrc1, hcond1⟩, hmono1⟩ := h1
    have hct : CInv (processElseIf c u).1 := (processElseIf_stepK c u).1.cinv hc
    have hunf : runElseifs ((c, b) :: es) u =
        bindR (processElseIf c u) (fun t => runElseifs es (runBody b t)) := rfl
    rw [hunf, bindR_none _ _ hok1]
    have hbf := runBody_frame b (processElseIf c u).1
    have hcv : CInv (runBody b (processElseIf c u).1) :=
      (runBody_stepK b _).1.cinv hct
    have hstv : (runBody b (processElseIf c u).1).conditionalStack =
        { condition := "(" ++ c0 ++ ") or (" ++ c ++ ")", nodeBeforeIf := n0,
          branchEndNodes := bes ++ [be] } :: rest0 := hbf.1.trans hst1
    have hrec := ih ("(" ++ c0 ++ ") or (" ++ c ++ ")") (bes ++ [be])
      (runBody b (processElseIf c u).1) hcv hstv
    obtain ⟨hok2, hcinv2, ⟨bes2, hlen2, hst2⟩, hedges2, hmono2⟩ := hrec
    refine ⟨hok2, hcinv2, ⟨bes2, ?_, hst2⟩, ?_, ?_⟩
    · rw [hlen2]
      simp [List.length_append]
      omega
    · intro i hi
      cases i with
      | zero =>
        exact ⟨e1, hmono2 e1 (hbf.2 e1 he1), hsrc1, hcond1⟩
      | succ j =>
        have hj : j < es.length := by
          simpa using Nat.lt_of_succ_lt_succ (by simpa using hi)
        obtain ⟨e, he, hs', hc'⟩ := hedges2 j hj
        exact ⟨e, he, hs', hc'⟩
    · intro e he
      exact hmono2 e (hbf.2 e (hmono1 e he))

/-- Closing the construct: the optional `*else` plus `*endif` from a state
whose frame records `bes2` branch ends; the merge node receives one edge
per recorded end, plus the running branch, plus one more when an else
branch ran. -/
theorem finishConstruct_spec (n0 : String) (rest0 : List ConditionalState)
    (els : Option (List SimpleCmd)) (t3 : MachineState) (c3 : String)
    (bes2 : List String) (hcinv3 : CInv t3)
    (hst3 : t3.conditionalStack =
      { condition := c3, nodeBeforeIf := n0, branchEndNodes := bes2 } :: rest0) :
    (bindR (match els with
            | some b => bindR (processElse t3) (fun u => okR (runBody b u))
            | none => okR t3) endConditional).2 = none ∧
    ∃ mid, (bindR (match els with
            | some b => bindR (processElse t3) (fun u => okR (runBody b u))
            | none => okR t3) endConditional).1.currentNode = some mid ∧
      ((bindR (match els with
            | some b => bindR (processElse t3) (fun u => okR (runBody b u))
            | none => okR t3) endConditional).1.graph.edges.filter
        (fun e => e.target = mid)).length
        = bes2.length + 1 + (if els.isSome then 1 else 0) ∧
      (∀ e ∈ t3.graph.edges, e ∈ (bindR (match els with
            | some b => bindR (processElse t3) (fun u => okR (runBody b u))
            | none => okR t3) endConditional).1.graph.edges) ∧
      (els.isSome = true → ∃ e ∈ (bindR (match els with
            | some b => bindR (processElse t3) (fun u => okR (runBody b u))
            | none => okR t3) endConditional).1.graph.edges,
        e.source = n0 ∧
        e.attributes.condition = some ("not(" ++ c3 ++ ")")) := by
  cases els with
  | none =>
    dsimp only [okR, bindR]
    have hend := endConditional_chr t3 _ _ hst3 hcinv3.2 hcinv3
    obtain ⟨hok4, mid, hcur4, hcount4, hmono4⟩ := hend
    refine ⟨hok4, mid, hcur4, ?_, hmono4, ?_⟩
    · rw [hcount4]
      simp
    · intro hfalse
      cases hfalse
  | some b =>
    dsimp only
    have hel := processElse_chr t3 _ _ hst3 hcinv3.2
    obtain ⟨hok5, ⟨be5, hst5⟩, hcur5, ⟨e5, he5, hsrc5, hcond5⟩, hmono5⟩ := hel
    rw [bindR_none _ _ hok5]
    dsimp only [okR, bindR]
    have hcinv5 : CInv (processElse t3).1 := (processElse_stepK t3).1.cinv hcinv3
    have hbf := runBody_frame b (processElse t3).1
    have hc6 : CInv (runBody b (processElse t3).1) :=
      (runBody_stepK b _).1.cinv hcinv5
    have hst6 : (runBody b (processElse t3).1).conditionalStack =
        { condition := c3, nodeBeforeIf := n0,
          branchEndNodes := bes2 ++ [be5] } :: rest0 := hbf.1.trans hst5
    have hend := endConditional_chr _ _ _ hst6 hc6.2 hc6
    obtain ⟨hok4, mid, hcur4, hcount4, hmono4⟩ := hend
    refine ⟨hok4, mid, hcur4, ?_, ?_, ?_⟩
    · rw [hcount4]
      simp [List.length_append]
    · intro e he
      exact hmono4 e (hbf.2 e (hmono5 e he))
    · intro htrue
      exact ⟨e5, hmono4 e5 (hbf.2 e5 he5), hsrc5, hcond5⟩

/-- Full construct run: the facts claims C4 and C5 read off. -/
theorem runConstruct_spec (cond : String) (b0 : List SimpleCmd)
    (elseifs : List (String × List SimpleCmd)) (els : Option (List SimpleCmd))
    (s : MachineState) (hc : CInv s) :
    (runConstruct cond b0 elseifs els s).2 = none ∧
    (∃ mid, (runConstruct cond b0 elseifs els s).1.currentNode = some mid ∧
      ((runConstruct cond b0 elseifs els s).1.graph.edges.filter
        (fun e => e.target = mid)).length
        = 1 + elseifs.length + (if els.isSome then 1 else 0)) ∧
    (∀ i, i < elseifs.length →
      ∃ e ∈ (runConstruct cond b0 elseifs els s).1.graph.edges,
        e.source = (flushTextBuffer s).currentNode.getD "" ∧
        e.attributes.condition =
          some ("not(" ++ accCond cond ((elseifs.map Prod.fst).take i) ++ ")" ++
            " and (" ++ (elseifs.map Prod.fst).getD i "" ++ ")")) ∧
    (els.isSome = true →
      ∃ e ∈ (runConstruct cond b0 elseifs els s).1.graph.edges,
        e.source = (flushTextBuffer s).currentNode.getD "" ∧
        e.attributes.condition =
          some ("not(" ++ accCond cond (elseifs.map Prod.fst) ++ ")")) := by
  unfold runConstruct
  have hsc := startConditional_chr cond s
  have hc1 : CInv (startConditional cond s) := (startConditional_stepK cond s).1.cinv hc
  have hb0 := runBody_frame b0 (startConditional cond s)
  have hc2 : CInv (runBody b0 (startConditional cond s)) :=
    (runBody_stepK b0 _).1.cinv hc1
  have hst2 : (runBody b0 (startConditional cond s)).conditionalStack =
      { condition := cond, nodeBeforeIf := (flushTextBuffer s).currentNode.getD "",
        branchEndNodes := [] } :: s.conditionalStack := hb0.1.trans hsc.1
  have hrun := runElseifs_chr ((flushTextBuffer s).currentNode.getD "")
    s.conditionalStack elseifs cond [] (runBody b0 (startConditional cond s)) hc2 hst2
  obtain ⟨hok3, hcinv3, ⟨bes2, hlen2, hst3⟩, hedges3, hmono3⟩ := hrun
  rw [bindR_none _ _ hok3]
  have hfin := finishConstruct_spec ((flushTextBuffer s).currentNode.getD "")
    s.conditionalStack els
    (runElseifs elseifs (runBody b0 (startConditional cond s))).1
    (accCond cond (elseifs.map Prod.fst)) bes2 hcinv3 hst3
  obtain ⟨hok4, mid, hcur4, hcount4, hmono4, helse4⟩ := hfin
  refine ⟨hok4, ⟨mid, hcur4, ?_⟩, ?_, helse4⟩
  · rw [hcount4, hlen2]
    simp only [List.length_nil]
    omega
  · intro i hi
    obtain ⟨e, he, hs', hc'⟩ := hedges3 i hi
    exact ⟨e, hmono4 e he, hs', hc'⟩

/-- The spec's C5 scenario: an `*if`/`*else` pair around two
`*goto_scene` branches. -/
def spIfElse : SceneProvider :=
  { scenes := [("startup",
      "*if (gold > 5)\n  *goto_scene rich\n*else\n  *goto_scene poor\n*endif")] }

/-- **C4** (branch counting): for every if/elseif*/else?/endif construct
run through the builder with no nesting inside its branches
(`runConstruct` over `SimpleCmd` bodies), starting from any well-formed
state with a live cursor, no step throws and the merge node created at
`*endif` receives exactly `1 + (number of elseif branches) + (1 if an
else branch is present)` incoming edges; concretely, the if/else scenario
build gives its `merge` node exactly 2 incoming edges. -/
theorem claim_C4 (cond : String) (b0 : List SimpleCmd)
    (elseifs : List (String × List SimpleCmd)) (els : Option (List SimpleCmd))
    (s : MachineState) (hc : CInv s) :
    ((runConstruct cond b0 elseifs els s).2 = none ∧
     ∃ mid, (runConstruct cond b0 elseifs els s).1.currentNode = some mid ∧
       ((runConstruct cond b0 elseifs els s).1.graph.edges.filter
         (fun e => e.target = mid)).length
         = 1 + elseifs.length + (if els.isSome then 1 else 0)) ∧
    ((processGame spIfElse).graph.edges.filter
      (fun e => e.target = "node_6")).length = 2 ∧
    (mapGet (processGame spIfElse).graph.nodes "node_6").map Node.type
      = some "merge" := by
  have h := runConstruct_spec cond b0 elseifs els s hc
  exact ⟨⟨h.1, h.2.1⟩, by decide, by decide⟩

/-- C4 at concrete inputs: a one-elseif construct with an else branch run
from the one-node state (3 = 1 + 1 elseif + 1 else), plus the scenario
facts. -/
theorem claim_C4_witness :
    ((runConstruct "(gold > 5)" [SimpleCmd.gotoScene "rich"]
        [("(gold < 2)", [SimpleCmd.text "poor"])] (some [SimpleCmd.finish ""])
        oneNodeState).2 = none ∧
     ∃ mid, (runConstruct "(gold > 5)" [SimpleCmd.gotoScene "rich"]
        [("(gold < 2)", [SimpleCmd.text "poor"])] (some [SimpleCmd.finish ""])
        oneNodeState).1.currentNode = some mid ∧
       ((runConstruct "(gold > 5)" [SimpleCmd.gotoScene "rich"]
        [("(gold < 2)", [SimpleCmd.text "poor"])] (some [SimpleCmd.finish ""])
        oneNodeState).1.graph.edges.filter
         (fun e => e.target = mid)).length = 3) ∧
    ((processGame spIfElse).graph.edges.filter
      (fun e => e.target = "node_6")).length = 2 ∧
    (mapGet (processGame spIfElse).graph.nodes "node_6").map Node.type
      = some "merge" :=
  claim_C4 "(gold > 5)" [SimpleCmd.gotoScene "rich"]
    [("(gold < 2)", [SimpleCmd.text "poor"])] (some [SimpleCmd.finish ""])
    oneNodeState oneNodeState_cinv

/-- **C5** (branch conditions): in every if/elseif*/else? cascade, the
i-th `*elseif` node is linked by an edge from the original pre-if node
whose condition is `not(<disjunction of all previously seen conditions>)
and (<its own condition>)`, and the `*else` edge carries
`not(<disjunction of all prior conditions>)`; in particular the concrete
if/else scenario yields two branch nodes with complementary conditions
`(gold > 5)` / `not((gold > 5))`, both reached from the pre-if node and
both edging into one `merge` node. -/
theorem claim_C5 (cond : String) (b0 : List SimpleCmd)
    (elseifs : List (String × List SimpleCmd)) (els : Option (List SimpleCmd))
    (s : MachineState) (hc : CInv s) :
    (∀ i, i < elseifs.length →
      ∃ e ∈ (runConstruct cond b0 elseifs els s).1.graph.edges,
        e.source = (flushTextBuffer s).currentNode.getD "" ∧
        e.attributes.condition =
          some ("not(" ++ accCond cond ((elseifs.map Prod.fst).take i) ++ ")" ++
            " and (" ++ (elseifs.map Prod.fst).getD i "" ++ ")")) ∧
    (els.isSome = true →
      ∃ e ∈ (runConstruct cond b0 elseifs els s).1.graph.edges,
        e.source = (flushTextBuffer s).currentNode.getD "" ∧
        e.attributes.condition =
          some ("not(" ++ accCond cond (elseifs.map Prod.fst) ++ ")")) ∧
    ((processGame spIfElse).graph.nodes.map
       (fun kv => (kv.1, kv.2.type, kv.2.attributes.condition)) =
      [("node_1", "scene_entry", none), ("node_2", "conditional", some "(gold > 5)"),
       ("node_3", "goto", none), ("node_4", "conditional", some "not((gold > 5))"),
       ("node_5", "goto", none), ("node_6", "merge", none)]) ∧
    ((processGame spIfElse).graph.edges.map
       (fun e => (e.source, e.target, e.attributes.condition)) =
      [("node_1", "node_2", some "(gold > 5)"), ("node_2", "node_3", none),
       ("node_1", "node_4", some "not((gold > 5))"), ("node_4", "node_5", none),
       ("node_3", "node_6", none), ("node_5", "node_6", none)]) := by
  have h := runConstruct_spec cond b0 elseifs els s hc
  exact ⟨h.2.2.1, h.2.2.2, by decide, by decide⟩

/-- C5 at concrete inputs: the same one-elseif construct with an else
branch from the one-node state, plus the scenario facts. -/
theorem claim_C5_witness :
    (∀ i, i < ([("(gold < 2)", [SimpleCmd.text "poor"])] :
        List (String × List SimpleCmd)).length →
      ∃ e ∈ (runConstruct "(gold > 5)" [SimpleCmd.gotoScene "rich"]
          [("(gold < 2)", [SimpleCmd.text "poor"])] (some [SimpleCmd.finish ""])
          oneNodeState).1.graph.edges,
        e.source = (flushTextBuffer oneNodeState).currentNode.getD "" ∧
        e.attributes.condition =
          some ("not(" ++ accCond "(gold > 5)"
              ((([("(gold < 2)", [SimpleCmd.text "poor"])] :
                List (String × List SimpleCmd)).map Prod.fst).take i) ++ ")" ++
            " and (" ++ (([("(gold < 2)", [SimpleCmd.text "poor"])] :
                List (String × List SimpleCmd)).map Prod.fst).getD i "" ++ ")")) ∧
    ((some [SimpleCmd.finish ""] : Option (List SimpleCmd)).isSome = true →
      ∃ e ∈ (runConstruct "(gold > 5)" [SimpleCmd.gotoScene "rich"]
          [("(gold < 2)", [SimpleCmd.text "poor"])] (some [SimpleCmd.finish ""])
          oneNodeState).1.graph.edges,
        e.source = (flushTextBuffer oneNodeState).currentNode.getD "" ∧
        e.attributes.condition =
          some ("not(" ++ accCond "(gold > 5)"
            (([("(gold < 2)", [SimpleCmd.text "poor"])] :
              List (String × List SimpleCmd)).map Prod.fst) ++ ")")) ∧
    ((processGame spIfElse).graph.nodes.map
       (fun kv => (kv.1, kv.2.type, kv.2.attributes.condition)) =
      [("node_1", "scene_entry", none), ("node_2", "conditional", some "(gold > 5)"),
       ("node_3", "goto", none), ("node_4", "conditional", some "not((gold > 5))"),
       ("node_5", "goto", none), ("node_6", "merge", none)]) ∧
    ((processGame spIfElse).graph.edges.map
       (fun e => (e.source, e.target, e.attributes.condition)) =
      [("node_1", "node_2", some "(gold > 5)"), ("node_2", "node_3", none),
       ("node_1", "node_4", some "not((gold > 5))"), ("node_4", "node_5", none),
       ("node_3", "node_6", none), ("node_5", "node_6", none)]) :=
  claim_C5 "(gold > 5)" [SimpleCmd.gotoScene "rich"]
    [("(gold < 2)", [SimpleCmd.text "poor"])] (some [SimpleCmd.finish ""])
    oneNodeState oneNodeState_cinv

/-- C7 amended at concrete inputs. -/
theorem claim_C7_amended_witness :
    ((processReturn oneNodeState).2.isSome = true ↔
      oneNodeState.subroutineStack = []) ∧
    ((processElseIf "(x > 1)" oneNodeState).2.isSome = true ↔
      oneNodeState.conditionalStack = []) ∧
    ((processElse oneNodeState).2.isSome = true ↔
      oneNodeState.conditionalStack = []) ∧
    ((endConditional oneNodeState).2.isSome = true ↔
      oneNodeState.conditionalStack = []) :=
  claim_C7_amended "(x > 1)" oneNodeState

end StateMachine
